import Mathlib

/-!
UnoCard: the rule-based opponents (AI.cpp) over the card and player model

Shallow embedding of `src/UnoCard/src/AI.cpp`, `Card.cpp`, `Player.cpp` and of the
parts of `Uno.h` they use.  A `Card*` is an address (`CardPtr`); the card object an
address designates is read through `Uno.card`.  `nullptr` is `Option.none`.
C++ `int` values are `Int`; hand sizes never approach the range limit of `int`.
-/

namespace UnoCard

/-! ## Data model (Uno.h, Card.cpp, Player.cpp) -/

/-- Uno.h, `enum Color { NONE, RED, BLUE, GREEN, YELLOW }`. -/
inductive Color where
  | NONE
  | RED
  | BLUE
  | GREEN
  | YELLOW
  deriving DecidableEq

/-- Uno.h, `enum Content`. -/
inductive Content where
  | NUM0
  | NUM1
  | NUM2
  | NUM3
  | NUM4
  | NUM5
  | NUM6
  | NUM7
  | NUM8
  | NUM9
  | DRAW2
  | SKIP
  | REV
  | WILD
  | WILD_DRAW4
  deriving DecidableEq

/-- The enumerator value of a colour (`NONE = 0` ... `YELLOW = 4`). -/
def Color.toNat : Color → Nat
  | .NONE => 0
  | .RED => 1
  | .BLUE => 2
  | .GREEN => 3
  | .YELLOW => 4

/-- The cast `Color(k)` as used on `rand() % 4 + 1`, whose argument lies in 1..4. -/
def Color.ofCode : Nat → Color
  | 1 => .RED
  | 2 => .BLUE
  | 3 => .GREEN
  | 4 => .YELLOW
  | _ => .NONE

/-- The fields of a `Card` object the rules read: `color` and `content`. -/
structure Card where
  color : Color
  content : Content
  deriving DecidableEq

/-- Card.cpp, `Card::getRealColor`: returns the field `color`. -/
def Card.getRealColor (c : Card) : Color := c.color

/-- Card.cpp, `Card::isWild`. -/
def Card.isWild (c : Card) : Bool :=
  c.content == Content.WILD || c.content == Content.WILD_DRAW4

/-- A `Card*`: the address of a card object. -/
abbrev CardPtr := Nat

/-- Player.cpp / Uno.h, the fields of `Player`. -/
structure Player where
  handCards : List CardPtr
  recent : Option CardPtr
  strongColor : Color
  weakColor : Color

/-- Player.cpp, `Player::getHandSize`: `int(handCards.size())`. -/
def Player.getHandSize (p : Player) : Int := (p.handCards.length : Int)

/-- The class constant `Uno::MAX_HOLD_CARDS` that AI.cpp and main.cpp read.  Its
declaration is not among the sources: Uno.h here is an older header whose macro
`MAX_HOLD_CARDS 15` these files do not compile against.  Their comments put the constant
at 14: "Challenge when I have 10 or more cards already" on the test
`size >= Uno::MAX_HOLD_CARDS - 4` (AI.cpp 131-134, main.cpp 938-940) and "When you are
holding 14 cards, which means you cannot hold more cards" on the test
`yourSize == Uno::MAX_HOLD_CARDS` (AI.cpp 1038-1040, main.cpp 880-882). -/
def MAX_HOLD_CARDS : Int := 14

/-- Uno.h, `DIR_LEFT`. -/
def DIR_LEFT : Nat := 1

/-- Uno.h, `DIR_RIGHT`. -/
def DIR_RIGHT : Nat := 3

/-- The runtime state of the `Uno` singleton that the rules read: the card objects
(`card`), the acting seat (`now`), the direction, the four players, the deck, the used
pile and the recent-played list (its last element is the top of the discard). -/
structure Uno where
  card : CardPtr → Card
  now : Nat
  direction : Nat
  player : Nat → Player
  deck : List CardPtr
  used : List CardPtr
  recent : List CardPtr

/-- Modelled from the spec: the accessor `Uno::getNext` called by AI.cpp has no body among
the sources.  The seat after the acting one, `(now + direction) % 4`, as Uno.h documents
under `getDirection` and as main.cpp computes it in `easyAI`. -/
def Uno.getNext (u : Uno) : Nat := (u.now + u.direction) % 4

/-- Modelled from the spec: the accessor `Uno::getOppo` called by AI.cpp has no body among
the sources.  The seat opposite the acting one, `(now + 2) % 4`, as main.cpp computes it
in `easyAI`. -/
def Uno.getOppo (u : Uno) : Nat := (u.now + 2) % 4

/-- Modelled from the spec: the accessor `Uno::getPrev` called by AI.cpp has no body among
the sources.  The seat before the acting one, `(4 + now - direction) % 4`, as Uno.h
documents under `getDirection` and as main.cpp computes it in `easyAI`; the direction is
`DIR_LEFT` or `DIR_RIGHT`, so the subtraction does not go below zero. -/
def Uno.getPrev (u : Uno) : Nat := (4 + u.now - u.direction) % 4

/-- Modelled from the spec: the body of `Uno::isLegalToPlay` (declared in Uno.h, defined
in a file that is not among the sources).  True iff the card is wild, or its colour
equals the colour of the top of the discard, or its content equals the content of the
top of the discard.  With no discard only a wild card is legal. -/
def Uno.isLegalToPlay (u : Uno) (p : CardPtr) : Bool :=
  (u.card p).isWild ||
    (match u.recent.getLast? with
     | none => false
     | some top =>
       (u.card p).color == (u.card top).color || (u.card p).content == (u.card top).content)

/-- The element `hand.at(i)` for an `int` index, `none` when `at` throws. -/
def handAt (hand : List CardPtr) (i : Int) : Option CardPtr :=
  if 0 ≤ i then hand[i.toNat]? else none

/-- The value `hand.at(i)->getRealColor()`.  Every use in AI.cpp is guarded by the flag
of the slot `i` comes from, so the index is in range (`SlotOK.inRange` below); out of
range, where `at` throws, the value here is `NONE`. -/
def colorAt (u : Uno) (hand : List CardPtr) (i : Int) : Color :=
  match handAt hand i with
  | some p => (u.card p).getRealColor
  | none => Color.NONE

/-- The value `hand.at(i)->content`, under the same guard as `colorAt`; `none` out of
range. -/
def contentAt (u : Uno) (hand : List CardPtr) (i : Int) : Option Content :=
  match handAt hand i with
  | some p => some (u.card p).content
  | none => none

/-! ## calcBestColor4NowPlayer (AI.cpp 30-68) -/

/-- The array write `score[c] += w`. -/
def addScore (score : Color → Int) (c : Color) (w : Int) : Color → Int :=
  fun k => if k = c then score k + w else score k

/-- The body of the `for` loop of `calcBestColor4NowPlayer`: the `switch` on the content. -/
def calcBestColorStep (u : Uno) (score : Color → Int) (p : CardPtr) : Color → Int :=
  match (u.card p).content with
  | .REV => addScore score (u.card p).getRealColor 2
  | .NUM0 => addScore score (u.card p).getRealColor 2
  | .SKIP => addScore score (u.card p).getRealColor 5
  | .DRAW2 => addScore score (u.card p).getRealColor 5
  | _ => addScore score (u.card p).getRealColor 4

/-- The `score` array after the loop over a hand. -/
def calcBestColorScores (u : Uno) (hand : List CardPtr) : Color → Int :=
  hand.foldl (calcBestColorStep u) (fun _ => 0)

/-- The three comparisons that follow the loop. -/
def pickBestColor (score : Color → Int) : Color :=
  let best := Color.RED
  let best := if score Color.BLUE > score best then Color.BLUE else best
  let best := if score Color.GREEN > score best then Color.GREEN else best
  let best := if score Color.YELLOW > score best then Color.YELLOW else best
  best

/-- AI.cpp, `calcBestColor4NowPlayer`. -/
def calcBestColor4NowPlayer (u : Uno) : Color :=
  pickBestColor (calcBestColorScores u (u.player u.now).handCards)

/-! ## bestSwapTarget4NowPlayer (AI.cpp 78-112) -/

/-- The condition of both `if` statements of `bestSwapTarget4NowPlayer`, for a candidate
`cand` against the current `target`. -/
def swapOverride (cand target : Player) (lastColor : Color) : Bool :=
  (decide (cand.getHandSize < target.getHandSize) && cand.weakColor != lastColor) ||
    (cand.strongColor == lastColor && target.strongColor != lastColor)

/-- AI.cpp, `AI::bestSwapTarget4NowPlayer`; `none` when `getRecent().back()` has no
element to return. -/
def bestSwapTarget4NowPlayer (u : Uno) : Option Nat :=
  match u.recent.getLast? with
  | none => none
  | some last =>
    let who := u.getPrev
    let target := u.player who
    let lastColor := (u.card last).getRealColor
    let oppo := u.player u.getOppo
    let who := if swapOverride oppo target lastColor then u.getOppo else who
    let target := u.player who
    let next := u.player u.getNext
    let who := if swapOverride next target lastColor then u.getNext else who
    some who

/-! ## needToChallenge (AI.cpp 122-147) -/

/-- AI.cpp, `AI::needToChallenge`; `none` when `recent.at(recent.size() - 2)` throws
(fewer than two cards in the recent-played list). -/
def needToChallenge (u : Uno) (challenger : Nat) : Option Bool :=
  let size := (u.player challenger).getHandSize
  if size = 1 ∨ size ≥ MAX_HOLD_CARDS - 4 then
    some true
  else
    let recent := u.recent
    if recent.length < 2 then
      none
    else
      match recent[recent.length - 2]?, recent.getLast? with
      | some next2last, some last =>
        let colorBeforeDraw4 := (u.card next2last).getRealColor
        let draw4Color := (u.card last).getRealColor
        some (draw4Color == colorBeforeDraw4)
      | _, _ => none

/-! ## The legality test shared by the three strategies -/

/-- The variable `legal` of the scanning loops: `isLegalToPlay(card)` when no drawn card
was passed, `card == drawnCard` (pointer equality) otherwise. -/
def legalNow (u : Uno) (drawnCard : Option CardPtr) (p : CardPtr) : Bool :=
  match drawnCard with
  | none => u.isLegalToPlay p
  | some d => p == d

/-- The one-card case shared by the three strategies (AI.cpp 183-188, 342-347,
1104-1109): out-colour is the colour of the card, index 0 when it is legal, else -1. -/
def oneCardCase (u : Uno) (p : CardPtr) : Int × Color :=
  ((if u.isLegalToPlay p then 0 else -1), (u.card p).getRealColor)

/-! ## easyAI_bestCardIndex4NowPlayer (AI.cpp 167-299) -/

/-- The flags and indices filled by the scanning loop of the easy strategy. -/
structure EasyScan where
  hasNum : Bool
  hasRev : Bool
  hasSkip : Bool
  hasDraw2 : Bool
  hasWild : Bool
  hasWD4 : Bool
  idxNum : Int
  idxRev : Int
  idxSkip : Int
  idxDraw2 : Int
  idxWild : Int
  idxWD4 : Int

/-- The initial values (AI.cpp 190-191). -/
def EasyScan.init : EasyScan :=
  { hasNum := false, hasRev := false, hasSkip := false, hasDraw2 := false,
    hasWild := false, hasWD4 := false,
    idxNum := -1, idxRev := -1, idxSkip := -1, idxDraw2 := -1, idxWild := -1, idxWD4 := -1 }

/-- The body of the scanning loop (AI.cpp 195-244) at index `i` holding card `p`. -/
def easyScanStep (u : Uno) (drawnCard : Option CardPtr) (bestColor : Color)
    (st : EasyScan) (i : Nat) (p : CardPtr) : EasyScan :=
  if legalNow u drawnCard p then
    match (u.card p).content with
    | .DRAW2 =>
      if st.hasDraw2 = false ∨ (u.card p).getRealColor = bestColor then
        { st with idxDraw2 := (i : Int), hasDraw2 := true }
      else st
    | .SKIP =>
      if st.hasSkip = false ∨ (u.card p).getRealColor = bestColor then
        { st with idxSkip := (i : Int), hasSkip := true }
      else st
    | .REV =>
      if st.hasRev = false ∨ (u.card p).getRealColor = bestColor then
        { st with idxRev := (i : Int), hasRev := true }
      else st
    | .WILD => { st with idxWild := (i : Int), hasWild := true }
    | .WILD_DRAW4 => { st with idxWD4 := (i : Int), hasWD4 := true }
    | _ =>
      if st.hasNum = false ∨ (u.card p).getRealColor = bestColor then
        { st with idxNum := (i : Int), hasNum := true }
      else st
  else st

/-- The scanning loop `for (i = 0; i < yourSize; ++i)`, from index `i` over the rest of
the hand. -/
def easyScanLoop (u : Uno) (drawnCard : Option CardPtr) (bestColor : Color) :
    List CardPtr → Nat → EasyScan → EasyScan
  | [], _, st => st
  | p :: ps, i, st =>
    easyScanLoop u drawnCard bestColor ps (i + 1) (easyScanStep u drawnCard bestColor st i p)

/-- The decision tree of the easy strategy (AI.cpp 247-295): the final `idxBest`. -/
def easyDecision (st : EasyScan) (nextSize prevSize : Int) (lastColor bestColor : Color) :
    Int :=
  if nextSize = 1 then
    if st.hasDraw2 then st.idxDraw2
    else if st.hasSkip then st.idxSkip
    else if st.hasRev then st.idxRev
    else if st.hasWD4 ∧ lastColor ≠ bestColor then st.idxWD4
    else if st.hasWild ∧ lastColor ≠ bestColor then st.idxWild
    else if st.hasNum then st.idxNum
    else -1
  else
    if st.hasRev ∧ prevSize > nextSize then st.idxRev
    else if st.hasNum then st.idxNum
    else if st.hasSkip then st.idxSkip
    else if st.hasDraw2 then st.idxDraw2
    else if st.hasRev ∧ prevSize > 1 then st.idxRev
    else if st.hasWild then st.idxWild
    else if st.hasWD4 then st.idxWD4
    else -1

/-- AI.cpp, `AI::easyAI_bestCardIndex4NowPlayer`.  The result is the returned index and
the value left in `outColor[0]` (the slot is taken to exist: the throw on a null
`outColor` is outside the model); `none` when `getRecent().back()` has no element. -/
def easyAI_bestCardIndex4NowPlayer (u : Uno) (drawnCard : Option CardPtr) :
    Option (Int × Color) :=
  let hand := (u.player u.now).handCards
  match hand with
  | [p] => some (oneCardCase u p)
  | _ =>
    match u.recent.getLast? with
    | none => none
    | some last =>
      let bestColor := calcBestColor4NowPlayer u
      let lastColor := (u.card last).getRealColor
      let st := easyScanLoop u drawnCard bestColor hand 0 EasyScan.init
      let nextSize := (u.player u.getNext).getHandSize
      let prevSize := (u.player u.getPrev).getHandSize
      some (easyDecision st nextSize prevSize lastColor bestColor, bestColor)

/-! ## hardAI_bestCardIndex4NowPlayer (AI.cpp 319-1062) -/

/-- The flags and indices filled by the scanning loop of the hard strategy; `hasNumIn`
and `idxNumIn` are the arrays indexed by colour. -/
structure HardScan where
  allWild : Bool
  hasNumIn : Color → Bool
  hasRev : Bool
  hasSkip : Bool
  hasDraw2 : Bool
  hasWild : Bool
  hasWD4 : Bool
  idxNumIn : Color → Int
  idxRev : Int
  idxSkip : Int
  idxDraw2 : Int
  idxWild : Int
  idxWD4 : Int

/-- The initial values (AI.cpp 349-355). -/
def HardScan.init : HardScan :=
  { allWild := true, hasNumIn := fun _ => false,
    hasRev := false, hasSkip := false, hasDraw2 := false, hasWild := false, hasWD4 := false,
    idxNumIn := fun _ => -1,
    idxRev := -1, idxSkip := -1, idxDraw2 := -1, idxWild := -1, idxWD4 := -1 }

/-- The array write `a[c] = x`. -/
def setAt {α : Type} (a : Color → α) (c : Color) (x : α) : Color → α :=
  fun k => if k = c then x else a k

/-- The `switch` of the scanning loop (AI.cpp 368-406) for a legal card. -/
def hardScanSwitch (u : Uno) (bestColor : Color) (st : HardScan) (i : Nat) (p : CardPtr) :
    HardScan :=
  match (u.card p).content with
  | .DRAW2 =>
    if st.hasDraw2 = false ∨ (u.card p).getRealColor = bestColor then
      { st with idxDraw2 := (i : Int), hasDraw2 := true }
    else st
  | .SKIP =>
    if st.hasSkip = false ∨ (u.card p).getRealColor = bestColor then
      { st with idxSkip := (i : Int), hasSkip := true }
    else st
  | .REV =>
    if st.hasRev = false ∨ (u.card p).getRealColor = bestColor then
      { st with idxRev := (i : Int), hasRev := true }
    else st
  | .WILD => { st with idxWild := (i : Int), hasWild := true }
  | .WILD_DRAW4 => { st with idxWD4 := (i : Int), hasWD4 := true }
  | _ =>
    if st.hasNumIn (u.card p).getRealColor = false then
      { st with idxNumIn := setAt st.idxNumIn (u.card p).getRealColor (i : Int),
                hasNumIn := setAt st.hasNumIn (u.card p).getRealColor true }
    else st

/-- The body of the scanning loop (AI.cpp 357-407) at index `i` holding card `p`. -/
def hardScanStep (u : Uno) (drawnCard : Option CardPtr) (bestColor : Color)
    (st : HardScan) (i : Nat) (p : CardPtr) : HardScan :=
  let st := { st with allWild := st.allWild && (u.card p).isWild }
  if legalNow u drawnCard p then hardScanSwitch u bestColor st i p else st

/-- The scanning loop `for (i = 0; i < yourSize; ++i)`, from index `i` over the rest of
the hand. -/
def hardScanLoop (u : Uno) (drawnCard : Option CardPtr) (bestColor : Color) :
    List CardPtr → Nat → HardScan → HardScan
  | [], _, st => st
  | p :: ps, i, st =>
    hardScanLoop u drawnCard bestColor ps (i + 1) (hardScanStep u drawnCard bestColor st i p)

/-- The locals of the hard strategy once the scan is done and the opponents are read
(AI.cpp 353-422).  `prevRecentIsNull` is `prev->getRecent() == nullptr`. -/
structure HardLocals where
  hand : List CardPtr
  st : HardScan
  bestColor : Color
  lastColor : Color
  yourSize : Int
  nextSize : Int
  oppoSize : Int
  prevSize : Int
  nextWeakColor : Color
  oppoWeakColor : Color
  prevWeakColor : Color
  nextStrongColor : Color
  oppoStrongColor : Color
  prevStrongColor : Color
  prevRecentIsNull : Bool

/-- The locals for state `u`, drawn card `drawnCard` and top of discard `last`. -/
def hardLocals (u : Uno) (drawnCard : Option CardPtr) (last : CardPtr) : HardLocals :=
  let hand := (u.player u.now).handCards
  let bestColor := calcBestColor4NowPlayer u
  let next := u.player u.getNext
  let oppo := u.player u.getOppo
  let prev := u.player u.getPrev
  { hand := hand,
    st := hardScanLoop u drawnCard bestColor hand 0 HardScan.init,
    bestColor := bestColor,
    lastColor := (u.card last).getRealColor,
    yourSize := (hand.length : Int),
    nextSize := next.getHandSize,
    oppoSize := oppo.getHandSize,
    prevSize := prev.getHandSize,
    nextWeakColor := next.weakColor,
    oppoWeakColor := oppo.weakColor,
    prevWeakColor := prev.weakColor,
    nextStrongColor := next.strongColor,
    oppoStrongColor := oppo.strongColor,
    prevStrongColor := prev.strongColor,
    prevRecentIsNull := prev.recent.isNone }

/-- The safe colour before the random loop (AI.cpp 434-440, 608-614, 727-733), for the
strong and weak colour of the opponent who holds one card. -/
def initialSafeColor (strong weak bestColor : Color) : Color :=
  if (strong ≠ Color.NONE ∧ strong ≠ bestColor) ∨ weak = Color.NONE then bestColor else weak

/-- The loop `while (cond(c)) c = Color(rand() % 4 + 1);` run on the successive results
`rands` of `rand()`.  `none` when the results supplied run out while the condition still
holds. -/
def randomColorLoop (cond : Color → Bool) (c : Color) : List Nat → Option Color
  | [] => if cond c then none else some c
  | r :: rs => if cond c then randomColorLoop cond (Color.ofCode (r % 4 + 1)) rs else some c

/-- Loop condition at AI.cpp 442-444 (next player holds one card). -/
def nextLoopCond (v : HardLocals) (safeColor : Color) : Bool :=
  safeColor == v.nextStrongColor
    || (decide (v.oppoSize = 1) && safeColor == v.oppoStrongColor)
    || (decide (v.prevSize = 1) && safeColor == v.prevStrongColor)

/-- Loop condition at AI.cpp 616-617 (previous player holds one card). -/
def prevLoopCond (v : HardLocals) (safeColor : Color) : Bool :=
  safeColor == v.prevStrongColor
    || (decide (v.oppoSize = 1) && safeColor == v.oppoStrongColor)

/-- Loop condition at AI.cpp 735 (opposite player holds one card). -/
def oppoLoopCond (v : HardLocals) (safeColor : Color) : Bool :=
  safeColor == v.oppoStrongColor

/-- Loop condition at AI.cpp 906-908 (only wild cards in hand). -/
def allWildLoopCond (v : HardLocals) (bestColor : Color) : Bool :=
  bestColor == v.prevStrongColor
    || bestColor == v.oppoStrongColor
    || bestColor == v.nextStrongColor

/-- AI.cpp 451-600: the next player holds one card, no legal +2, safe colour computed.
The result is `(idxBest, bestColor)`. -/
def hardNextDash (u : Uno) (v : HardLocals) (safeColor : Color) : Int × Color :=
  if v.lastColor = v.nextStrongColor then
    if v.st.hasNumIn safeColor then (v.st.idxNumIn safeColor, v.bestColor)
    else if v.st.hasNumIn .RED ∧ (v.prevSize > 1 ∨ v.prevStrongColor ≠ .RED) ∧
        (v.oppoSize > 1 ∨ v.oppoStrongColor ≠ .RED) ∧ v.nextStrongColor ≠ .RED then
      (v.st.idxNumIn .RED, v.bestColor)
    else if v.st.hasNumIn .BLUE ∧ (v.prevSize > 1 ∨ v.prevStrongColor ≠ .BLUE) ∧
        (v.oppoSize > 1 ∨ v.oppoStrongColor ≠ .BLUE) ∧ v.nextStrongColor ≠ .BLUE then
      (v.st.idxNumIn .BLUE, v.bestColor)
    else if v.st.hasNumIn .GREEN ∧ (v.prevSize > 1 ∨ v.prevStrongColor ≠ .GREEN) ∧
        (v.oppoSize > 1 ∨ v.oppoStrongColor ≠ .GREEN) ∧ v.nextStrongColor ≠ .GREEN then
      (v.st.idxNumIn .GREEN, v.bestColor)
    else if v.st.hasNumIn .YELLOW ∧ (v.prevSize > 1 ∨ v.prevStrongColor ≠ .YELLOW) ∧
        (v.oppoSize > 1 ∨ v.oppoStrongColor ≠ .YELLOW) ∧ v.nextStrongColor ≠ .YELLOW then
      (v.st.idxNumIn .YELLOW, v.bestColor)
    else if v.st.hasSkip then (v.st.idxSkip, v.bestColor)
    else if v.st.hasWD4 then (v.st.idxWD4, safeColor)
    else if v.st.hasWild then (v.st.idxWild, safeColor)
    else if v.st.hasRev then (v.st.idxRev, v.bestColor)
    else (-1, v.bestColor)
  else if v.nextStrongColor ≠ Color.NONE then
    if v.st.hasNumIn safeColor then (v.st.idxNumIn safeColor, v.bestColor)
    else if v.st.hasNumIn .RED ∧ (v.prevSize > 1 ∨ v.prevStrongColor ≠ .RED) ∧
        (v.oppoSize > 1 ∨ v.oppoStrongColor ≠ .RED) ∧ v.nextStrongColor ≠ .RED then
      (v.st.idxNumIn .RED, v.bestColor)
    else if v.st.hasNumIn .BLUE ∧ (v.prevSize > 1 ∨ v.prevStrongColor ≠ .BLUE) ∧
        (v.oppoSize > 1 ∨ v.oppoStrongColor ≠ .BLUE) ∧ v.nextStrongColor ≠ .BLUE then
      (v.st.idxNumIn .BLUE, v.bestColor)
    else if v.st.hasNumIn .GREEN ∧ (v.prevSize > 1 ∨ v.prevStrongColor ≠ .GREEN) ∧
        (v.oppoSize > 1 ∨ v.oppoStrongColor ≠ .GREEN) ∧ v.nextStrongColor ≠ .GREEN then
      (v.st.idxNumIn .GREEN, v.bestColor)
    else if v.st.hasNumIn .YELLOW ∧ (v.prevSize > 1 ∨ v.prevStrongColor ≠ .YELLOW) ∧
        (v.oppoSize > 1 ∨ v.oppoStrongColor ≠ .YELLOW) ∧ v.nextStrongColor ≠ .YELLOW then
      (v.st.idxNumIn .YELLOW, v.bestColor)
    else if v.st.hasRev ∧ v.prevSize ≥ 4 ∧
        colorAt u v.hand v.st.idxRev ≠ v.nextStrongColor then
      (v.st.idxRev, v.bestColor)
    else if v.st.hasSkip ∧ colorAt u v.hand v.st.idxSkip ≠ v.nextStrongColor then
      (v.st.idxSkip, v.bestColor)
    else (-1, v.bestColor)
  else
    if v.st.hasSkip then (v.st.idxSkip, v.bestColor)
    else if v.st.hasWD4 ∧ v.st.hasNumIn v.lastColor = false then
      (v.st.idxWD4, if v.oppoSize = 1 ∨ v.prevSize = 1 then safeColor else v.bestColor)
    else if v.st.hasRev then (v.st.idxRev, v.bestColor)
    else if v.st.hasNumIn safeColor then (v.st.idxNumIn safeColor, v.bestColor)
    else if v.lastColor ≠ safeColor then
      if v.st.hasWild then (v.st.idxWild, safeColor)
      else if v.st.hasWD4 then (v.st.idxWD4, safeColor)
      else if v.st.hasNumIn .RED ∧ (v.prevSize > 1 ∨ v.prevStrongColor ≠ .RED) ∧
          (v.oppoSize > 1 ∨ v.oppoStrongColor ≠ .RED) then
        (v.st.idxNumIn .RED, v.bestColor)
      else if v.st.hasNumIn .BLUE ∧ (v.prevSize > 1 ∨ v.prevStrongColor ≠ .BLUE) ∧
          (v.oppoSize > 1 ∨ v.oppoStrongColor ≠ .BLUE) then
        (v.st.idxNumIn .BLUE, v.bestColor)
      else if v.st.hasNumIn .GREEN ∧ (v.prevSize > 1 ∨ v.prevStrongColor ≠ .GREEN) ∧
          (v.oppoSize > 1 ∨ v.oppoStrongColor ≠ .GREEN) then
        (v.st.idxNumIn .GREEN, v.bestColor)
      else if v.st.hasNumIn .YELLOW ∧ (v.prevSize > 1 ∨ v.prevStrongColor ≠ .YELLOW) ∧
          (v.oppoSize > 1 ∨ v.oppoStrongColor ≠ .YELLOW) then
        (v.st.idxNumIn .YELLOW, v.bestColor)
      else (-1, v.bestColor)
    else (-1, v.bestColor)

/-- AI.cpp 624-719: the previous player holds one card, safe colour computed. -/
def hardPrevDash (u : Uno) (v : HardLocals) (safeColor : Color) : Int × Color :=
  if v.lastColor = v.prevStrongColor then
    if v.st.hasSkip ∧ colorAt u v.hand v.st.idxSkip ≠ v.prevStrongColor then
      (v.st.idxSkip, v.bestColor)
    else if v.st.hasWild then (v.st.idxWild, safeColor)
    else if v.st.hasWD4 then (v.st.idxWD4, safeColor)
    else if v.st.hasNumIn v.bestColor then (v.st.idxNumIn v.bestColor, v.bestColor)
    else if v.st.hasNumIn .RED then (v.st.idxNumIn .RED, v.bestColor)
    else if v.st.hasNumIn .BLUE then (v.st.idxNumIn .BLUE, v.bestColor)
    else if v.st.hasNumIn .GREEN then (v.st.idxNumIn .GREEN, v.bestColor)
    else if v.st.hasNumIn .YELLOW then (v.st.idxNumIn .YELLOW, v.bestColor)
    else (-1, v.bestColor)
  else if v.prevStrongColor ≠ Color.NONE then
    if v.st.hasNumIn safeColor then (v.st.idxNumIn safeColor, v.bestColor)
    else if v.st.hasNumIn .RED ∧ (v.oppoSize > 1 ∨ v.oppoStrongColor ≠ .RED) ∧
        v.prevStrongColor ≠ .RED then
      (v.st.idxNumIn .RED, v.bestColor)
    else if v.st.hasNumIn .BLUE ∧ (v.oppoSize > 1 ∨ v.oppoStrongColor ≠ .BLUE) ∧
        v.prevStrongColor ≠ .BLUE then
      (v.st.idxNumIn .BLUE, v.bestColor)
    else if v.st.hasNumIn .GREEN ∧ (v.oppoSize > 1 ∨ v.oppoStrongColor ≠ .GREEN) ∧
        v.prevStrongColor ≠ .GREEN then
      (v.st.idxNumIn .GREEN, v.bestColor)
    else if v.st.hasNumIn .YELLOW ∧ (v.oppoSize > 1 ∨ v.oppoStrongColor ≠ .YELLOW) ∧
        v.prevStrongColor ≠ .YELLOW then
      (v.st.idxNumIn .YELLOW, v.bestColor)
    else (-1, v.bestColor)
  else
    if v.st.hasNumIn safeColor then (v.st.idxNumIn safeColor, v.bestColor)
    else if v.st.hasWild ∧ v.lastColor ≠ safeColor then (v.st.idxWild, safeColor)
    else if v.st.hasWD4 ∧ v.lastColor ≠ safeColor then (v.st.idxWD4, safeColor)
    else if v.st.hasNumIn v.bestColor then (v.st.idxNumIn v.bestColor, v.bestColor)
    else if v.st.hasNumIn .RED then (v.st.idxNumIn .RED, v.bestColor)
    else if v.st.hasNumIn .BLUE then (v.st.idxNumIn .BLUE, v.bestColor)
    else if v.st.hasNumIn .GREEN then (v.st.idxNumIn .GREEN, v.bestColor)
    else if v.st.hasNumIn .YELLOW then (v.st.idxNumIn .YELLOW, v.bestColor)
    else (-1, v.bestColor)

/-- AI.cpp 742-890: the opposite player holds one card, safe colour computed. -/
def hardOppoDash (u : Uno) (v : HardLocals) (safeColor : Color) : Int × Color :=
  if v.lastColor = v.oppoStrongColor then
    if v.st.hasNumIn safeColor then (v.st.idxNumIn safeColor, v.bestColor)
    else if v.st.hasNumIn v.bestColor ∧ v.oppoStrongColor ≠ v.bestColor then
      (v.st.idxNumIn v.bestColor, v.bestColor)
    else if v.st.hasNumIn .RED ∧ v.oppoStrongColor ≠ .RED then (v.st.idxNumIn .RED, v.bestColor)
    else if v.st.hasNumIn .BLUE ∧ v.oppoStrongColor ≠ .BLUE then (v.st.idxNumIn .BLUE, v.bestColor)
    else if v.st.hasNumIn .GREEN ∧ v.oppoStrongColor ≠ .GREEN then (v.st.idxNumIn .GREEN, v.bestColor)
    else if v.st.hasNumIn .YELLOW ∧ v.oppoStrongColor ≠ .YELLOW then (v.st.idxNumIn .YELLOW, v.bestColor)
    else if v.st.hasRev ∧ colorAt u v.hand v.st.idxRev ≠ v.oppoStrongColor then
      (v.st.idxRev, v.bestColor)
    else if v.st.hasSkip ∧ colorAt u v.hand v.st.idxSkip ≠ v.oppoStrongColor then
      (v.st.idxSkip, v.bestColor)
    else if v.st.hasDraw2 ∧ colorAt u v.hand v.st.idxDraw2 ≠ v.oppoStrongColor then
      (v.st.idxDraw2, v.bestColor)
    else if v.st.hasWild then (v.st.idxWild, safeColor)
    else if v.st.hasWD4 then (v.st.idxWD4, safeColor)
    else if v.st.hasRev ∧ v.prevSize - v.nextSize ≥ 3 then (v.st.idxRev, v.bestColor)
    else if v.st.hasNumIn v.bestColor then (v.st.idxNumIn v.bestColor, v.bestColor)
    else if v.st.hasNumIn .RED then (v.st.idxNumIn .RED, v.bestColor)
    else if v.st.hasNumIn .BLUE then (v.st.idxNumIn .BLUE, v.bestColor)
    else if v.st.hasNumIn .GREEN then (v.st.idxNumIn .GREEN, v.bestColor)
    else if v.st.hasNumIn .YELLOW then (v.st.idxNumIn .YELLOW, v.bestColor)
    else (-1, v.bestColor)
  else if v.oppoStrongColor ≠ Color.NONE then
    if v.st.hasNumIn safeColor then (v.st.idxNumIn safeColor, v.bestColor)
    else if v.st.hasNumIn v.bestColor ∧ v.oppoStrongColor ≠ v.bestColor then
      (v.st.idxNumIn v.bestColor, v.bestColor)
    else if v.st.hasNumIn .RED ∧ v.oppoStrongColor ≠ .RED then (v.st.idxNumIn .RED, v.bestColor)
    else if v.st.hasNumIn .BLUE ∧ v.oppoStrongColor ≠ .BLUE then (v.st.idxNumIn .BLUE, v.bestColor)
    else if v.st.hasNumIn .GREEN ∧ v.oppoStrongColor ≠ .GREEN then (v.st.idxNumIn .GREEN, v.bestColor)
    else if v.st.hasNumIn .YELLOW ∧ v.oppoStrongColor ≠ .YELLOW then (v.st.idxNumIn .YELLOW, v.bestColor)
    else if v.st.hasRev ∧ colorAt u v.hand v.st.idxRev ≠ v.oppoStrongColor then
      (v.st.idxRev, v.bestColor)
    else if v.st.hasSkip ∧ v.nextSize ≤ 4 ∧
        colorAt u v.hand v.st.idxSkip ≠ v.oppoStrongColor then
      (v.st.idxSkip, v.bestColor)
    else if v.st.hasDraw2 ∧ v.nextSize ≤ 4 ∧
        colorAt u v.hand v.st.idxDraw2 ≠ v.oppoStrongColor then
      (v.st.idxDraw2, v.bestColor)
    else (-1, v.bestColor)
  else
    if v.st.hasRev ∧ v.prevSize - v.nextSize ≥ 3 then (v.st.idxRev, v.bestColor)
    else if v.st.hasNumIn safeColor then (v.st.idxNumIn safeColor, v.bestColor)
    else if v.st.hasNumIn .RED then (v.st.idxNumIn .RED, v.bestColor)
    else if v.st.hasNumIn .BLUE then (v.st.idxNumIn .BLUE, v.bestColor)
    else if v.st.hasNumIn .GREEN then (v.st.idxNumIn .GREEN, v.bestColor)
    else if v.st.hasNumIn .YELLOW then (v.st.idxNumIn .YELLOW, v.bestColor)
    else if v.st.hasWild ∧ v.lastColor ≠ safeColor then (v.st.idxWild, safeColor)
    else if v.st.hasWD4 ∧ v.lastColor ≠ safeColor ∧ v.nextSize ≤ 4 then
      (v.st.idxWD4, safeColor)
    else (-1, v.bestColor)

/-- AI.cpp 896-911: the colour declared when only wild cards are held. -/
def hardAllWildColor (v : HardLocals) (rands : List Nat) : Option Color :=
  if v.prevWeakColor ≠ Color.NONE then some v.prevWeakColor
  else if v.oppoWeakColor ≠ Color.NONE then some v.oppoWeakColor
  else if v.nextWeakColor ≠ Color.NONE then some v.nextWeakColor
  else randomColorLoop (allWildLoopCond v) v.bestColor rands

/-- AI.cpp 915-920: the wild card played when only wild cards are held. -/
def hardAllWildIndex (v : HardLocals) : Int :=
  if v.nextSize ≤ 4 then
    (if v.st.hasWD4 then v.st.idxWD4 else v.st.idxWild)
  else
    (if v.st.hasWild then v.st.idxWild else v.st.idxWD4)

/-- AI.cpp 922-961: the next player drew a card in its last action. -/
def hardNextDrew (u : Uno) (v : HardLocals) : Int × Color :=
  if v.st.hasRev ∧ v.prevSize - v.nextSize ≥ 3 then (v.st.idxRev, v.bestColor)
  else if v.st.hasNumIn v.nextWeakColor then (v.st.idxNumIn v.nextWeakColor, v.bestColor)
  else if v.st.hasNumIn v.bestColor then (v.st.idxNumIn v.bestColor, v.bestColor)
  else if v.st.hasNumIn .RED then (v.st.idxNumIn .RED, v.bestColor)
  else if v.st.hasNumIn .BLUE then (v.st.idxNumIn .BLUE, v.bestColor)
  else if v.st.hasNumIn .GREEN then (v.st.idxNumIn .GREEN, v.bestColor)
  else if v.st.hasNumIn .YELLOW then (v.st.idxNumIn .YELLOW, v.bestColor)
  else if v.st.hasRev ∧ (v.prevSize ≥ 4 ∨ v.prevRecentIsNull) then (v.st.idxRev, v.bestColor)
  else if v.st.hasSkip ∧ v.oppoSize ≥ 3 ∧ colorAt u v.hand v.st.idxSkip = v.bestColor then
    (v.st.idxSkip, v.bestColor)
  else if v.st.hasDraw2 ∧ v.oppoSize ≥ 3 ∧ colorAt u v.hand v.st.idxDraw2 = v.bestColor then
    (v.st.idxDraw2, v.bestColor)
  else (-1, v.bestColor)

/-- AI.cpp 1038-1057: the hand is full (`yourSize == Uno::MAX_HOLD_CARDS`). -/
def hardFullHand (v : HardLocals) : Int :=
  if v.st.hasSkip then v.st.idxSkip
  else if v.st.hasDraw2 then v.st.idxDraw2
  else if v.st.hasRev then v.st.idxRev
  else if v.st.hasWild then v.st.idxWild
  else if v.st.hasWD4 then v.st.idxWD4
  else -1

/-- AI.cpp 962-1058: normal strategies. -/
def hardNormal (u : Uno) (v : HardLocals) : Int × Color :=
  if v.st.hasDraw2 ∧ v.nextSize ≤ 4 ∧ v.nextSize - v.oppoSize ≤ 1 then
    (v.st.idxDraw2, v.bestColor)
  else if v.st.hasSkip ∧ v.nextSize ≤ 4 ∧ v.nextSize - v.oppoSize ≤ 1 then
    (v.st.idxSkip, v.bestColor)
  else if v.st.hasRev ∧ (v.prevSize - v.nextSize ≥ 3 ∨ v.prevRecentIsNull) then
    (v.st.idxRev, v.bestColor)
  else if v.st.hasNumIn v.bestColor then (v.st.idxNumIn v.bestColor, v.bestColor)
  else if v.st.hasNumIn .RED then (v.st.idxNumIn .RED, v.bestColor)
  else if v.st.hasNumIn .BLUE then (v.st.idxNumIn .BLUE, v.bestColor)
  else if v.st.hasNumIn .GREEN then (v.st.idxNumIn .GREEN, v.bestColor)
  else if v.st.hasNumIn .YELLOW then (v.st.idxNumIn .YELLOW, v.bestColor)
  else if v.st.hasRev ∧ v.prevSize ≥ 4 then (v.st.idxRev, v.bestColor)
  else if v.st.hasSkip ∧ v.oppoSize ≥ 3 ∧ colorAt u v.hand v.st.idxSkip = v.bestColor then
    (v.st.idxSkip, v.bestColor)
  else if v.st.hasDraw2 ∧ v.oppoSize ≥ 3 ∧ colorAt u v.hand v.st.idxDraw2 = v.bestColor then
    (v.st.idxDraw2, v.bestColor)
  else if v.st.hasWild ∧ v.nextSize ≤ 4 then (v.st.idxWild, v.bestColor)
  else if v.st.hasWD4 ∧ v.nextSize ≤ 4 then (v.st.idxWD4, v.bestColor)
  else if v.st.hasWild ∧ v.yourSize = 2 ∧ v.prevSize ≤ 3 then (v.st.idxWild, v.bestColor)
  else if v.st.hasWD4 ∧ v.yourSize = 2 ∧ v.prevSize ≤ 3 then (v.st.idxWD4, v.bestColor)
  else if v.yourSize = MAX_HOLD_CARDS then (hardFullHand v, v.bestColor)
  else (-1, v.bestColor)

/-- The decision tree of the hard strategy (AI.cpp 423-1061) on the locals `v`, with the
successive results `rands` of `rand()`.  `none` when a random colour loop does not end
on the results supplied. -/
def hardDecision (u : Uno) (v : HardLocals) (rands : List Nat) : Option (Int × Color) :=
  if v.nextSize = 1 then
    if v.st.hasDraw2 then some (v.st.idxDraw2, v.bestColor)
    else
      match randomColorLoop (nextLoopCond v)
          (initialSafeColor v.nextStrongColor v.nextWeakColor v.bestColor) rands with
      | none => none
      | some safeColor => some (hardNextDash u v safeColor)
  else if v.prevSize = 1 then
    match randomColorLoop (prevLoopCond v)
        (initialSafeColor v.prevStrongColor v.prevWeakColor v.bestColor) rands with
    | none => none
    | some safeColor => some (hardPrevDash u v safeColor)
  else if v.oppoSize = 1 then
    match randomColorLoop (oppoLoopCond v)
        (initialSafeColor v.oppoStrongColor v.oppoWeakColor v.bestColor) rands with
    | none => none
    | some safeColor => some (hardOppoDash u v safeColor)
  else if v.st.allWild then
    match hardAllWildColor v rands with
    | none => none
    | some bestColor => some (hardAllWildIndex v, bestColor)
  else if v.lastColor = v.nextWeakColor ∧ v.yourSize > 2 then some (hardNextDrew u v)
  else some (hardNormal u v)

/-- AI.cpp, `AI::hardAI_bestCardIndex4NowPlayer`, with the successive results `rands` of
`rand()`.  The result is the returned index and the value left in `outColor[0]`; `none`
when `getRecent().back()` has no element or when a random colour loop does not end on
the results supplied. -/
def hardAI_bestCardIndex4NowPlayer (u : Uno) (drawnCard : Option CardPtr)
    (rands : List Nat) : Option (Int × Color) :=
  match (u.player u.now).handCards with
  | [p] => some (oneCardCase u p)
  | _ =>
    match u.recent.getLast? with
    | none => none
    | some last => hardDecision u (hardLocals u drawnCard last) rands

/-! ## sevenZeroAI_bestCardIndex4NowPlayer (AI.cpp 1082-1338) -/

/-- The flags and indices filled by the scanning loop of the 7-0 strategy. -/
structure SevenZeroScan where
  has0 : Bool
  hasNum : Bool
  hasWild : Bool
  hasWD4 : Bool
  has7 : Bool
  hasRev : Bool
  hasSkip : Bool
  hasDraw2 : Bool
  idx0 : Int
  idxNum : Int
  idxWild : Int
  idxWD4 : Int
  idx7 : Int
  idxRev : Int
  idxSkip : Int
  idxDraw2 : Int

/-- The initial values (AI.cpp 1111-1114). -/
def SevenZeroScan.init : SevenZeroScan :=
  { has0 := false, hasNum := false, hasWild := false, hasWD4 := false,
    has7 := false, hasRev := false, hasSkip := false, hasDraw2 := false,
    idx0 := -1, idxNum := -1, idxWild := -1, idxWD4 := -1,
    idx7 := -1, idxRev := -1, idxSkip := -1, idxDraw2 := -1 }

/-- The body of the scanning loop (AI.cpp 1118-1181) at index `i` holding card `p`. -/
def sevenZeroScanStep (u : Uno) (drawnCard : Option CardPtr) (bestColor : Color)
    (st : SevenZeroScan) (i : Nat) (p : CardPtr) : SevenZeroScan :=
  if legalNow u drawnCard p then
    match (u.card p).content with
    | .DRAW2 =>
      if st.hasDraw2 = false ∨ (u.card p).getRealColor = bestColor then
        { st with idxDraw2 := (i : Int), hasDraw2 := true }
      else st
    | .SKIP =>
      if st.hasSkip = false ∨ (u.card p).getRealColor = bestColor then
        { st with idxSkip := (i : Int), hasSkip := true }
      else st
    | .REV =>
      if st.hasRev = false ∨ (u.card p).getRealColor = bestColor then
        { st with idxRev := (i : Int), hasRev := true }
      else st
    | .WILD => { st with idxWild := (i : Int), hasWild := true }
    | .WILD_DRAW4 => { st with idxWD4 := (i : Int), hasWD4 := true }
    | .NUM7 =>
      if st.has7 = false ∨ (u.card p).getRealColor = bestColor then
        { st with idx7 := (i : Int), has7 := true }
      else st
    | .NUM0 =>
      if st.has0 = false ∨ (u.card p).getRealColor = bestColor then
        { st with idx0 := (i : Int), has0 := true }
      else st
    | _ =>
      if st.hasNum = false ∨ (u.card p).getRealColor = bestColor then
        { st with idxNum := (i : Int), hasNum := true }
      else st
  else st

/-- The scanning loop `for (i = 0; i < yourSize; ++i)`, from index `i` over the rest of
the hand. -/
def sevenZeroScanLoop (u : Uno) (drawnCard : Option CardPtr) (bestColor : Color) :
    List CardPtr → Nat → SevenZeroScan → SevenZeroScan
  | [], _, st => st
  | p :: ps, i, st =>
    sevenZeroScanLoop u drawnCard bestColor ps (i + 1)
      (sevenZeroScanStep u drawnCard bestColor st i p)

/-- The decision tree of the 7-0 strategy (AI.cpp 1194-1334): the final `idxBest`. -/
def sevenZeroDecision (u : Uno) (hand : List CardPtr) (st : SevenZeroScan)
    (yourSize nextSize oppoSize prevSize : Int)
    (nextStrongColor oppoStrongColor prevStrongColor lastColor bestColor : Color) : Int :=
  if nextSize = 1 then
    if st.has7 ∧ (yourSize > 2 ∨
        (contentAt u hand (1 - st.idx7) ≠ some Content.NUM7 ∧
         contentAt u hand (1 - st.idx7) ≠ some Content.WILD ∧
         contentAt u hand (1 - st.idx7) ≠ some Content.WILD_DRAW4 ∧
         colorAt u hand (1 - st.idx7) ≠ colorAt u hand st.idx7)) then st.idx7
    else if st.has0 ∧ (yourSize > 2 ∨
        (contentAt u hand (1 - st.idx0) ≠ some Content.NUM0 ∧
         contentAt u hand (1 - st.idx0) ≠ some Content.WILD ∧
         contentAt u hand (1 - st.idx0) ≠ some Content.WILD_DRAW4 ∧
         colorAt u hand (1 - st.idx0) ≠ colorAt u hand st.idx0)) then st.idx0
    else if st.hasDraw2 then st.idxDraw2
    else if st.hasSkip then st.idxSkip
    else if st.hasRev then st.idxRev
    else if st.hasWD4 ∧ lastColor ≠ bestColor then st.idxWD4
    else if st.hasWild ∧ lastColor ≠ bestColor then st.idxWild
    else if st.hasNum ∧ colorAt u hand st.idxNum ≠ nextStrongColor then st.idxNum
    else if st.hasWild ∧ (st.has7 ∨ st.has0) then st.idxWild
    else -1
  else if prevSize = 1 then
    if st.has0 then st.idx0
    else if st.has7 then st.idx7
    else if st.hasNum then st.idxNum
    else if st.hasSkip ∧ colorAt u hand st.idxSkip ≠ prevStrongColor then st.idxSkip
    else if st.hasDraw2 ∧ colorAt u hand st.idxDraw2 ≠ prevStrongColor then st.idxDraw2
    else if st.hasWild ∧ bestColor ≠ prevStrongColor then st.idxWild
    else if st.hasWD4 ∧ bestColor ≠ prevStrongColor then st.idxWD4
    else -1
  else if oppoSize = 1 then
    if st.has7 then st.idx7
    else if st.has0 then st.idx0
    else if st.hasNum then st.idxNum
    else if st.hasRev ∧ prevSize > nextSize then st.idxRev
    else if st.hasSkip ∧ colorAt u hand st.idxSkip ≠ oppoStrongColor then st.idxSkip
    else if st.hasDraw2 ∧ colorAt u hand st.idxDraw2 ≠ oppoStrongColor then st.idxDraw2
    else if st.hasWild ∧ bestColor ≠ prevStrongColor then st.idxWild
    else if st.hasWD4 ∧ bestColor ≠ prevStrongColor then st.idxWD4
    else -1
  else
    if st.has0 ∧ colorAt u hand st.idx0 = prevStrongColor then st.idx0
    else if st.has7 ∧ (colorAt u hand st.idx7 = prevStrongColor ∨
        colorAt u hand st.idx7 = oppoStrongColor ∨
        colorAt u hand st.idx7 = nextStrongColor) then st.idx7
    else if st.hasRev ∧ prevSize > nextSize then st.idxRev
    else if st.hasNum then st.idxNum
    else if st.hasSkip then st.idxSkip
    else if st.hasDraw2 then st.idxDraw2
    else if st.hasRev then st.idxRev
    else if st.has0 ∧ (yourSize > 2 ∨
        (contentAt u hand (1 - st.idx0) ≠ some Content.NUM0 ∧
         contentAt u hand (1 - st.idx0) ≠ some Content.WILD ∧
         contentAt u hand (1 - st.idx0) ≠ some Content.WILD_DRAW4 ∧
         colorAt u hand (1 - st.idx0) ≠ colorAt u hand st.idx0)) then st.idx0
    else if st.has7 then st.idx7
    else if st.hasWild then st.idxWild
    else if st.hasWD4 then st.idxWD4
    else -1

/-- AI.cpp, `AI::sevenZeroAI_bestCardIndex4NowPlayer`.  The result is the returned index
and the value left in `outColor[0]`; `none` when `getRecent().back()` has no element. -/
def sevenZeroAI_bestCardIndex4NowPlayer (u : Uno) (drawnCard : Option CardPtr) :
    Option (Int × Color) :=
  let hand := (u.player u.now).handCards
  match hand with
  | [p] => some (oneCardCase u p)
  | _ =>
    match u.recent.getLast? with
    | none => none
    | some last =>
      let bestColor := calcBestColor4NowPlayer u
      let lastColor := (u.card last).getRealColor
      let st := sevenZeroScanLoop u drawnCard bestColor hand 0 SevenZeroScan.init
      let next := u.player u.getNext
      let oppo := u.player u.getOppo
      let prev := u.player u.getPrev
      some (sevenZeroDecision u hand st (hand.length : Int) next.getHandSize
        oppo.getHandSize prev.getHandSize next.strongColor oppo.strongColor
        prev.strongColor lastColor bestColor, bestColor)

/-! ## Card order, hand score and the challenge (Card.cpp, Player.cpp, main.cpp) -/

/-- The enumerator value of a content (`NUM0 = 0` ... `NUM9 = 9`, `DRAW2 = 10`,
`SKIP = 11`, `REV = 12`, `WILD = 13`, `WILD_DRAW4 = 14`). -/
def Content.toNat : Content → Nat
  | .NUM0 => 0
  | .NUM1 => 1
  | .NUM2 => 2
  | .NUM3 => 3
  | .NUM4 => 4
  | .NUM5 => 5
  | .NUM6 => 6
  | .NUM7 => 7
  | .NUM8 => 8
  | .NUM9 => 9
  | .DRAW2 => 10
  | .SKIP => 11
  | .REV => 12
  | .WILD => 13
  | .WILD_DRAW4 => 14

/-- Card.cpp, the constructor of `Card`: `order((color << 8) | content)`. -/
def Card.order (c : Card) : Nat := (c.color.toNat <<< 8) ||| c.content.toNat

/-- The body of the `for` loop of `Player::getHandScore`: the `switch` on the content. -/
def getHandScoreStep (card : CardPtr → Card) (score : Int) (p : CardPtr) : Int :=
  match (card p).content with
  | .WILD => score + 50
  | .WILD_DRAW4 => score + 50
  | .REV => score + 20
  | .SKIP => score + 20
  | .DRAW2 => score + 20
  | c => score + (c.toNat : Int)

/-- Player.cpp, `Player::getHandScore`, the card objects being read through `card`. -/
def Player.getHandScore (p : Player) (card : CardPtr → Card) : Int :=
  p.handCards.foldl (getHandScoreStep card) 0

/-- The seat after `who` in direction `direction`: `(who + direction) % 4`
(main.cpp, `easyAI`, line 173; Uno.h, documentation of `getDirection`). -/
def nextSeat (who direction : Nat) : Nat := (who + direction) % 4

/-- The seat before `who` in direction `direction`: `(4 + who - direction) % 4`
(main.cpp, `easyAI`, line 177, and `onChallenge`, line 1662; Uno.h, documentation of
`getDirection`). -/
def prevSeat (who direction : Nat) : Nat := (4 + who - direction) % 4

/-- The loop of `onChallenge` over the hand of the challenged player (main.cpp
1671-1678): `draw4IsLegal` becomes false, and the loop breaks, at the first card whose
colour is `colorBeforeDraw4`. -/
def draw4IsLegalLoop (u : Uno) (colorBeforeDraw4 : Color) : List CardPtr → Bool → Bool
  | [], draw4IsLegal => draw4IsLegal
  | card :: rest, draw4IsLegal =>
    if (u.card card).getRealColor = colorBeforeDraw4 then false
    else draw4IsLegalLoop u colorBeforeDraw4 rest draw4IsLegal

/-- The value of `draw4IsLegal` computed by `onChallenge` when the wild +4 is challenged
(main.cpp 1661-1678); `none` when `recent.at(recent.size() - 2)` throws. -/
def draw4IsLegal (u : Uno) (challenger : Nat) : Option Bool :=
  let prev := prevSeat challenger u.direction
  let recent := u.recent
  if recent.length < 2 then
    none
  else
    match recent[recent.length - 2]? with
    | none => none
    | some next2last =>
      let colorBeforeDraw4 := (u.card next2last).getRealColor
      some (draw4IsLegalLoop u colorBeforeDraw4 (u.player prev).handCards true)

/-- A call `draw(who, count)` of main.cpp: who is asked to draw, and how many cards. -/
structure DrawRequest where
  who : Nat
  count : Nat
  deriving DecidableEq

/-- main.cpp, `onChallenge`: the calls of `draw(who, count)` it makes, in order (the
messages, the waits and the flags `sChallenged`, `sChallengeAsk`, `sStatus` are left
out); `none` when `recent.at(recent.size() - 2)` throws. -/
def onChallenge (u : Uno) (challenger : Nat) (challenged : Bool) :
    Option (List DrawRequest) :=
  if challenged then
    match draw4IsLegal u challenger with
    | none => none
    | some legal =>
      if legal then
        some [{ who := challenger, count := 6 }]
      else
        some [{ who := prevSeat challenger u.direction, count := 4 }]
  else
    some [{ who := challenger, count := 4 }]

/-- main.cpp, `challengeAI` (926-953): the value of `challenge` passed to `onChallenge`
for the seat `who` in turn; `none` when `recent.at(recent.size() - 2)` throws. -/
def challengeAI (u : Uno) (who : Nat) : Option Bool :=
  let hand := (u.player who).handCards
  if hand.length = 1 then
    some true
  else if (hand.length : Int) ≥ MAX_HOLD_CARDS - 4 then
    some true
  else
    let recent := u.recent
    if recent.length < 2 then
      none
    else
      match recent[recent.length - 2]?, recent.getLast? with
      | some next2last, some last =>
        let colorBeforeDraw4 := (u.card next2last).getRealColor
        let draw4Color := (u.card last).getRealColor
        some (draw4Color == colorBeforeDraw4)
      | _, _ => none

/-! ## The runtime: start, draw, play, switchDirection (Uno.h 286-385) -/

/-- The content with the given enumerator value. -/
def Content.ofCode : Nat → Content
  | 0 => .NUM0
  | 1 => .NUM1
  | 2 => .NUM2
  | 3 => .NUM3
  | 4 => .NUM4
  | 5 => .NUM5
  | 6 => .NUM6
  | 7 => .NUM7
  | 8 => .NUM8
  | 9 => .NUM9
  | 10 => .DRAW2
  | 11 => .SKIP
  | 12 => .REV
  | 13 => .WILD
  | _ => .WILD_DRAW4

/-- Modelled from the spec: the filling of `Card table[108]` (Uno.h 391) is in a file that
is not among the sources.  For each of RED, BLUE, GREEN, YELLOW one NUM0, two each of
NUM1 .. NUM9 and two each of DRAW2, SKIP, REV (addresses 0 .. 99, 25 per colour), then
four WILD and four WILD_DRAW4 of colour NONE (addresses 100 .. 107). -/
def tableCard (i : CardPtr) : Card :=
  if i < 100 then
    { color := Color.ofCode (i / 25 + 1),
      content :=
        if i % 25 = 0 then Content.NUM0
        else if i % 25 ≤ 18 then Content.ofCode ((i % 25 + 1) / 2)
        else if i % 25 ≤ 20 then Content.DRAW2
        else if i % 25 ≤ 22 then Content.SKIP
        else Content.REV }
  else if i < 104 then { color := Color.NONE, content := Content.WILD }
  else { color := Color.NONE, content := Content.WILD_DRAW4 }

/-- The list `l` with `x` put at position `n % (l.length + 1)`: a random position for the
result `n` of `rand()`. -/
def insertAt (l : List CardPtr) (n : Nat) (x : CardPtr) : List CardPtr :=
  l.take (n % (l.length + 1)) ++ x :: l.drop (n % (l.length + 1))

/-- Modelled from the spec: shuffling, on the successive results `rs` of `rand()`; every
card is put at a random position of the shuffled rest. -/
def shuffleWith : List Nat → List CardPtr → List CardPtr
  | _, [] => []
  | rs, x :: xs => insertAt (shuffleWith rs.tail xs) (rs.headD 0) x

/-- Modelled from the spec: a hand is kept in sorted display order; the card `x` goes
before the first card of greater order. -/
def insertSorted (card : CardPtr → Card) : List CardPtr → CardPtr → List CardPtr
  | [], x => [x]
  | y :: ys, x =>
    if (card x).order < (card y).order then x :: y :: ys
    else y :: insertSorted card ys x

/-- The state with the player at seat `who` replaced. -/
def Uno.setPlayer (u : Uno) (who : Nat) (p : Player) : Uno :=
  { u with player := fun s => if s = who then p else u.player s }

/-- The colour of the top of the discard, NONE when nothing was played. -/
def Uno.topColor (u : Uno) : Color :=
  match u.recent.getLast? with
  | none => Color.NONE
  | some top => (u.card top).color

/-- Modelled from the spec: recycling in `Uno::draw`.  The used pile and everything in
the recent-played list except the most recent card go, shuffled, into the draw pile. -/
def Uno.recycle (u : Uno) (rs : List Nat) : Uno :=
  { u with deck := shuffleWith rs (u.used ++ u.recent.dropLast), used := [],
           recent := u.recent.getLast?.toList }

/-- The outcome of `Uno::draw`: a card, no card because of the hand limit, the exhausted
deck, or an invalid seat. -/
inductive DrawResult where
  | drawn (p : CardPtr)
  | noCard
  | exhausted
  | invalidSeat
  deriving DecidableEq

/-- Modelled from the spec: `Uno::draw` (declared at Uno.h 342; its body is in a file that
is not among the sources).  A draw by a seat whose hand already holds `MAX_HOLD_CARDS`
cards is a no-op that returns no card (the hand-size invariant and the failure semantics
of the specification; Uno.h 339-340).  Otherwise, if the draw pile is empty the used
cards are recycled, on the results `rs` of `rand()`; if it is still empty the deck is
exhausted; otherwise the front card goes into the hand, the `recent` marker of the
player is cleared and its weak colour becomes the colour of the top of the discard. -/
def Uno.draw (u : Uno) (rs : List Nat) (who : Nat) : Uno × DrawResult :=
  if who < 4 then
    if (u.player who).getHandSize = MAX_HOLD_CARDS then (u, DrawResult.noCard)
    else
      let u1 := if u.deck = [] then u.recycle rs else u
      match u1.deck with
      | [] => (u1, DrawResult.exhausted)
      | p :: rest =>
        ({ u1 with deck := rest }.setPlayer who
            { u1.player who with
              handCards := insertSorted u1.card (u1.player who).handCards p,
              recent := none,
              weakColor := u1.topColor },
          DrawResult.drawn p)
  else (u, DrawResult.invalidSeat)

/-- Modelled from the spec: `Uno::play` (declared at Uno.h 385; its body is in a file that
is not among the sources).  The card at `index` leaves the hand and is appended to the
recent-played list, the `recent` marker of the player becomes this card; a wild card is
stamped with the declared colour (Card.cpp keeps it in `color`, read by `getRealColor`)
and that colour becomes the strong colour of the player, a strong colour is cleared by a
non-wild card of that colour, and the weak colour is cleared by a card of that colour.
No card is played for an invalid seat or index. -/
def Uno.play (u : Uno) (who : Nat) (index : Int) (color : Color) : Uno × Option CardPtr :=
  if who < 4 then
    match handAt (u.player who).handCards index with
    | none => (u, none)
    | some p =>
      let wild := (u.card p).isWild
      let eff := if wild then color else (u.card p).color
      let pl := u.player who
      ({ u with
          card := fun q => if q = p then { u.card p with color := eff } else u.card q,
          recent := u.recent ++ [p] }.setPlayer who
          { handCards := pl.handCards.eraseIdx index.toNat,
            recent := some p,
            strongColor :=
              if wild then color
              else if pl.strongColor = eff then Color.NONE else pl.strongColor,
            weakColor := if pl.weakColor = eff then Color.NONE else pl.weakColor },
        some p)
  else (u, none)

/-- Modelled from the spec: `Uno::switchDirection` toggles the direction and returns the
new one. -/
def Uno.switchDirection (u : Uno) : Uno × Nat :=
  let d := if u.direction = DIR_LEFT then DIR_RIGHT else DIR_LEFT
  ({ u with direction := d }, d)

/-- Dealing in `Uno::start`: the front card of the draw pile goes into the hand of
`who`. -/
def Uno.deal (u : Uno) (who : Nat) : Uno :=
  match u.deck with
  | [] => u
  | p :: rest =>
    { u with deck := rest }.setPlayer who
      { u.player who with handCards := insertSorted u.card (u.player who).handCards p }

/-- One round of dealing: a card to each of the four seats. -/
def Uno.dealRound (u : Uno) : Uno := (((u.deal 0).deal 1).deal 2).deal 3

/-- The choice of the start card in `Uno::start`: the front card of the draw pile goes to
the recent-played list; a WILD_DRAW4 is put back at a random position and the choice is
made again.  `none` when the results `pos` of `rand()` run out first, or on an empty
draw pile. -/
def startCardLoop : Uno → List Nat → Option Uno
  | u, [] =>
    match u.deck with
    | [] => none
    | p :: rest =>
      if (u.card p).content = Content.WILD_DRAW4 then none
      else some { u with deck := rest, recent := [p] }
  | u, r :: rs =>
    match u.deck with
    | [] => none
    | p :: rest =>
      if (u.card p).content = Content.WILD_DRAW4 then
        startCardLoop { u with deck := insertAt rest r p } rs
      else some { u with deck := rest, recent := [p] }

/-- Modelled from the spec: `Uno::start` (declared at Uno.h 329; its body is in a file that
is not among the sources).  The 108 cards are rebuilt and shuffled on the results `rs` of
`rand()`, hands and piles are cleared, seven cards are dealt to each seat, the start card
is chosen with the results `pos`, and the direction is reset to `DIR_LEFT`. -/
def Uno.start (u : Uno) (rs pos : List Nat) : Option Uno :=
  startCardLoop
    (Nat.iterate Uno.dealRound 7
      { card := tableCard, now := u.now, direction := DIR_LEFT,
        player := fun _ =>
          { handCards := [], recent := none, strongColor := Color.NONE,
            weakColor := Color.NONE },
        deck := shuffleWith rs (List.range 108), used := [], recent := [] })
    pos

/-! ## The turn order of main.cpp: pass, draw, play -/

/-- main.cpp 25, `STAT_IDLE`. -/
def STAT_IDLE : Nat := 0x1111

/-- main.cpp 28, `STAT_GAME_OVER`. -/
def STAT_GAME_OVER : Nat := 0x4444

/-- The globals of main.cpp that the turn order reads or writes, with the runtime
`sUno`. -/
structure Game where
  uno : Uno
  sStatus : Nat
  sWinner : Nat
  sDrawnCard : Option CardPtr
  sImmPlayAsk : Bool
  sChallengeAsk : Bool

/-- main.cpp 961-969, `pass(who)`, up to its call `onStatusChanged(sStatus)`: the status
becomes the seat after `who`. -/
def Game.pass (g : Game) (who : Nat) : Game :=
  if who < 4 then { g with sStatus := (who + g.uno.direction) % 4 } else g

/-- main.cpp 1563-1622, the loop `for (i = 0; i < count; ++i)` of `draw`, with `n` rounds
left at round `i`; `rs i` are the results of `rand()` used by the call of `Uno::draw` in
round `i`.  The loop is left at the first call that returns no card. -/
def Game.drawLoop (who : Nat) (rs : Nat → List Nat) : Nat → Nat → Game → Game
  | 0, _, g => g
  | n + 1, i, g =>
    match g.uno.draw (rs i) who with
    | (u, DrawResult.drawn p) =>
      Game.drawLoop who rs n (i + 1) { g with uno := u, sDrawnCard := some p }
    | (u, _) => { g with uno := u, sDrawnCard := none }

/-- main.cpp 1556-1637, `draw(who, count)`, up to the call `onStatusChanged(sStatus)`. -/
def Game.draw (g : Game) (rs : Nat → List Nat) (who count : Nat) : Game :=
  let g1 := Game.drawLoop who rs count 0 { g with sStatus := STAT_IDLE }
  match g1.sDrawnCard with
  | some p =>
    if count = 1 ∧ g1.uno.isLegalToPlay p = true then
      { g1 with sStatus := who, sImmPlayAsk := true }
    else g1.pass who
  | none => g1.pass who

/-- main.cpp 1419-1546, `play(index, color)`, up to the call `onStatusChanged(sStatus)`;
the drawing of the screen is left out. -/
def Game.play (g : Game) (rs : Nat → List Nat) (index : Int) (color : Color) : Game :=
  let now := g.sStatus
  match g.uno.play now index color with
  | (u, none) => { g with uno := u, sStatus := STAT_IDLE }
  | (u, some card) =>
    let g1 : Game := { g with uno := u, sStatus := STAT_IDLE }
    if (u.player now).handCards.length = 0 then
      { g1 with sWinner := now, sStatus := STAT_GAME_OVER }
    else
      match (u.card card).content with
      | .DRAW2 => g1.draw rs ((now + u.direction) % 4) 2
      | .SKIP => { g1 with sStatus := ((now + u.direction) % 4 + u.direction) % 4 }
      | .REV =>
        { g1 with uno := u.switchDirection.1, sStatus := (now + u.switchDirection.2) % 4 }
      | .WILD => { g1 with sStatus := (now + u.direction) % 4 }
      | .WILD_DRAW4 => { g1 with sStatus := (now + u.direction) % 4, sChallengeAsk := true }
      | _ => { g1 with sStatus := (now + u.direction) % 4 }

/-- main.cpp 1651-1713, `onChallenge(challenger, challenged)`, up to the call
`onStatusChanged(sStatus)` made by `draw`; `rs` are the results of `rand()` used by the
calls of `Uno::draw`.  The flag `sChallenged`, read only when the screen is drawn, and the
messages are left out; `none` when `recent.at(recent.size() - 2)` throws. -/
def Game.onChallenge (g : Game) (rs : Nat → List Nat) (challenger : Nat)
    (challenged : Bool) : Option Game :=
  let g0 : Game := { g with sChallengeAsk := false }
  if challenged then
    let prev := (challenger + 4 - g.uno.direction) % 4
    let g1 : Game := { g0 with sStatus := STAT_IDLE }
    let recent := g.uno.recent
    if recent.length < 2 then none
    else
      match recent[recent.length - 2]? with
      | none => none
      | some next2last =>
        let colorBeforeDraw4 := (g.uno.card next2last).getRealColor
        let draw4IsLegal :=
          draw4IsLegalLoop g.uno colorBeforeDraw4 (g.uno.player prev).handCards true
        if draw4IsLegal then some (g1.draw rs challenger 6)
        else some (g1.draw rs prev 4)
  else some (g0.draw rs challenger 4)

/-! ## hardAI of main.cpp (368-920) -/

/-- The indices filled by the scanning loop of `hardAI` in main.cpp: -1 while no legal
card of the kind was seen. -/
structure MainScan where
  idxRev : Int
  idxSkip : Int
  idxDraw2 : Int
  idxZero : Int
  idxNum : Int
  idxWild : Int
  idxWildDraw4 : Int

/-- The initial values (main.cpp 419-420). -/
def MainScan.init : MainScan :=
  { idxRev := -1, idxSkip := -1, idxDraw2 := -1, idxZero := -1, idxNum := -1,
    idxWild := -1, idxWildDraw4 := -1 }

/-- The variable `legal` of the scanning loop (main.cpp 427-433): `card == sDrawnCard`
when `sImmPlayAsk` is set, `isLegalToPlay(card)` otherwise. -/
def Game.legal (g : Game) (p : CardPtr) : Bool :=
  if g.sImmPlayAsk then g.sDrawnCard == some p else g.uno.isLegalToPlay p

/-- The body of the scanning loop (main.cpp 425-476) at index `i` holding card `p`. -/
def mainScanStep (g : Game) (bestColor : Color) (st : MainScan) (i : Nat) (p : CardPtr) :
    MainScan :=
  if g.legal p then
    match (g.uno.card p).content with
    | .NUM0 =>
      if st.idxZero < 0 ∨ (g.uno.card p).getRealColor = bestColor then
        { st with idxZero := (i : Int) }
      else st
    | .DRAW2 =>
      if st.idxDraw2 < 0 ∨ (g.uno.card p).getRealColor = bestColor then
        { st with idxDraw2 := (i : Int) }
      else st
    | .SKIP =>
      if st.idxSkip < 0 ∨ (g.uno.card p).getRealColor = bestColor then
        { st with idxSkip := (i : Int) }
      else st
    | .REV =>
      if st.idxRev < 0 ∨ (g.uno.card p).getRealColor = bestColor then
        { st with idxRev := (i : Int) }
      else st
    | .WILD => { st with idxWild := (i : Int) }
    | .WILD_DRAW4 => { st with idxWildDraw4 := (i : Int) }
    | _ =>
      if st.idxNum < 0 ∨ (g.uno.card p).getRealColor = bestColor then
        { st with idxNum := (i : Int) }
      else st
  else st

/-- The scanning loop `for (i = 0; i < yourSize; ++i)`, from index `i` over the rest of
the hand. -/
def mainScanLoop (g : Game) (bestColor : Color) : List CardPtr → Nat → MainScan → MainScan
  | [], _, st => st
  | p :: ps, i, st => mainScanLoop g bestColor ps (i + 1) (mainScanStep g bestColor st i p)

/-- The locals of `hardAI` once the scan is done (main.cpp 408-485).  The bodies of
`Player::getDangerousColor` and `Player::calcBestColor` are not among the sources: the
dangerous colours of the three opponents and the best colour are taken as given. -/
structure MainLocals where
  hand : List CardPtr
  st : MainScan
  bestColor : Color
  lastColor : Color
  yourSize : Int
  nextSize : Int
  oppoSize : Int
  prevSize : Int
  nextDanger : Color
  oppoDanger : Color
  prevDanger : Color
  nextRecentIsNull : Bool

/-- `hasNum = (idxNum >= 0)`. -/
def MainLocals.hasNum (v : MainLocals) : Bool := decide (v.st.idxNum ≥ 0)

/-- `hasRev = (idxRev >= 0)`. -/
def MainLocals.hasRev (v : MainLocals) : Bool := decide (v.st.idxRev ≥ 0)

/-- `hasZero = (idxZero >= 0)`. -/
def MainLocals.hasZero (v : MainLocals) : Bool := decide (v.st.idxZero ≥ 0)

/-- `hasSkip = (idxSkip >= 0)`. -/
def MainLocals.hasSkip (v : MainLocals) : Bool := decide (v.st.idxSkip ≥ 0)

/-- `hasWild = (idxWild >= 0)`. -/
def MainLocals.hasWild (v : MainLocals) : Bool := decide (v.st.idxWild ≥ 0)

/-- `hasDraw2 = (idxDraw2 >= 0)`. -/
def MainLocals.hasDraw2 (v : MainLocals) : Bool := decide (v.st.idxDraw2 ≥ 0)

/-- `hasWildDraw4 = (idxWildDraw4 >= 0)`. -/
def MainLocals.hasWildDraw4 (v : MainLocals) : Bool := decide (v.st.idxWildDraw4 ≥ 0)

/-- The condition of the random colour loops of `hardAI`: the colour is one of the three
colours given. -/
def dangerLoopCond (c1 c2 c3 : Color) (bestColor : Color) : Bool :=
  bestColor == c1 || bestColor == c2 || bestColor == c3

/-- main.cpp 486-595: the next player holds one card.  The result is `(idxBest,
bestColor)`, `none` when a random colour loop does not end on the results `rands` of
`rand()`. -/
def mainHardNext (u : Uno) (v : MainLocals) (rands : List Nat) : Option (Int × Color) :=
  let dangerColor := v.nextDanger
  if v.hasDraw2 then some (v.st.idxDraw2, v.bestColor)
  else if v.lastColor = dangerColor then
    if v.hasZero ∧ colorAt u v.hand v.st.idxZero ≠ dangerColor then
      some (v.st.idxZero, v.bestColor)
    else if v.hasNum ∧ colorAt u v.hand v.st.idxNum ≠ dangerColor then
      some (v.st.idxNum, v.bestColor)
    else if v.hasSkip then some (v.st.idxSkip, v.bestColor)
    else if v.hasWildDraw4 then
      (randomColorLoop (dangerLoopCond dangerColor v.oppoDanger v.prevDanger) v.bestColor
        rands).map (fun c => (v.st.idxWildDraw4, c))
    else if v.hasWild then
      (randomColorLoop (dangerLoopCond dangerColor v.oppoDanger v.prevDanger) v.bestColor
        rands).map (fun c => (v.st.idxWild, c))
    else if v.hasRev then some (v.st.idxRev, v.bestColor)
    else some (-1, v.bestColor)
  else if dangerColor ≠ Color.NONE then
    if v.hasZero ∧ colorAt u v.hand v.st.idxZero ≠ dangerColor then
      some (v.st.idxZero, v.bestColor)
    else if v.hasNum ∧ colorAt u v.hand v.st.idxNum ≠ dangerColor then
      some (v.st.idxNum, v.bestColor)
    else if v.hasRev ∧ v.prevSize ≥ 4 ∧ colorAt u v.hand v.st.idxRev ≠ dangerColor then
      some (v.st.idxRev, v.bestColor)
    else if v.hasSkip ∧ colorAt u v.hand v.st.idxSkip ≠ dangerColor then
      some (v.st.idxSkip, v.bestColor)
    else some (-1, v.bestColor)
  else if v.hasWildDraw4 then some (v.st.idxWildDraw4, v.bestColor)
  else if v.hasSkip then some (v.st.idxSkip, v.bestColor)
  else if v.hasRev then some (v.st.idxRev, v.bestColor)
  else if v.hasWild ∧ v.lastColor ≠ v.bestColor then some (v.st.idxWild, v.bestColor)
  else if v.hasZero then some (v.st.idxZero, v.bestColor)
  else if v.hasNum then some (v.st.idxNum, v.bestColor)
  else some (-1, v.bestColor)

/-- main.cpp 596-661: the previous player holds one card.  At 625-633 the branch for
`hasWildDraw4` assigns `idxBest = idxWild`, as the source does. -/
def mainHardPrev (u : Uno) (v : MainLocals) (rands : List Nat) : Option (Int × Color) :=
  let dangerColor := v.prevDanger
  if v.lastColor = dangerColor then
    if v.hasSkip ∧ colorAt u v.hand v.st.idxSkip ≠ dangerColor then
      some (v.st.idxSkip, v.bestColor)
    else if v.hasWild then
      (randomColorLoop (dangerLoopCond dangerColor v.nextDanger v.oppoDanger) v.bestColor
        rands).map (fun c => (v.st.idxWild, c))
    else if v.hasWildDraw4 then
      (randomColorLoop (dangerLoopCond dangerColor v.nextDanger v.oppoDanger) v.bestColor
        rands).map (fun c => (v.st.idxWild, c))
    else if v.hasNum then some (v.st.idxNum, v.bestColor)
    else if v.hasZero then some (v.st.idxZero, v.bestColor)
    else some (-1, v.bestColor)
  else if v.hasNum then some (v.st.idxNum, v.bestColor)
  else if v.hasZero then some (v.st.idxZero, v.bestColor)
  else if v.hasWild ∧ v.lastColor ≠ v.bestColor then some (v.st.idxWild, v.bestColor)
  else if v.hasWildDraw4 ∧ v.lastColor ≠ v.bestColor then
    some (v.st.idxWildDraw4, v.bestColor)
  else some (-1, v.bestColor)

/-- main.cpp 662-789: the opposite player holds one card. -/
def mainHardOppo (u : Uno) (v : MainLocals) (rands : List Nat) : Option (Int × Color) :=
  let dangerColor := v.oppoDanger
  if v.lastColor = dangerColor then
    if v.hasZero ∧ colorAt u v.hand v.st.idxZero ≠ dangerColor then
      some (v.st.idxZero, v.bestColor)
    else if v.hasNum ∧ colorAt u v.hand v.st.idxNum ≠ dangerColor then
      some (v.st.idxNum, v.bestColor)
    else if v.hasRev ∧ colorAt u v.hand v.st.idxRev ≠ dangerColor then
      some (v.st.idxRev, v.bestColor)
    else if v.hasSkip ∧ colorAt u v.hand v.st.idxSkip ≠ dangerColor then
      some (v.st.idxSkip, v.bestColor)
    else if v.hasDraw2 ∧ colorAt u v.hand v.st.idxDraw2 ≠ dangerColor then
      some (v.st.idxDraw2, v.bestColor)
    else if v.hasWild then
      (randomColorLoop (dangerLoopCond dangerColor v.nextDanger v.prevDanger) v.bestColor
        rands).map (fun c => (v.st.idxWild, c))
    else if v.hasWildDraw4 then
      (randomColorLoop (dangerLoopCond dangerColor v.nextDanger v.prevDanger) v.bestColor
        rands).map (fun c => (v.st.idxWildDraw4, c))
    else if v.hasRev ∧ v.prevSize - v.nextSize ≥ 3 then some (v.st.idxRev, v.bestColor)
    else if v.hasNum then some (v.st.idxNum, v.bestColor)
    else if v.hasZero then some (v.st.idxZero, v.bestColor)
    else some (-1, v.bestColor)
  else if dangerColor ≠ Color.NONE then
    if v.hasZero ∧ colorAt u v.hand v.st.idxZero ≠ dangerColor then
      some (v.st.idxZero, v.bestColor)
    else if v.hasNum ∧ colorAt u v.hand v.st.idxNum ≠ dangerColor then
      some (v.st.idxNum, v.bestColor)
    else if v.hasRev ∧ v.prevSize ≥ 4 ∧ colorAt u v.hand v.st.idxRev ≠ dangerColor then
      some (v.st.idxRev, v.bestColor)
    else if v.hasSkip ∧ colorAt u v.hand v.st.idxSkip ≠ dangerColor then
      some (v.st.idxSkip, v.bestColor)
    else if v.hasDraw2 ∧ colorAt u v.hand v.st.idxDraw2 ≠ dangerColor then
      some (v.st.idxDraw2, v.bestColor)
    else some (-1, v.bestColor)
  else if v.hasRev ∧ v.prevSize - v.nextSize ≥ 3 then some (v.st.idxRev, v.bestColor)
  else if v.hasNum then some (v.st.idxNum, v.bestColor)
  else if v.hasZero then some (v.st.idxZero, v.bestColor)
  else if v.hasWild ∧ v.lastColor ≠ v.bestColor then some (v.st.idxWild, v.bestColor)
  else if v.hasWildDraw4 ∧ v.lastColor ≠ v.bestColor then
    (if v.nextSize ≤ 4 then some (v.st.idxWildDraw4, v.bestColor)
     else some (-1, v.bestColor))
  else some (-1, v.bestColor)

/-- main.cpp 790-806: the next player drew a card in its last action
(`next->getRecent() == NULL`) and more than two cards are held. -/
def mainHardNextDrew (v : MainLocals) : Int × Color :=
  if v.hasRev ∧ v.prevSize - v.nextSize ≥ 3 then (v.st.idxRev, v.bestColor)
  else if v.hasZero then (v.st.idxZero, v.bestColor)
  else if v.hasNum then (v.st.idxNum, v.bestColor)
  else if v.hasRev ∧ v.prevSize ≥ 4 then (v.st.idxRev, v.bestColor)
  else (-1, v.bestColor)

/-- main.cpp 807-900: normal strategies. -/
def mainHardNormal (v : MainLocals) : Int × Color :=
  if v.hasRev ∧ v.prevSize - v.nextSize ≥ 3 then (v.st.idxRev, v.bestColor)
  else if v.hasDraw2 ∧ v.nextSize ≤ 4 then (v.st.idxDraw2, v.bestColor)
  else if v.hasSkip ∧ v.nextSize ≤ 4 then (v.st.idxSkip, v.bestColor)
  else if v.hasZero then (v.st.idxZero, v.bestColor)
  else if v.hasNum then (v.st.idxNum, v.bestColor)
  else if v.hasRev ∧ v.prevSize ≥ 4 then (v.st.idxRev, v.bestColor)
  else if v.hasWild ∧ v.nextSize ≤ 4 then (v.st.idxWild, v.bestColor)
  else if v.hasWildDraw4 ∧ v.nextSize ≤ 4 then (v.st.idxWildDraw4, v.bestColor)
  else if v.hasWild ∧ v.yourSize = 2 ∧ v.prevSize ≤ 3 then
    (if v.hasDraw2 then (v.st.idxDraw2, v.bestColor)
     else if v.hasSkip then (v.st.idxSkip, v.bestColor)
     else (v.st.idxWild, v.bestColor))
  else if v.hasWildDraw4 ∧ v.yourSize = 2 ∧ v.prevSize ≤ 3 then
    (if v.hasDraw2 then (v.st.idxDraw2, v.bestColor)
     else if v.hasSkip then (v.st.idxSkip, v.bestColor)
     else (v.st.idxWildDraw4, v.bestColor))
  else if v.yourSize = MAX_HOLD_CARDS then
    (if v.hasSkip then (v.st.idxSkip, v.bestColor)
     else if v.hasDraw2 then (v.st.idxDraw2, v.bestColor)
     else if v.hasRev then (v.st.idxRev, v.bestColor)
     else if v.hasWild then (v.st.idxWild, v.bestColor)
     else if v.hasWildDraw4 then (v.st.idxWildDraw4, v.bestColor)
     else (-1, v.bestColor))
  else (-1, v.bestColor)

/-- The decision tree of `hardAI` (main.cpp 478-900): the values of `idxBest` and
`bestColor` when it is left. -/
def mainHardDecision (u : Uno) (v : MainLocals) (rands : List Nat) : Option (Int × Color) :=
  if v.nextSize = 1 then mainHardNext u v rands
  else if v.prevSize = 1 then mainHardPrev u v rands
  else if v.oppoSize = 1 then mainHardOppo u v rands
  else if v.nextRecentIsNull ∧ v.yourSize > 2 then some (mainHardNextDrew v)
  else some (mainHardNormal v)

/-- The locals of `hardAI` for the game `g`, the top of the discard `last`, the dangerous
colours `danger` of the seats and the best colour of the player in turn. -/
def mainLocals (g : Game) (danger : Nat → Color) (bestColor : Color) (last : CardPtr) :
    MainLocals :=
  let hand := (g.uno.player g.sStatus).handCards
  let direction := g.uno.direction
  let next := (g.sStatus + direction) % 4
  let oppo := (g.sStatus + 2) % 4
  let prev := (4 + g.sStatus - direction) % 4
  { hand := hand,
    st := mainScanLoop g bestColor hand 0 MainScan.init,
    bestColor := bestColor,
    lastColor := (g.uno.card last).getRealColor,
    yourSize := (hand.length : Int),
    nextSize := ((g.uno.player next).handCards.length : Int),
    oppoSize := ((g.uno.player oppo).handCards.length : Int),
    prevSize := ((g.uno.player prev).handCards.length : Int),
    nextDanger := danger next,
    oppoDanger := danger oppo,
    prevDanger := danger prev,
    nextRecentIsNull := (g.uno.player next).recent.isNone }

/-- What an iteration of the loop of `hardAI` does with the player in turn. -/
inductive AIAction where
  | play (index : Int) (color : Color)
  | pass
  | draw
  deriving DecidableEq

/-- main.cpp 902-916: the card `idxBest` is played with `bestColor` when `idxBest >= 0`;
otherwise the turn is passed when `sImmPlayAsk` is set, and a card is drawn when not. -/
def mainHardAction (g : Game) (r : Int × Color) : AIAction :=
  if r.1 ≥ 0 then AIAction.play r.1 r.2
  else if g.sImmPlayAsk then AIAction.pass
  else AIAction.draw

/-- The action chosen by an iteration of the loop of `hardAI` (main.cpp 397-916) for a
player in turn who is not asked to challenge; `none` when `getRecent().back()` has no
element or a random colour loop does not end on the results `rands`. -/
def Game.hardAIAction (g : Game) (danger : Nat → Color) (bestColor : Color)
    (rands : List Nat) : Option AIAction :=
  match (g.uno.player g.sStatus).handCards with
  | [card] => if g.uno.isLegalToPlay card then some (AIAction.play 0 Color.NONE)
              else some AIAction.draw
  | _ =>
    match g.uno.recent.getLast? with
    | none => none
    | some last =>
      (mainHardDecision g.uno (mainLocals g danger bestColor last) rands).map
        (mainHardAction g)

/-- What the action does (main.cpp 403-407, 903-915): `play(idxBest, bestColor)` after
`sImmPlayAsk = false`, `pass(sStatus)` after `sImmPlayAsk = false`, or `draw()`, that is
`draw(sStatus, 1)`. -/
def Game.perform (g : Game) (rs : Nat → List Nat) : AIAction → Game
  | .play index color => ({ g with sImmPlayAsk := false } : Game).play rs index color
  | .pass => ({ g with sImmPlayAsk := false } : Game).pass g.sStatus
  | .draw => g.draw rs g.sStatus 1

/-- One iteration of the loop of `hardAI` (main.cpp 392-916). -/
def Game.hardAIStep (g : Game) (danger : Nat → Color) (bestColor : Color)
    (rands : List Nat) (rs : Nat → List Nat) : Option Game :=
  if g.sChallengeAsk then
    match challengeAI g.uno g.sStatus with
    | none => none
    | some challenge => g.onChallenge rs g.sStatus challenge
  else
    (g.hardAIAction danger bestColor rands).map (g.perform rs)

/-! ## The statistics file (main.cpp 37-46, 84-112, 1736-1754) -/

/-- main.cpp 37-46, `FILE_HEADER`: eight sums of two character codes, each kept in a
`char`, and the final 0x00. -/
def FILE_HEADER : List Nat :=
  [(85 + 78) % 256, (79 + 64) % 256, (72 + 105) % 256, (107 + 97) % 256,
   (114 + 105) % 256, (84 + 111) % 256, (121 + 97) % 256, (109 + 97) % 256, 0]

/-- The value of a 32-bit `int` that holds `x` after wrap-around. -/
def wrap32 (x : Int) : Int := (x + 2147483648) % 4294967296 - 2147483648

/-- The four bytes of an `int` in memory (two's complement, least significant byte
first), as `write((char*)&x, sizeof(int))` stores them. -/
def intBytes (x : Int) : List Nat :=
  [(x % 4294967296).toNat % 256, (x % 4294967296).toNat / 256 % 256,
   (x % 4294967296).toNat / 65536 % 256, (x % 4294967296).toNat / 16777216 % 256]

/-- The `int` whose four bytes in memory are `l`, as `read((char*)&x, sizeof(int))` leaves
it. -/
def bytesInt (l : List Nat) : Int :=
  wrap32 ((l.getD 0 0 + 256 * l.getD 1 0 + 65536 * l.getD 2 0 + 16777216 * l.getD 3 0 : Nat) :
    Int)

/-- The statistics counters of main.cpp (55-58). -/
structure Stats where
  sEasyWin : Int
  sHardWin : Int
  sEasyTotal : Int
  sHardTotal : Int
  deriving DecidableEq

/-- The counters after `sEasyWin = sHardWin = sEasyTotal = sHardTotal = 0`. -/
def Stats.zero : Stats := { sEasyWin := 0, sHardWin := 0, sEasyTotal := 0, sHardTotal := 0 }

/-- The `int` sum `sEasyWin + sHardWin + sEasyTotal + sHardTotal`, with wrap-around at
every addition. -/
def Stats.sum (s : Stats) : Int :=
  wrap32 (wrap32 (wrap32 (s.sEasyWin + s.sHardWin) + s.sEasyTotal) + s.sHardTotal)

/-- main.cpp 1739-1750, the quit handler in `onMouse`: the bytes written to `UnoStat.tmp`,
the first eight bytes of `FILE_HEADER`, the four counters and the checksum. -/
def quitWrite (s : Stats) : List Nat :=
  FILE_HEADER.take 8 ++ intBytes s.sEasyWin ++ intBytes s.sHardWin ++
    intBytes s.sEasyTotal ++ intBytes s.sHardTotal ++ intBytes s.sum

/-- The `n` bytes of the file from position `pos` on. -/
def readBytes (file : List Nat) (pos n : Nat) : List Nat := (file.drop pos).take n

/-- The C string held in a `char` array: the bytes before the first 0x00. -/
def cString (a : List Nat) : List Nat := a.takeWhile (fun b => b ≠ 0)

/-- main.cpp 99-102: the four counters read from the bytes 8 .. 23 of the file. -/
def readCounters (bytes : List Nat) : Stats :=
  { sEasyWin := bytesInt (readBytes bytes 8 4),
    sHardWin := bytesInt (readBytes bytes 12 4),
    sEasyTotal := bytesInt (readBytes bytes 16 4),
    sHardTotal := bytesInt (readBytes bytes 20 4) }

/-- main.cpp 90-112, the loader in `main`: the counters after it has run on the content
of `UnoStat.tmp` (`none` when the file cannot be opened).  `len` is the length of the
file converted to `int`; `header` is a zeroed array of nine `char` that receives eight
bytes, and `strcmp` compares it with `FILE_HEADER` as C strings. -/
def loadStats (file : Option (List Nat)) : Stats :=
  match file with
  | none => Stats.zero
  | some bytes =>
    let len := wrap32 (bytes.length : Int)
    if len = 8 + 5 * 4 then
      let header := readBytes bytes 0 8 ++ [0]
      let s := readCounters bytes
      let checksum := bytesInt (readBytes bytes 24 4)
      if cString header ≠ cString FILE_HEADER ∨ checksum ≠ s.sum then Stats.zero
      else s
    else Stats.zero

/-! ## Vocabulary of the statements -/

/-- The weight the comparison of colours gives a card content: 2 for REV and NUM0,
5 for SKIP and DRAW2, 4 for every other content. -/
def colorWeight : Content → Int
  | .REV => 2
  | .NUM0 => 2
  | .SKIP => 5
  | .DRAW2 => 5
  | _ => 4

/-- The sum of the weights of the cards of `hand` whose colour is `k`. -/
def weightedSum (u : Uno) (hand : List CardPtr) (k : Color) : Int :=
  ((hand.filter (fun p => (u.card p).color = k)).map
    (fun p => colorWeight (u.card p).content)).sum

/-- The condition the swap-target rule states for a candidate against the current
target: strictly fewer cards and a weak colour other than the last colour, or a strong
colour equal to the last colour that the target lacks. -/
abbrev SwapCondition (cand target : Player) (lastColor : Color) : Prop :=
  (cand.getHandSize < target.getHandSize ∧ cand.weakColor ≠ lastColor) ∨
    (cand.strongColor = lastColor ∧ target.strongColor ≠ lastColor)

/-- Number contents: the `default` label of the scanning switch of the easy and hard
strategies. -/
def Content.isNumber : Content → Bool
  | .DRAW2 => false
  | .SKIP => false
  | .REV => false
  | .WILD => false
  | .WILD_DRAW4 => false
  | _ => true

/-- A slot `(has, idx)` of a scan is sound for the kind `K`: either it is unset
(`has = false`, `idx = -1`) or `idx` is the position of a card of the hand that passed
the legality test and is of kind `K`. -/
def SlotOK (u : Uno) (drawnCard : Option CardPtr) (hand : List CardPtr) (K : Card → Prop)
    (has : Bool) (idx : Int) : Prop :=
  (has = false ∧ idx = -1) ∨
    (has = true ∧ ∃ (n : Nat) (p : CardPtr), idx = (n : Int) ∧ hand[n]? = some p ∧
      legalNow u drawnCard p = true ∧ K (u.card p))

/-- The index is -1 or the position of a card of the hand that is playable: legal to
play when no drawn card was passed, the drawn card itself otherwise. -/
def Playable (u : Uno) (drawnCard : Option CardPtr) (hand : List CardPtr) (i : Int) : Prop :=
  i = -1 ∨
    (0 ≤ i ∧ i < (hand.length : Int) ∧ ∃ p, handAt hand i = some p ∧
      legalNow u drawnCard p = true)

/-- Every card the index denotes is of kind `K` (nothing is claimed of an index that
denotes no card). -/
def DenotesOnly (u : Uno) (hand : List CardPtr) (K : Card → Prop) (i : Int) : Prop :=
  ∀ p, handAt hand i = some p → K (u.card p)

/-- The invariant of the scanning loop of the easy strategy. -/
def EasyInv (u : Uno) (drawnCard : Option CardPtr) (hand : List CardPtr) (st : EasyScan) :
    Prop :=
  SlotOK u drawnCard hand (fun c => c.content.isNumber = true) st.hasNum st.idxNum ∧
  SlotOK u drawnCard hand (fun c => c.content = Content.REV) st.hasRev st.idxRev ∧
  SlotOK u drawnCard hand (fun c => c.content = Content.SKIP) st.hasSkip st.idxSkip ∧
  SlotOK u drawnCard hand (fun c => c.content = Content.DRAW2) st.hasDraw2 st.idxDraw2 ∧
  SlotOK u drawnCard hand (fun c => c.content = Content.WILD) st.hasWild st.idxWild ∧
  SlotOK u drawnCard hand (fun c => c.content = Content.WILD_DRAW4) st.hasWD4 st.idxWD4

/-- The invariant of the scanning loop of the hard strategy. -/
def HardInv (u : Uno) (drawnCard : Option CardPtr) (hand : List CardPtr) (st : HardScan) :
    Prop :=
  (∀ k, SlotOK u drawnCard hand (fun c => c.content.isNumber = true ∧ c.color = k)
    (st.hasNumIn k) (st.idxNumIn k)) ∧
  SlotOK u drawnCard hand (fun c => c.content = Content.REV) st.hasRev st.idxRev ∧
  SlotOK u drawnCard hand (fun c => c.content = Content.SKIP) st.hasSkip st.idxSkip ∧
  SlotOK u drawnCard hand (fun c => c.content = Content.DRAW2) st.hasDraw2 st.idxDraw2 ∧
  SlotOK u drawnCard hand (fun c => c.content = Content.WILD) st.hasWild st.idxWild ∧
  SlotOK u drawnCard hand (fun c => c.content = Content.WILD_DRAW4) st.hasWD4 st.idxWD4

/-- What the soundness of the slots gives for a pair `(idxBest, bestColor)` produced by
the decision tree of the hard strategy: the index is playable, and the colour is the
best colour of the acting player unless the index denotes only wild cards. -/
def HardLeaf (u : Uno) (drawnCard : Option CardPtr) (v : HardLocals) (r : Int × Color) :
    Prop :=
  Playable u drawnCard v.hand r.1 ∧
    (r.2 = v.bestColor ∨ DenotesOnly u v.hand (fun c => c.isWild = true) r.1)

/-- The invariant of the scanning loop of the 7-0 strategy. -/
def SevenZeroInv (u : Uno) (drawnCard : Option CardPtr) (hand : List CardPtr)
    (st : SevenZeroScan) : Prop :=
  SlotOK u drawnCard hand (fun c => c.content = Content.NUM0) st.has0 st.idx0 ∧
  SlotOK u drawnCard hand (fun c => c.content = Content.NUM7) st.has7 st.idx7 ∧
  SlotOK u drawnCard hand (fun c => c.content.isNumber = true) st.hasNum st.idxNum ∧
  SlotOK u drawnCard hand (fun c => c.content = Content.REV) st.hasRev st.idxRev ∧
  SlotOK u drawnCard hand (fun c => c.content = Content.SKIP) st.hasSkip st.idxSkip ∧
  SlotOK u drawnCard hand (fun c => c.content = Content.DRAW2) st.hasDraw2 st.idxDraw2 ∧
  SlotOK u drawnCard hand (fun c => c.content = Content.WILD) st.hasWild st.idxWild ∧
  SlotOK u drawnCard hand (fun c => c.content = Content.WILD_DRAW4) st.hasWD4 st.idxWD4

/-- The points the official rule gives a card content: 50 for WILD and WILD_DRAW4, 20 for
REV, SKIP and DRAW2, the face value for a number card. -/
def cardPoints : Content → Int
  | .NUM0 => 0
  | .NUM1 => 1
  | .NUM2 => 2
  | .NUM3 => 3
  | .NUM4 => 4
  | .NUM5 => 5
  | .NUM6 => 6
  | .NUM7 => 7
  | .NUM8 => 8
  | .NUM9 => 9
  | .DRAW2 => 20
  | .SKIP => 20
  | .REV => 20
  | .WILD => 50
  | .WILD_DRAW4 => 50

/-- The test `hand.at(1 - idx)` passes in the 7-0 strategy before a NUM7 or NUM0 at `idx`
is played from a two-card hand against a next player holding one card (AI.cpp 1199-1202,
1206-1209): the other card has another content than `same`, is not wild and has another
colour. -/
def otherCardGuard (u : Uno) (hand : List CardPtr) (idx : Int) (same : Content) : Prop :=
  contentAt u hand (1 - idx) ≠ some same ∧
  contentAt u hand (1 - idx) ≠ some Content.WILD ∧
  contentAt u hand (1 - idx) ≠ some Content.WILD_DRAW4 ∧
  colorAt u hand (1 - idx) ≠ colorAt u hand idx

/-- The two table states show the acting player the same snapshot: the same acting hand
with the same card objects, the same card on top of the discard (or none), and for the
next, opposite and previous seats the same hand sizes and strong and weak colours, and
the same null-or-not state of the recent card of the previous player. -/
structure SameSnapshot (u1 u2 : Uno) : Prop where
  hand : (u1.player u1.now).handCards = (u2.player u2.now).handCards
  cards : ∀ p ∈ (u1.player u1.now).handCards, u1.card p = u2.card p
  top : u1.recent.getLast?.map u1.card = u2.recent.getLast?.map u2.card
  nextSize : (u1.player u1.getNext).getHandSize = (u2.player u2.getNext).getHandSize
  oppoSize : (u1.player u1.getOppo).getHandSize = (u2.player u2.getOppo).getHandSize
  prevSize : (u1.player u1.getPrev).getHandSize = (u2.player u2.getPrev).getHandSize
  nextStrong : (u1.player u1.getNext).strongColor = (u2.player u2.getNext).strongColor
  oppoStrong : (u1.player u1.getOppo).strongColor = (u2.player u2.getOppo).strongColor
  prevStrong : (u1.player u1.getPrev).strongColor = (u2.player u2.getPrev).strongColor
  nextWeak : (u1.player u1.getNext).weakColor = (u2.player u2.getNext).weakColor
  oppoWeak : (u1.player u1.getOppo).weakColor = (u2.player u2.getOppo).weakColor
  prevWeak : (u1.player u1.getPrev).weakColor = (u2.player u2.getPrev).weakColor
  prevRecent : (u1.player u1.getPrev).recent.isNone = (u2.player u2.getPrev).recent.isNone

/-- The flag of the hard scan that a card of the given kind sets: `hasDraw2`, `hasSkip`,
`hasRev`, `hasWild`, `hasWD4`, or `hasNumIn` at the colour of a number card. -/
def hardFlag (st : HardScan) (c : Card) : Bool :=
  match c.content with
  | .DRAW2 => st.hasDraw2
  | .SKIP => st.hasSkip
  | .REV => st.hasRev
  | .WILD => st.hasWild
  | .WILD_DRAW4 => st.hasWD4
  | _ => st.hasNumIn c.color

/-- The flag of the easy scan that a card of the given content sets. -/
def easyFlag (st : EasyScan) (c : Content) : Bool :=
  match c with
  | .DRAW2 => st.hasDraw2
  | .SKIP => st.hasSkip
  | .REV => st.hasRev
  | .WILD => st.hasWild
  | .WILD_DRAW4 => st.hasWD4
  | _ => st.hasNum

/-- Some card of the hand passes the legality test of the scanning loop and has a content
of kind `K`. -/
def HasPlayable (u : Uno) (drawnCard : Option CardPtr) (hand : List CardPtr)
    (K : Content → Prop) : Prop :=
  ∃ p ∈ hand, legalNow u drawnCard p = true ∧ K (u.card p).content

/-- The index is the position of a card of the hand that passes the legality test of the
scanning loop and has a content of kind `K`. -/
def DenotesPlayable (u : Uno) (drawnCard : Option CardPtr) (hand : List CardPtr)
    (K : Content → Prop) (i : Int) : Prop :=
  ∃ p, handAt hand i = some p ∧ legalNow u drawnCard p = true ∧ K (u.card p).content

/-- A rule of an ordered rule list: when `guard` holds, a card of kind `kind` is played. -/
structure Rule where
  guard : Prop
  kind : Content → Prop

/-- An ordered rule list, first match wins: the first rule whose guard holds decides the
kind of the card denoted; when no guard holds, `otherwise` holds. -/
def FirstMatch (denotes : (Content → Prop) → Prop) (otherwise : Prop) : List Rule → Prop
  | [] => otherwise
  | r :: rs => (r.guard → denotes r.kind) ∧ (¬ r.guard → FirstMatch denotes otherwise rs)

/-- The rule list of the easy strategy outside the case where the next player holds one
card, in the words of the specification. -/
def easyRules (u : Uno) (drawnCard : Option CardPtr) : List Rule :=
  let hand := (u.player u.now).handCards
  let nextSize := (u.player u.getNext).getHandSize
  let prevSize := (u.player u.getPrev).getHandSize
  [ { guard := HasPlayable u drawnCard hand (fun c => c = Content.REV) ∧ prevSize > nextSize,
      kind := fun c => c = Content.REV },
    { guard := HasPlayable u drawnCard hand (fun c => c.isNumber = true),
      kind := fun c => c.isNumber = true },
    { guard := HasPlayable u drawnCard hand (fun c => c = Content.SKIP),
      kind := fun c => c = Content.SKIP },
    { guard := HasPlayable u drawnCard hand (fun c => c = Content.DRAW2),
      kind := fun c => c = Content.DRAW2 },
    { guard := HasPlayable u drawnCard hand (fun c => c = Content.REV) ∧ prevSize > 1,
      kind := fun c => c = Content.REV },
    { guard := HasPlayable u drawnCard hand (fun c => c = Content.WILD),
      kind := fun c => c = Content.WILD },
    { guard := HasPlayable u drawnCard hand (fun c => c = Content.WILD_DRAW4),
      kind := fun c => c = Content.WILD_DRAW4 } ]

/-- The colour differs from the strong colour of every opponent who holds exactly one
card, on the locals `v` of the hard strategy. -/
def AvoidsStrong (v : HardLocals) (c : Color) : Prop :=
  (v.nextSize = 1 → c ≠ v.nextStrongColor) ∧
  (v.oppoSize = 1 → c ≠ v.oppoStrongColor) ∧
  (v.prevSize = 1 → c ≠ v.prevStrongColor)

/-- What is claimed of a pair `(idxBest, bestColor)` whose index denotes a wild card: the
colour is a real colour that avoids the strong colours of the opponents at one card. -/
def WildLeaf (u : Uno) (v : HardLocals) (r : Int × Color) : Prop :=
  ∀ p, handAt v.hand r.1 = some p → (u.card p).isWild = true →
    r.2 ≠ Color.NONE ∧ AvoidsStrong v r.2

/-- What is claimed of a pair `(idxBest, bestColor)` whose index denotes a number card:
the colour of that card avoids the strong colours of the opponents at one card. -/
def NumLeaf (u : Uno) (v : HardLocals) (r : Int × Color) : Prop :=
  ∀ p, handAt v.hand r.1 = some p → (u.card p).content.isNumber = true →
    AvoidsStrong v (u.card p).color

/-- A call of the runtime made during a game. -/
inductive Call where
  | draw (rs : List Nat) (who : Nat)
  | play (who : Nat) (index : Int) (color : Color)

/-- The state after a call. -/
def Uno.call (u : Uno) : Call → Uno
  | .draw rs who => (u.draw rs who).1
  | .play who index color => (u.play who index color).1

/-- The state after a sequence of calls. -/
def Uno.run (u : Uno) (calls : List Call) : Uno := calls.foldl Uno.call u

/-- The states reachable from `start()` by `draw` and `play` calls. -/
inductive Reachable : Uno → Prop where
  | start (u0 : Uno) (rs pos : List Nat) (u : Uno) (h : u0.start rs pos = some u) :
      Reachable u
  | call (u : Uno) (c : Call) (h : Reachable u) : Reachable (u.call c)

/-- The cards of a state: draw pile, used pile, the four hands, recent-played list. -/
def Uno.cards (u : Uno) : List CardPtr :=
  u.deck ++ u.used ++ (u.player 0).handCards ++ (u.player 1).handCards ++
    (u.player 2).handCards ++ (u.player 3).handCards ++ u.recent

/-- The body of `AI::needToChallenge` (AI.cpp 122-147) read with the value `maxHoldCards`
in the place of `Uno::MAX_HOLD_CARDS`; with `MAX_HOLD_CARDS` it is `needToChallenge`. -/
def needToChallengeWith (maxHoldCards : Int) (u : Uno) (challenger : Nat) : Option Bool :=
  let size := (u.player challenger).getHandSize
  if size = 1 ∨ size ≥ maxHoldCards - 4 then
    some true
  else
    let recent := u.recent
    if recent.length < 2 then
      none
    else
      match recent[recent.length - 2]?, recent.getLast? with
      | some next2last, some last =>
        let colorBeforeDraw4 := (u.card next2last).getRealColor
        let draw4Color := (u.card last).getRealColor
        some (draw4Color == colorBeforeDraw4)
      | _, _ => none

/-- The body of `challengeAI` (main.cpp 926-953) read with the value `maxHoldCards` in the
place of `Uno::MAX_HOLD_CARDS`; with `MAX_HOLD_CARDS` it is `challengeAI`. -/
def challengeAIWith (maxHoldCards : Int) (u : Uno) (who : Nat) : Option Bool :=
  let hand := (u.player who).handCards
  if hand.length = 1 then
    some true
  else if (hand.length : Int) ≥ maxHoldCards - 4 then
    some true
  else
    let recent := u.recent
    if recent.length < 2 then
      none
    else
      match recent[recent.length - 2]?, recent.getLast? with
      | some next2last, some last =>
        let colorBeforeDraw4 := (u.card next2last).getRealColor
        let draw4Color := (u.card last).getRealColor
        some (draw4Color == colorBeforeDraw4)
      | _, _ => none

/-- The challenge of `onChallenge` succeeds: the wild +4 is challenged and the hand of
the player who played it holds a card of the colour before the wild +4. -/
def ChallengeSucceeds (u : Uno) (challenger : Nat) (challenged : Bool) : Prop :=
  challenged = true ∧ draw4IsLegal u challenger = some false

/-- The four counters fit in an `int`. -/
abbrev Stats.InRange (s : Stats) : Prop :=
  (-2147483648 ≤ s.sEasyWin ∧ s.sEasyWin < 2147483648) ∧
  (-2147483648 ≤ s.sHardWin ∧ s.sHardWin < 2147483648) ∧
  (-2147483648 ≤ s.sEasyTotal ∧ s.sEasyTotal < 2147483648) ∧
  (-2147483648 ≤ s.sHardTotal ∧ s.sHardTotal < 2147483648)

/-! ## Example tables -/

/-- A player holding `hand`, with no recent card and no colour signal. -/
def plainPlayer (hand : List CardPtr) : Player :=
  { handCards := hand, recent := none, strongColor := Color.NONE, weakColor := Color.NONE }

/-- The card objects of the example tables: 0 is RED NUM5, 1 is a WILD still in hand
(colour NONE), 2 is BLUE NUM5, 3 is RED NUM3, 4 is a WILD_DRAW4 played with RED declared,
every other address is GREEN NUM1. -/
def exampleCard : CardPtr → Card
  | 0 => { color := Color.RED, content := Content.NUM5 }
  | 1 => { color := Color.NONE, content := Content.WILD }
  | 2 => { color := Color.BLUE, content := Content.NUM5 }
  | 3 => { color := Color.RED, content := Content.NUM3 }
  | 4 => { color := Color.RED, content := Content.WILD_DRAW4 }
  | _ => { color := Color.GREEN, content := Content.NUM1 }

/-- Seat 0 acts and holds `hand`; seat 1 (next) holds `nextHand`, seats 2 and 3 hold
three cards each; the recent-played list is `recent`. -/
def exampleTable (hand nextHand recent : List CardPtr) : Uno :=
  { card := exampleCard, now := 0, direction := DIR_LEFT,
    player := fun s =>
      if s = 0 then plainPlayer hand
      else if s = 1 then plainPlayer nextHand
      else plainPlayer [10 * s, 10 * s + 1, 10 * s + 2],
    deck := [], used := [], recent := recent }

/-- The scenario `[RED NUM5, WILD]` on BLUE NUM5, every opponent holding three cards. -/
def tableNumberOrWild : Uno := exampleTable [0, 1] [5, 6, 7] [2]

/-- The same scenario with the next player down to one card. -/
def tableNextHoldsOne : Uno := exampleTable [0, 1] [5] [2]

/-- A one-card hand holding a WILD, on BLUE NUM5. -/
def tableLastCardWild : Uno := exampleTable [1] [5, 6, 7] [2]

/-- A one-card hand holding RED NUM5, on BLUE NUM5. -/
def tableLastCardNumber : Uno := exampleTable [0] [5, 6, 7] [2]

/-- A WILD_DRAW4 declared RED on top of RED NUM3; seat 1 holds five cards. -/
def tableDraw4OnRed : Uno := exampleTable [0, 1] [5, 6, 7, 8, 9] [3, 4]

/-- The hand `[RED NUM5, WILD]` on RED NUM3 where the next player holds one card, played
a wild card last and has RED as strong colour. -/
def tableNextDashRed : Uno :=
  { exampleTable [0, 1] [5] [3] with
    player := fun s =>
      if s = 1 then
        { handCards := [5], recent := some 4, strongColor := Color.RED,
          weakColor := Color.NONE }
      else (exampleTable [0, 1] [5] [3]).player s }

/-- A wild +4 declared RED on top of RED NUM3 played by seat 0, who is left with a WILD
and a GREEN NUM1; seat 1 is the challenger. -/
def tableDraw4Honest : Uno := exampleTable [1, 5] [6, 7, 8] [3, 4]

/-- Card objects for the 7-0 examples: 0 is RED NUM7, 1 is RED NUM3, 2 is RED NUM5, 3 is
BLUE NUM0, every other address is GREEN NUM1. -/
def sevenZeroCard : CardPtr → Card
  | 0 => { color := Color.RED, content := Content.NUM7 }
  | 1 => { color := Color.RED, content := Content.NUM3 }
  | 2 => { color := Color.RED, content := Content.NUM5 }
  | 3 => { color := Color.BLUE, content := Content.NUM0 }
  | _ => { color := Color.GREEN, content := Content.NUM1 }

/-- Seat 0 acts and holds `[RED NUM7, RED NUM3]` on RED NUM5; the next player (seat 1)
holds one card, seats 2 and 3 three cards each. -/
def tableSevenSameColor : Uno :=
  { exampleTable [0, 1] [5] [2] with card := sevenZeroCard }

/-- Seat 0 acts and holds `[RED NUM7, RED NUM3, GREEN NUM1]` on RED NUM5; the next player
holds one card. -/
def tableSevenThreeCards : Uno :=
  { exampleTable [0, 1, 6] [5] [2] with card := sevenZeroCard }

/-- Seat 0 acts and holds `[RED NUM7, BLUE NUM0]` on RED NUM5; the next player holds one
card. -/
def tableSevenAndZero : Uno :=
  { exampleTable [0, 3] [5] [2] with card := sevenZeroCard }

/-- The state `tableNumberOrWild` seen later in another game: seat 2 acts, the direction
is reversed, the piles and the history differ, but the acting hand, the card on top and
the opponents seen from the acting seat are the same. -/
def tableNumberOrWildAgain : Uno :=
  { card := exampleCard, now := 2, direction := DIR_RIGHT,
    player := fun s =>
      if s = 2 then
        { handCards := [0, 1], recent := some 3, strongColor := Color.BLUE,
          weakColor := Color.GREEN }
      else if s = 1 then plainPlayer [10, 11, 12]
      else if s = 0 then plainPlayer [20, 21, 22]
      else
        { handCards := [30, 31, 32], recent := none, strongColor := Color.NONE,
          weakColor := Color.NONE },
    deck := [40, 41], used := [3], recent := [4, 2] }

/-- Seat 0 holds fourteen cards, a WILD and thirteen GREEN NUM1, on BLUE NUM5; the next
player holds one card, played a wild card last and has RED as strong colour. -/
def tableFullHandNextDash : Uno :=
  { exampleTable [1, 5, 6, 7, 8, 9, 10, 11, 12, 13, 14, 15, 16, 17] [20] [2] with
    player := fun s =>
      if s = 1 then
        { handCards := [20], recent := some 4, strongColor := Color.RED,
          weakColor := Color.NONE }
      else (exampleTable [1, 5, 6, 7, 8, 9, 10, 11, 12, 13, 14, 15, 16, 17] [20]
        [2]).player s }

/-- Seat 0 holds fourteen cards, a WILD and thirteen GREEN NUM1, on BLUE NUM5; the next
player holds five cards, the two others three. -/
def tableFullHand : Uno :=
  exampleTable [1, 5, 6, 7, 8, 9, 10, 11, 12, 13, 14, 15, 16, 17] [20, 21, 22, 23, 24]
    [2]

/-- The card objects of the tables with action cards: 0 is RED DRAW2, 1 is RED NUM5,
2 is BLUE NUM5, 3 is RED NUM3, 4 is RED REV, 5 is RED SKIP, 6 is a WILD and 7 a
WILD_DRAW4 still in hand (colour NONE), every other address is GREEN NUM1. -/
def actionCard : CardPtr → Card
  | 0 => { color := Color.RED, content := Content.DRAW2 }
  | 1 => { color := Color.RED, content := Content.NUM5 }
  | 2 => { color := Color.BLUE, content := Content.NUM5 }
  | 3 => { color := Color.RED, content := Content.NUM3 }
  | 4 => { color := Color.RED, content := Content.REV }
  | 5 => { color := Color.RED, content := Content.SKIP }
  | 6 => { color := Color.NONE, content := Content.WILD }
  | 7 => { color := Color.NONE, content := Content.WILD_DRAW4 }
  | _ => { color := Color.GREEN, content := Content.NUM1 }

/-- Seat 0 holds `[RED DRAW2, RED NUM5, WILD]` on RED NUM3 and the next player holds one
card. -/
def tableDraw2NextOne : Uno :=
  { exampleTable [0, 1, 6] [10] [3] with card := actionCard }

/-- Seat 0 holds `[RED DRAW2, RED SKIP, WILD]` on RED NUM3, every opponent holding three
cards. -/
def tableSkipOrDraw2 : Uno :=
  { exampleTable [0, 5, 6] [10, 11, 12] [3] with card := actionCard }

/-- The hand `[BLUE NUM5, RED NUM3, WILD]` on RED NUM5 where the next player holds one
card, played a wild card last and has RED as strong colour. -/
def tableNumberNextDash : Uno :=
  { exampleTable [2, 3, 1] [5] [0] with
    player := fun s =>
      if s = 1 then
        { handCards := [5], recent := some 4, strongColor := Color.RED,
          weakColor := Color.NONE }
      else (exampleTable [2, 3, 1] [5] [0]).player s }

/-- Seat 0 holds `[WILD, WILD_DRAW4]` on RED NUM3, every opponent holding three cards. -/
def tableAllWild : Uno :=
  { exampleTable [6, 7] [10, 11, 12] [3] with card := actionCard }

/-- A state before `start()`. -/
def blankUno : Uno :=
  { card := tableCard, now := 0, direction := DIR_LEFT, player := fun _ => plainPlayer [],
    deck := [], used := [], recent := [] }

/-- The state after an unshuffled start: seat `s` holds the cards `s`, `s + 4`, ...,
`s + 24`, the start card is 28 and the draw pile holds 29 .. 107. -/
def stateStarted : Uno :=
  match blankUno.start [] [] with
  | none => blankUno
  | some u => u

/-- The state after an unshuffled start and seven draws by seat 0, who then holds
`MAX_HOLD_CARDS` cards; the draw pile holds 72 cards. -/
def stateAtLimit : Uno := stateStarted.run (List.replicate 7 (Call.draw [] 0))

/-- Seat 0 is in turn and holds `[RED DRAW2, RED NUM5, WILD]` on RED NUM3, the direction
is `DIR_LEFT`, seat 1 holds thirteen cards, one less than `MAX_HOLD_CARDS`, and the draw
pile three. -/
def gameDraw2AtLimit : Game :=
  { uno :=
      { exampleTable [0, 1, 6] [10, 11, 12, 13, 14, 15, 16, 17, 18, 19, 50, 51, 52] [3]
        with card := actionCard, deck := [40, 41, 42] },
    sStatus := 0, sWinner := 0, sDrawnCard := none, sImmPlayAsk := false,
    sChallengeAsk := false }

/-- A wild +4 declared RED lies on RED NUM3; seat 0 played it with direction `DIR_LEFT` and
still holds RED NUM5 and a WILD; seat 1 is in turn and holds five cards; the draw pile
holds six cards. -/
def gameChallenge : Game :=
  { uno := { exampleTable [0, 1] [5, 6, 7, 8, 9] [3, 4] with deck := [40, 41, 42, 43, 44, 45] },
    sStatus := 1, sWinner := 0, sDrawnCard := none, sImmPlayAsk := false,
    sChallengeAsk := true }

/-- Seat 0 holds `[RED NUM5, WILD]` on GREEN NUM1, so only the WILD is legal and RED is
the best colour; the opposite player (seat 2) holds one card and has RED as strong
colour, the next and the previous player hold three cards and show no colour. -/
def tableOppoDashRed : Uno :=
  { exampleTable [0, 1] [10, 11, 12] [5] with
    player := fun s =>
      if s = 2 then
        { handCards := [20], recent := some 4, strongColor := Color.RED,
          weakColor := Color.NONE }
      else (exampleTable [0, 1] [10, 11, 12] [5]).player s }

/-- Seat 0 is in turn with direction `DIR_LEFT` and holds `[BLUE NUM5, WILD_DRAW4]` on
RED NUM3: only the WILD_DRAW4 is legal.  The previous player (seat 3) holds one card, the
other opponents three; the draw pile holds two cards. -/
def gamePrevDash : Game :=
  { uno :=
      { exampleTable [2, 7] [10, 11, 12] [3] with
        card := actionCard,
        player := fun s =>
          if s = 3 then
            { handCards := [30], recent := some 6, strongColor := Color.RED,
              weakColor := Color.NONE }
          else (exampleTable [2, 7] [10, 11, 12] [3]).player s,
        deck := [40, 41] },
    sStatus := 0, sWinner := 0, sDrawnCard := none, sImmPlayAsk := false,
    sChallengeAsk := false }

/-- The dangerous colours of `gamePrevDash`: RED for seat 3, NONE for the others. -/
def dangerPrevRed (s : Nat) : Color := if s = 3 then Color.RED else Color.NONE

/-- A file of 4 GiB + 28 bytes: the 28 bytes written for the counters 1, 2, 3, 4, followed
by 4294967296 zero bytes. -/
def hugeStatFile : List Nat :=
  quitWrite { sEasyWin := 1, sHardWin := 2, sEasyTotal := 3, sHardTotal := 4 } ++
    List.replicate 4294967296 0

/-! ## Theorems -/

/-! ## Auxiliary facts on lists -/

theorem list_two_last {α : Type} (l : List α) (h : 2 ≤ l.length) :
    ∃ pre a b, l = pre ++ [a, b] := by
  rcases List.eq_nil_or_concat l with rfl | ⟨l1, b, rfl⟩
  · simp at h
  · rcases List.eq_nil_or_concat l1 with rfl | ⟨l2, a, rfl⟩
    · simp at h
    · exact ⟨l2, a, b, by simp⟩

theorem getLast?_two {α : Type} (pre : List α) (a b : α) :
    (pre ++ [a, b]).getLast? = some b := by
  simp [List.getLast?_append]

theorem getElem?_next2last {α : Type} (pre : List α) (a b : α) :
    (pre ++ [a, b])[(pre ++ [a, b]).length - 2]? = some a := by
  have : (pre ++ [a, b]).length - 2 = pre.length := by simp
  rw [this, List.getElem?_append_right (le_refl _)]
  simp

/-! ## needToChallenge -/

/-- C4: on a recent-played list of at least two cards, `needToChallenge` returns, and its
result is true exactly when the challenger holds one card, or at least
`MAX_HOLD_CARDS - 4` cards, or the colour of the last recent card (the wild +4 with its
declared colour) equals the colour of the card before it. -/
theorem needToChallenge_spec (u : Uno) (challenger : Nat) (h : 2 ≤ u.recent.length) :
    ∃ pre next2last last, u.recent = pre ++ [next2last, last] ∧
      needToChallenge u challenger = some (decide
        ((u.player challenger).getHandSize = 1 ∨
         (u.player challenger).getHandSize ≥ MAX_HOLD_CARDS - 4 ∨
         (u.card last).getRealColor = (u.card next2last).getRealColor)) := by
  obtain ⟨pre, a, b, hab⟩ := list_two_last u.recent h
  refine ⟨pre, a, b, hab, ?_⟩
  unfold needToChallenge
  by_cases hs : (u.player challenger).getHandSize = 1 ∨
      (u.player challenger).getHandSize ≥ MAX_HOLD_CARDS - 4
  · rw [if_pos hs]
    rcases hs with hs | hs <;> simp [hs]
  · rw [if_neg hs]
    have hlen : ¬ u.recent.length < 2 := by omega
    simp only [hlen, if_false]
    rw [hab, getElem?_next2last, getLast?_two]
    push_neg at hs
    have h1 := hs.1
    have h2 : ¬ (u.player challenger).getHandSize ≥ MAX_HOLD_CARDS - 4 := not_le.mpr hs.2
    by_cases hc : (u.card b).getRealColor = (u.card a).getRealColor <;> simp [h1, h2, hc]

/-- Witness of C4: a wild +4 declared RED on top of RED NUM3, challenger with five
cards; the result is true. -/
theorem needToChallenge_spec_witness :
    2 ≤ tableDraw4OnRed.recent.length ∧
    (∃ pre next2last last, tableDraw4OnRed.recent = pre ++ [next2last, last] ∧
      needToChallenge tableDraw4OnRed 1 = some (decide
        ((tableDraw4OnRed.player 1).getHandSize = 1 ∨
         (tableDraw4OnRed.player 1).getHandSize ≥ MAX_HOLD_CARDS - 4 ∨
         (tableDraw4OnRed.card last).getRealColor
           = (tableDraw4OnRed.card next2last).getRealColor))) ∧
    (tableDraw4OnRed.player 1).getHandSize = 5 ∧
    tableDraw4OnRed.card 3 = { color := Color.RED, content := Content.NUM3 } ∧
    tableDraw4OnRed.card 4 = { color := Color.RED, content := Content.WILD_DRAW4 } ∧
    needToChallenge tableDraw4OnRed 1 = some true :=
  ⟨by decide, needToChallenge_spec tableDraw4OnRed 1 (by decide), by decide, by decide,
    by decide, by decide⟩

/-- C5: a challenger holding exactly one card always challenges, whatever the
recent-played list holds (also when it has fewer than two cards). -/
theorem needToChallenge_one_card (u : Uno) (challenger : Nat)
    (h : (u.player challenger).getHandSize = 1) :
    needToChallenge u challenger = some true := by
  unfold needToChallenge
  simp [h]

/-- Witness of C5: seat 1 holds one card and the recent-played list has a single card. -/
theorem needToChallenge_one_card_witness :
    (tableNextHoldsOne.player 1).getHandSize = 1 ∧ tableNextHoldsOne.recent.length = 1 ∧
    needToChallenge tableNextHoldsOne 1 = some true :=
  ⟨by decide, by decide, needToChallenge_one_card tableNextHoldsOne 1 (by decide)⟩

/-! ## calcBestColor4NowPlayer -/

theorem calcBestColorStep_eq (u : Uno) (score : Color → Int) (p : CardPtr) :
    calcBestColorStep u score p =
      addScore score (u.card p).color (colorWeight (u.card p).content) := by
  unfold calcBestColorStep colorWeight Card.getRealColor
  cases (u.card p).content <;> rfl

theorem foldl_calcBestColorStep (u : Uno) (hand : List CardPtr) (score : Color → Int)
    (k : Color) :
    hand.foldl (calcBestColorStep u) score k = score k + weightedSum u hand k := by
  induction hand generalizing score with
  | nil => simp [weightedSum]
  | cons p ps ih =>
    rw [List.foldl_cons, ih, calcBestColorStep_eq]
    unfold weightedSum addScore
    by_cases hk : (u.card p).color = k
    · simp [List.filter_cons, hk]; ring
    · have hk2 : ¬ k = (u.card p).color := fun h => hk h.symm
      simp [List.filter_cons, hk, hk2]

theorem calcBestColorScores_eq (u : Uno) (hand : List CardPtr) (k : Color) :
    calcBestColorScores u hand k = weightedSum u hand k := by
  unfold calcBestColorScores
  rw [foldl_calcBestColorStep]; simp

theorem pickBestColor_ne_none (score : Color → Int) : pickBestColor score ≠ Color.NONE := by
  unfold pickBestColor
  simp only
  split_ifs <;> decide

theorem pickBestColor_max (score : Color → Int) (k : Color) (hk : k ≠ Color.NONE) :
    score k ≤ score (pickBestColor score) ∧
      (k.toNat < (pickBestColor score).toNat → score k < score (pickBestColor score)) := by
  unfold pickBestColor
  simp only
  cases k <;> simp only [ne_eq, not_true_eq_false, reduceCtorEq, not_false_eq_true] at hk <;>
    split_ifs <;> simp only [Color.toNat] <;> constructor <;> intros <;> omega

theorem weightedSum_wild_none (u : Uno) (hand : List CardPtr) (k : Color)
    (hk : k ≠ Color.NONE) (h : ∀ p ∈ hand, (u.card p).color = Color.NONE) :
    weightedSum u hand k = 0 := by
  unfold weightedSum
  have : hand.filter (fun p => (u.card p).color = k) = [] := by
    rw [List.filter_eq_nil_iff]
    intro p hp
    simp [h p hp, hk.symm]
  simp [this]

theorem calcBestColor_single (u : Uno) (p : CardPtr) (h : (u.player u.now).handCards = [p])
    (hc : (u.card p).color ≠ Color.NONE) :
    calcBestColor4NowPlayer u = (u.card p).color := by
  unfold calcBestColor4NowPlayer calcBestColorScores
  rw [h, List.foldl_cons, List.foldl_nil, calcBestColorStep_eq]
  unfold pickBestColor addScore colorWeight
  cases hcol : (u.card p).color <;> cases (u.card p).content <;> simp_all

/-- C8: the score array of `calcBestColor4NowPlayer` holds, for each colour, the sum of
the weights (2 for REV and NUM0, 5 for SKIP and DRAW2, 4 otherwise) of the cards of the
acting hand with that colour; the result is never NONE, has a maximal score among RED,
BLUE, GREEN, YELLOW, and every colour before it in that order has a strictly smaller
score; the result is RED for the empty hand and for a hand of cards of colour NONE. -/
theorem calcBestColor4NowPlayer_spec (u : Uno) :
    (∀ k, calcBestColorScores u (u.player u.now).handCards k
        = weightedSum u (u.player u.now).handCards k) ∧
    calcBestColor4NowPlayer u ≠ Color.NONE ∧
    (∀ k, k ≠ Color.NONE →
      weightedSum u (u.player u.now).handCards k
        ≤ weightedSum u (u.player u.now).handCards (calcBestColor4NowPlayer u) ∧
      (k.toNat < (calcBestColor4NowPlayer u).toNat →
        weightedSum u (u.player u.now).handCards k
          < weightedSum u (u.player u.now).handCards (calcBestColor4NowPlayer u))) ∧
    ((u.player u.now).handCards = [] → calcBestColor4NowPlayer u = Color.RED) ∧
    ((∀ p ∈ (u.player u.now).handCards,
        (u.card p).isWild = true ∧ (u.card p).color = Color.NONE) →
      calcBestColor4NowPlayer u = Color.RED) := by
  have hall : ∀ hand : List CardPtr, (∀ p ∈ hand, (u.card p).color = Color.NONE) →
      pickBestColor (calcBestColorScores u hand) = Color.RED := by
    intro hand h
    have e : ∀ k, k ≠ Color.NONE → calcBestColorScores u hand k = 0 := fun k hk => by
      rw [calcBestColorScores_eq, weightedSum_wild_none u hand k hk h]
    unfold pickBestColor
    simp [e]
  refine ⟨fun k => calcBestColorScores_eq u _ k, pickBestColor_ne_none _, ?_, ?_, ?_⟩
  · intro k hk
    have := pickBestColor_max (calcBestColorScores u (u.player u.now).handCards) k hk
    simpa only [calcBestColor4NowPlayer, calcBestColorScores_eq] using this
  · intro h
    unfold calcBestColor4NowPlayer
    exact hall _ (by simp [h])
  · intro h
    unfold calcBestColor4NowPlayer
    exact hall _ (fun p hp => (h p hp).2)

/-! ## bestSwapTarget4NowPlayer and the one-card case -/

/-- C9: with a non-empty recent-played list, `bestSwapTarget4NowPlayer` returns a seat
that is the previous, the opposite or the next seat: the previous seat, replaced by
the opposite seat exactly when the swap condition holds for the opposite player
against the previous player, then replaced by the next seat exactly when the swap
condition holds for the next player against the target chosen so far. -/
theorem bestSwapTarget4NowPlayer_spec (u : Uno) (last : CardPtr)
    (hlast : u.recent.getLast? = some last) :
    ∃ who, bestSwapTarget4NowPlayer u = some who ∧
      (who = u.getPrev ∨ who = u.getOppo ∨ who = u.getNext) ∧
      who =
        (if SwapCondition (u.player u.getNext)
            (u.player (if SwapCondition (u.player u.getOppo) (u.player u.getPrev)
                (u.card last).color then u.getOppo else u.getPrev))
            (u.card last).color
         then u.getNext
         else (if SwapCondition (u.player u.getOppo) (u.player u.getPrev)
                (u.card last).color then u.getOppo else u.getPrev)) := by
  have hb : ∀ (a b : Player) (c : Color), swapOverride a b c = true ↔ SwapCondition a b c := by
    intro a b c
    unfold swapOverride SwapCondition
    simp
  unfold bestSwapTarget4NowPlayer
  rw [hlast]
  simp only [hb, Card.getRealColor]
  refine ⟨_, rfl, ?_, rfl⟩
  split_ifs <;> simp

/-- Witness of C9: the next player (seat 1) holds one card, the others three; the swap
target is seat 1. -/
theorem bestSwapTarget4NowPlayer_spec_witness :
    tableNextHoldsOne.recent.getLast? = some 2 ∧
    bestSwapTarget4NowPlayer tableNextHoldsOne = some 1 ∧
    (∃ who, bestSwapTarget4NowPlayer tableNextHoldsOne = some who ∧
      (who = tableNextHoldsOne.getPrev ∨ who = tableNextHoldsOne.getOppo ∨
        who = tableNextHoldsOne.getNext)) := by
  obtain ⟨who, h1, h2, _⟩ := bestSwapTarget4NowPlayer_spec tableNextHoldsOne 2 (by decide)
  exact ⟨by decide, by decide, who, h1, h2⟩

/-- C3: on a one-card hand each of the three strategies returns index 0 when the card is
legal to play and -1 otherwise (the out-colour being the colour of the card), whatever
the drawn-card argument, the opponents and the random draws. -/
theorem one_card_hand (u : Uno) (drawnCard : Option CardPtr) (rands : List Nat)
    (p : CardPtr) (h : (u.player u.now).handCards = [p]) :
    easyAI_bestCardIndex4NowPlayer u drawnCard
        = some ((if u.isLegalToPlay p = true then 0 else -1), (u.card p).color) ∧
    hardAI_bestCardIndex4NowPlayer u drawnCard rands
        = some ((if u.isLegalToPlay p = true then 0 else -1), (u.card p).color) ∧
    sevenZeroAI_bestCardIndex4NowPlayer u drawnCard
        = some ((if u.isLegalToPlay p = true then 0 else -1), (u.card p).color) := by
  unfold easyAI_bestCardIndex4NowPlayer hardAI_bestCardIndex4NowPlayer
    sevenZeroAI_bestCardIndex4NowPlayer
  simp only [h]
  exact ⟨rfl, rfl, rfl⟩

/-- Witness of C3: a one-card hand holding RED NUM5 on BLUE NUM5 (legal by content),
with a drawn-card argument that is not the card held. -/
theorem one_card_hand_witness :
    (tableLastCardNumber.player tableLastCardNumber.now).handCards = [0] ∧
    tableLastCardNumber.isLegalToPlay 0 = true ∧
    (easyAI_bestCardIndex4NowPlayer tableLastCardNumber (some 7)
        = some ((if tableLastCardNumber.isLegalToPlay 0 = true then 0 else -1),
            (tableLastCardNumber.card 0).color) ∧
    hardAI_bestCardIndex4NowPlayer tableLastCardNumber (some 7) [3]
        = some ((if tableLastCardNumber.isLegalToPlay 0 = true then 0 else -1),
            (tableLastCardNumber.card 0).color) ∧
    sevenZeroAI_bestCardIndex4NowPlayer tableLastCardNumber (some 7)
        = some ((if tableLastCardNumber.isLegalToPlay 0 = true then 0 else -1),
            (tableLastCardNumber.card 0).color)) :=
  ⟨by decide, by decide, one_card_hand tableLastCardNumber (some 7) [3] 0 (by decide)⟩

/-! ## Soundness of the scanning loops and of the decision trees -/

theorem handAt_natCast (hand : List CardPtr) (n : Nat) : handAt hand (n : Int) = hand[n]? := by
  simp [handAt]

theorem handAt_neg_one (hand : List CardPtr) : handAt hand (-1) = none := by
  simp [handAt]

theorem SlotOK.set {u : Uno} {drawnCard : Option CardPtr} {hand : List CardPtr}
    {K : Card → Prop} {i : Nat} {p : CardPtr} (hi : hand[i]? = some p)
    (hl : legalNow u drawnCard p = true) (hk : K (u.card p)) :
    SlotOK u drawnCard hand K true (i : Int) :=
  Or.inr ⟨rfl, i, p, rfl, hi, hl, hk⟩

theorem SlotOK.unset (u : Uno) (drawnCard : Option CardPtr) (hand : List CardPtr)
    (K : Card → Prop) : SlotOK u drawnCard hand K false (-1) :=
  Or.inl ⟨rfl, rfl⟩

theorem SlotOK.inRange {u : Uno} {drawnCard : Option CardPtr} {hand : List CardPtr}
    {K : Card → Prop} {has : Bool} {idx : Int} (h : SlotOK u drawnCard hand K has idx)
    (ht : has = true) : ∃ p, handAt hand idx = some p := by
  rcases h with ⟨hf, _⟩ | ⟨_, n, p, rfl, hn, _, _⟩
  · rw [ht] at hf; cases hf
  · exact ⟨p, by rw [handAt_natCast]; exact hn⟩

theorem SlotOK.playable {u : Uno} {drawnCard : Option CardPtr} {hand : List CardPtr}
    {K : Card → Prop} {has : Bool} {idx : Int} (h : SlotOK u drawnCard hand K has idx) :
    Playable u drawnCard hand idx := by
  rcases h with ⟨_, h⟩ | ⟨_, n, p, rfl, hn, hl, _⟩
  · exact Or.inl h
  · right
    have hlt : n < hand.length := by
      by_contra hc
      rw [List.getElem?_eq_none (not_lt.mp hc)] at hn
      cases hn
    refine ⟨by omega, by omega, p, ?_, hl⟩
    rw [handAt_natCast]; exact hn

theorem SlotOK.denotes {u : Uno} {drawnCard : Option CardPtr} {hand : List CardPtr}
    {K : Card → Prop} {has : Bool} {idx : Int} (h : SlotOK u drawnCard hand K has idx) :
    DenotesOnly u hand K idx := by
  intro q hq
  rcases h with ⟨_, h⟩ | ⟨_, n, p, rfl, hn, _, hk⟩
  · rw [h, handAt_neg_one] at hq; cases hq
  · rw [handAt_natCast, hn] at hq
    cases hq; exact hk

theorem easyScanStep_inv (u : Uno) (drawnCard : Option CardPtr) (bestColor : Color)
    (hand : List CardPtr) (st : EasyScan) (i : Nat) (p : CardPtr)
    (hi : hand[i]? = some p) (h : EasyInv u drawnCard hand st) :
    EasyInv u drawnCard hand (easyScanStep u drawnCard bestColor st i p) := by
  unfold easyScanStep
  by_cases hl : legalNow u drawnCard p = true
  · rw [if_pos hl]
    obtain ⟨h1, h2, h3, h4, h5, h6⟩ := h
    cases hc : (u.card p).content <;> simp only <;>
      (try split_ifs) <;>
      first
        | exact ⟨h1, h2, h3, h4, h5, h6⟩
        | exact ⟨SlotOK.set hi hl (by simp [hc, Content.isNumber]), h2, h3, h4, h5, h6⟩
        | exact ⟨h1, SlotOK.set hi hl hc, h3, h4, h5, h6⟩
        | exact ⟨h1, h2, SlotOK.set hi hl hc, h4, h5, h6⟩
        | exact ⟨h1, h2, h3, SlotOK.set hi hl hc, h5, h6⟩
        | exact ⟨h1, h2, h3, h4, SlotOK.set hi hl hc, h6⟩
        | exact ⟨h1, h2, h3, h4, h5, SlotOK.set hi hl hc⟩
  · rw [if_neg hl]; exact h

theorem easyScanLoop_inv (u : Uno) (drawnCard : Option CardPtr) (bestColor : Color)
    (hand : List CardPtr) (ps : List CardPtr) (i : Nat) (st : EasyScan)
    (hps : ∀ j p, ps[j]? = some p → hand[i + j]? = some p)
    (h : EasyInv u drawnCard hand st) :
    EasyInv u drawnCard hand (easyScanLoop u drawnCard bestColor ps i st) := by
  induction ps generalizing i st with
  | nil => exact h
  | cons p ps ih =>
    unfold easyScanLoop
    apply ih
    · intro j q hq
      have := hps (j + 1) q (by simpa using hq)
      rw [← this]; congr 1; omega
    · exact easyScanStep_inv u drawnCard bestColor hand st i p (hps 0 p (by simp)) h

theorem easyScan_inv (u : Uno) (drawnCard : Option CardPtr) (bestColor : Color)
    (hand : List CardPtr) :
    EasyInv u drawnCard hand (easyScanLoop u drawnCard bestColor hand 0 EasyScan.init) := by
  apply easyScanLoop_inv
  · intro j p hp; simpa using hp
  · exact ⟨SlotOK.unset _ _ _ _, SlotOK.unset _ _ _ _, SlotOK.unset _ _ _ _,
      SlotOK.unset _ _ _ _, SlotOK.unset _ _ _ _, SlotOK.unset _ _ _ _⟩

theorem easyDecision_playable (u : Uno) (drawnCard : Option CardPtr) (hand : List CardPtr)
    (st : EasyScan) (h : EasyInv u drawnCard hand st) (nextSize prevSize : Int)
    (lastColor bestColor : Color) :
    Playable u drawnCard hand (easyDecision st nextSize prevSize lastColor bestColor) := by
  obtain ⟨h1, h2, h3, h4, h5, h6⟩ := h
  unfold easyDecision
  split_ifs <;>
    first
      | exact Or.inl rfl
      | exact h1.playable
      | exact h2.playable
      | exact h3.playable
      | exact h4.playable
      | exact h5.playable
      | exact h6.playable

theorem SlotOK.mono {u : Uno} {drawnCard : Option CardPtr} {hand : List CardPtr}
    {K K2 : Card → Prop} {has : Bool} {idx : Int} (hk : ∀ c, K c → K2 c)
    (h : SlotOK u drawnCard hand K has idx) : SlotOK u drawnCard hand K2 has idx := by
  rcases h with h | ⟨h1, n, p, h2, h3, h4, h5⟩
  · exact Or.inl h
  · exact Or.inr ⟨h1, n, p, h2, h3, h4, hk _ h5⟩

theorem isWild_of_content_wild {c : Card} (h : c.content = Content.WILD) :
    c.isWild = true := by
  simp [Card.isWild, h]

theorem isWild_of_content_wd4 {c : Card} (h : c.content = Content.WILD_DRAW4) :
    c.isWild = true := by
  simp [Card.isWild, h]

theorem not_isWild_of_isNumber {c : Card} (h : c.content.isNumber = true) :
    c.isWild = false := by
  unfold Card.isWild
  cases hc : c.content <;> simp_all [Content.isNumber]

theorem hardScan_numSlot (u : Uno) (drawnCard : Option CardPtr) (hand : List CardPtr)
    (st : HardScan) (i : Nat) (p : CardPtr) (hi : hand[i]? = some p)
    (hl : legalNow u drawnCard p = true) (hn : (u.card p).content.isNumber = true)
    (h1 : ∀ k, SlotOK u drawnCard hand (fun c => c.content.isNumber = true ∧ c.color = k)
      (st.hasNumIn k) (st.idxNumIn k)) (k : Color) :
    SlotOK u drawnCard hand (fun c => c.content.isNumber = true ∧ c.color = k)
      (setAt st.hasNumIn (u.card p).getRealColor true k)
      (setAt st.idxNumIn (u.card p).getRealColor (i : Int) k) := by
  unfold setAt
  by_cases hk : k = (u.card p).getRealColor
  · rw [if_pos hk, if_pos hk]
    exact SlotOK.set hi hl ⟨hn, hk.symm⟩
  · rw [if_neg hk, if_neg hk]
    exact h1 k

theorem hardScanStep_inv (u : Uno) (drawnCard : Option CardPtr) (bestColor : Color)
    (hand : List CardPtr) (st : HardScan) (i : Nat) (p : CardPtr)
    (hi : hand[i]? = some p) (h : HardInv u drawnCard hand st) :
    HardInv u drawnCard hand (hardScanStep u drawnCard bestColor st i p) := by
  unfold hardScanStep
  obtain ⟨h1, h2, h3, h4, h5, h6⟩ := h
  by_cases hl : legalNow u drawnCard p = true
  · simp only [hl, if_true]
    unfold hardScanSwitch
    cases hc : (u.card p).content <;> simp only <;>
      (try split_ifs) <;>
      first
        | exact ⟨h1, h2, h3, h4, h5, h6⟩
        | exact ⟨hardScan_numSlot u drawnCard hand st i p hi hl
            (by simp [hc, Content.isNumber]) h1, h2, h3, h4, h5, h6⟩
        | exact ⟨h1, SlotOK.set hi hl hc, h3, h4, h5, h6⟩
        | exact ⟨h1, h2, SlotOK.set hi hl hc, h4, h5, h6⟩
        | exact ⟨h1, h2, h3, SlotOK.set hi hl hc, h5, h6⟩
        | exact ⟨h1, h2, h3, h4, SlotOK.set hi hl hc, h6⟩
        | exact ⟨h1, h2, h3, h4, h5, SlotOK.set hi hl hc⟩
  · simp only [hl]
    exact ⟨h1, h2, h3, h4, h5, h6⟩

theorem hardScanLoop_inv (u : Uno) (drawnCard : Option CardPtr) (bestColor : Color)
    (hand : List CardPtr) (ps : List CardPtr) (i : Nat) (st : HardScan)
    (hps : ∀ j p, ps[j]? = some p → hand[i + j]? = some p)
    (h : HardInv u drawnCard hand st) :
    HardInv u drawnCard hand (hardScanLoop u drawnCard bestColor ps i st) := by
  induction ps generalizing i st with
  | nil => exact h
  | cons p ps ih =>
    unfold hardScanLoop
    apply ih
    · intro j q hq
      have := hps (j + 1) q (by simpa using hq)
      rw [← this]; congr 1; omega
    · exact hardScanStep_inv u drawnCard bestColor hand st i p (hps 0 p (by simp)) h

theorem hardScan_inv (u : Uno) (drawnCard : Option CardPtr) (bestColor : Color)
    (hand : List CardPtr) :
    HardInv u drawnCard hand (hardScanLoop u drawnCard bestColor hand 0 HardScan.init) := by
  apply hardScanLoop_inv
  · intro j p hp; simpa using hp
  · exact ⟨fun _ => SlotOK.unset _ _ _ _, SlotOK.unset _ _ _ _, SlotOK.unset _ _ _ _,
      SlotOK.unset _ _ _ _, SlotOK.unset _ _ _ _, SlotOK.unset _ _ _ _⟩

theorem HardLeaf.keep {u : Uno} {drawnCard : Option CardPtr} {v : HardLocals}
    {K : Card → Prop} {has : Bool} {idx : Int}
    (h : SlotOK u drawnCard v.hand K has idx) :
    HardLeaf u drawnCard v (idx, v.bestColor) :=
  ⟨h.playable, Or.inl rfl⟩

theorem HardLeaf.wild {u : Uno} {drawnCard : Option CardPtr} {v : HardLocals}
    {has : Bool} {idx : Int} (c : Color)
    (h : SlotOK u drawnCard v.hand (fun c => c.isWild = true) has idx) :
    HardLeaf u drawnCard v (idx, c) :=
  ⟨h.playable, Or.inr h.denotes⟩

theorem HardLeaf.none (u : Uno) (drawnCard : Option CardPtr) (v : HardLocals) (c : Color) :
    HardLeaf u drawnCard v (-1, c) :=
  ⟨Or.inl rfl, Or.inr (fun p hp => by rw [handAt_neg_one] at hp; cases hp)⟩

theorem HardLeaf.of_branches {u : Uno} {drawnCard : Option CardPtr} {v : HardLocals} {c : Prop}
    [Decidable c] {a b : Int × Color} (ha : HardLeaf u drawnCard v a)
    (hb : HardLeaf u drawnCard v b) : HardLeaf u drawnCard v (if c then a else b) := by
  split_ifs
  · exact ha
  · exact hb

theorem hardNextDash_leaf (u : Uno) (drawnCard : Option CardPtr) (v : HardLocals)
    (h : HardInv u drawnCard v.hand v.st) (safeColor : Color) :
    HardLeaf u drawnCard v (hardNextDash u v safeColor) := by
  obtain ⟨h1, h2, h3, h4, h5, h6⟩ := h
  have w5 := h5.mono (fun _ => isWild_of_content_wild)
  have w6 := h6.mono (fun _ => isWild_of_content_wd4)
  unfold hardNextDash
  repeat' first
      | apply HardLeaf.of_branches
      | exact HardLeaf.none _ _ _ _
      | exact HardLeaf.keep (h1 _)
      | exact HardLeaf.keep h2
      | exact HardLeaf.keep h3
      | exact HardLeaf.keep h4
      | exact HardLeaf.wild _ w5
      | exact HardLeaf.wild _ w6

theorem hardPrevDash_leaf (u : Uno) (drawnCard : Option CardPtr) (v : HardLocals)
    (h : HardInv u drawnCard v.hand v.st) (safeColor : Color) :
    HardLeaf u drawnCard v (hardPrevDash u v safeColor) := by
  obtain ⟨h1, h2, h3, h4, h5, h6⟩ := h
  have w5 := h5.mono (fun _ => isWild_of_content_wild)
  have w6 := h6.mono (fun _ => isWild_of_content_wd4)
  unfold hardPrevDash
  repeat' first
      | apply HardLeaf.of_branches
      | exact HardLeaf.none _ _ _ _
      | exact HardLeaf.keep (h1 _)
      | exact HardLeaf.keep h2
      | exact HardLeaf.keep h3
      | exact HardLeaf.keep h4
      | exact HardLeaf.wild _ w5
      | exact HardLeaf.wild _ w6

theorem hardOppoDash_leaf (u : Uno) (drawnCard : Option CardPtr) (v : HardLocals)
    (h : HardInv u drawnCard v.hand v.st) (safeColor : Color) :
    HardLeaf u drawnCard v (hardOppoDash u v safeColor) := by
  obtain ⟨h1, h2, h3, h4, h5, h6⟩ := h
  have w5 := h5.mono (fun _ => isWild_of_content_wild)
  have w6 := h6.mono (fun _ => isWild_of_content_wd4)
  unfold hardOppoDash
  repeat' first
      | apply HardLeaf.of_branches
      | exact HardLeaf.none _ _ _ _
      | exact HardLeaf.keep (h1 _)
      | exact HardLeaf.keep h2
      | exact HardLeaf.keep h3
      | exact HardLeaf.keep h4
      | exact HardLeaf.wild _ w5
      | exact HardLeaf.wild _ w6

theorem hardNextDrew_leaf (u : Uno) (drawnCard : Option CardPtr) (v : HardLocals)
    (h : HardInv u drawnCard v.hand v.st) :
    HardLeaf u drawnCard v (hardNextDrew u v) := by
  obtain ⟨h1, h2, h3, h4, h5, h6⟩ := h
  unfold hardNextDrew
  repeat' first
      | apply HardLeaf.of_branches
      | exact HardLeaf.none _ _ _ _
      | exact HardLeaf.keep (h1 _)
      | exact HardLeaf.keep h2
      | exact HardLeaf.keep h3
      | exact HardLeaf.keep h4

theorem hardFullHand_leaf (u : Uno) (drawnCard : Option CardPtr) (v : HardLocals)
    (h : HardInv u drawnCard v.hand v.st) :
    HardLeaf u drawnCard v (hardFullHand v, v.bestColor) := by
  obtain ⟨h1, h2, h3, h4, h5, h6⟩ := h
  refine ⟨?_, Or.inl rfl⟩
  unfold hardFullHand
  split_ifs
  · exact h3.playable
  · exact h4.playable
  · exact h2.playable
  · exact h5.playable
  · exact h6.playable
  · exact Or.inl rfl

theorem hardNormal_leaf (u : Uno) (drawnCard : Option CardPtr) (v : HardLocals)
    (h : HardInv u drawnCard v.hand v.st) :
    HardLeaf u drawnCard v (hardNormal u v) := by
  have hf := hardFullHand_leaf u drawnCard v h
  obtain ⟨h1, h2, h3, h4, h5, h6⟩ := h
  unfold hardNormal
  repeat' first
      | apply HardLeaf.of_branches
      | exact hf
      | exact HardLeaf.none _ _ _ _
      | exact HardLeaf.keep (h1 _)
      | exact HardLeaf.keep h2
      | exact HardLeaf.keep h3
      | exact HardLeaf.keep h4
      | exact HardLeaf.keep h5
      | exact HardLeaf.keep h6

theorem hardAllWild_leaf (u : Uno) (drawnCard : Option CardPtr) (v : HardLocals)
    (h : HardInv u drawnCard v.hand v.st) (c : Color) :
    HardLeaf u drawnCard v (hardAllWildIndex v, c) := by
  obtain ⟨h1, h2, h3, h4, h5, h6⟩ := h
  have w5 := h5.mono (fun _ => isWild_of_content_wild)
  have w6 := h6.mono (fun _ => isWild_of_content_wd4)
  unfold hardAllWildIndex
  split_ifs <;>
    first
      | exact HardLeaf.wild _ w5
      | exact HardLeaf.wild _ w6

theorem hardDecision_leaf (u : Uno) (drawnCard : Option CardPtr) (v : HardLocals)
    (h : HardInv u drawnCard v.hand v.st) (rands : List Nat) (r : Int × Color)
    (hr : hardDecision u v rands = some r) : HardLeaf u drawnCard v r := by
  unfold hardDecision at hr
  split_ifs at hr
  · cases hr; exact HardLeaf.keep h.2.2.2.1
  · split at hr
    · cases hr
    · cases hr; exact hardNextDash_leaf u drawnCard v h _
  · split at hr
    · cases hr
    · cases hr; exact hardPrevDash_leaf u drawnCard v h _
  · split at hr
    · cases hr
    · cases hr; exact hardOppoDash_leaf u drawnCard v h _
  · split at hr
    · cases hr
    · cases hr; exact hardAllWild_leaf u drawnCard v h _
  · cases hr; exact hardNextDrew_leaf u drawnCard v h
  · cases hr; exact hardNormal_leaf u drawnCard v h

theorem sevenZeroScanStep_inv (u : Uno) (drawnCard : Option CardPtr) (bestColor : Color)
    (hand : List CardPtr) (st : SevenZeroScan) (i : Nat) (p : CardPtr)
    (hi : hand[i]? = some p) (h : SevenZeroInv u drawnCard hand st) :
    SevenZeroInv u drawnCard hand (sevenZeroScanStep u drawnCard bestColor st i p) := by
  unfold sevenZeroScanStep
  by_cases hl : legalNow u drawnCard p = true
  · rw [if_pos hl]
    obtain ⟨h1, h2, h3, h4, h5, h6, h7, h8⟩ := h
    cases hc : (u.card p).content <;> simp only <;>
      (try split_ifs) <;>
      first
        | exact ⟨h1, h2, h3, h4, h5, h6, h7, h8⟩
        | exact ⟨h1, h2, SlotOK.set hi hl (by simp [hc, Content.isNumber]), h4, h5, h6, h7, h8⟩
        | exact ⟨SlotOK.set hi hl hc, h2, h3, h4, h5, h6, h7, h8⟩
        | exact ⟨h1, SlotOK.set hi hl hc, h3, h4, h5, h6, h7, h8⟩
        | exact ⟨h1, h2, h3, SlotOK.set hi hl hc, h5, h6, h7, h8⟩
        | exact ⟨h1, h2, h3, h4, SlotOK.set hi hl hc, h6, h7, h8⟩
        | exact ⟨h1, h2, h3, h4, h5, SlotOK.set hi hl hc, h7, h8⟩
        | exact ⟨h1, h2, h3, h4, h5, h6, SlotOK.set hi hl hc, h8⟩
        | exact ⟨h1, h2, h3, h4, h5, h6, h7, SlotOK.set hi hl hc⟩
  · rw [if_neg hl]; exact h

theorem sevenZeroScanLoop_inv (u : Uno) (drawnCard : Option CardPtr) (bestColor : Color)
    (hand : List CardPtr) (ps : List CardPtr) (i : Nat) (st : SevenZeroScan)
    (hps : ∀ j p, ps[j]? = some p → hand[i + j]? = some p)
    (h : SevenZeroInv u drawnCard hand st) :
    SevenZeroInv u drawnCard hand (sevenZeroScanLoop u drawnCard bestColor ps i st) := by
  induction ps generalizing i st with
  | nil => exact h
  | cons p ps ih =>
    unfold sevenZeroScanLoop
    apply ih
    · intro j q hq
      have := hps (j + 1) q (by simpa using hq)
      rw [← this]; congr 1; omega
    · exact sevenZeroScanStep_inv u drawnCard bestColor hand st i p (hps 0 p (by simp)) h

theorem sevenZeroScan_inv (u : Uno) (drawnCard : Option CardPtr) (bestColor : Color)
    (hand : List CardPtr) :
    SevenZeroInv u drawnCard hand
      (sevenZeroScanLoop u drawnCard bestColor hand 0 SevenZeroScan.init) := by
  apply sevenZeroScanLoop_inv
  · intro j p hp; simpa using hp
  · exact ⟨SlotOK.unset _ _ _ _, SlotOK.unset _ _ _ _, SlotOK.unset _ _ _ _,
      SlotOK.unset _ _ _ _, SlotOK.unset _ _ _ _, SlotOK.unset _ _ _ _,
      SlotOK.unset _ _ _ _, SlotOK.unset _ _ _ _⟩

theorem Playable.of_ite {u : Uno} {drawnCard : Option CardPtr} {hand : List CardPtr}
    {c : Prop} [Decidable c] {a b : Int} (ha : Playable u drawnCard hand a)
    (hb : Playable u drawnCard hand b) : Playable u drawnCard hand (if c then a else b) := by
  split_ifs
  · exact ha
  · exact hb

theorem sevenZeroDecision_playable (u : Uno) (drawnCard : Option CardPtr)
    (hand : List CardPtr) (st : SevenZeroScan) (h : SevenZeroInv u drawnCard hand st)
    (yourSize nextSize oppoSize prevSize : Int)
    (nextStrongColor oppoStrongColor prevStrongColor lastColor bestColor : Color) :
    Playable u drawnCard hand
      (sevenZeroDecision u hand st yourSize nextSize oppoSize prevSize nextStrongColor
        oppoStrongColor prevStrongColor lastColor bestColor) := by
  obtain ⟨h1, h2, h3, h4, h5, h6, h7, h8⟩ := h
  unfold sevenZeroDecision
  repeat' first
    | apply Playable.of_ite
    | exact Or.inl rfl
    | exact h1.playable
    | exact h2.playable
    | exact h3.playable
    | exact h4.playable
    | exact h5.playable
    | exact h6.playable
    | exact h7.playable
    | exact h8.playable

theorem easyScanStep_hasNum (u : Uno) (drawnCard : Option CardPtr) (bestColor : Color)
    (st : EasyScan) (i : Nat) (p : CardPtr)
    (h : st.hasNum = true ∨
      (legalNow u drawnCard p = true ∧ (u.card p).content.isNumber = true)) :
    (easyScanStep u drawnCard bestColor st i p).hasNum = true := by
  unfold easyScanStep
  by_cases hl : legalNow u drawnCard p = true
  · rw [if_pos hl]
    cases hc : (u.card p).content <;> simp only <;> (try split_ifs) <;>
      simp_all [Content.isNumber]
  · rw [if_neg hl]
    rcases h with h | ⟨h, _⟩
    · exact h
    · exact absurd h hl

theorem easyScanLoop_hasNum (u : Uno) (drawnCard : Option CardPtr) (bestColor : Color)
    (ps : List CardPtr) (i : Nat) (st : EasyScan)
    (h : st.hasNum = true ∨
      ∃ p ∈ ps, legalNow u drawnCard p = true ∧ (u.card p).content.isNumber = true) :
    (easyScanLoop u drawnCard bestColor ps i st).hasNum = true := by
  induction ps generalizing i st with
  | nil =>
    rcases h with h | ⟨p, hp, _⟩
    · exact h
    · cases hp
  | cons q qs ih =>
    unfold easyScanLoop
    apply ih
    rcases h with h | ⟨p, hp, hl, hn⟩
    · exact Or.inl (easyScanStep_hasNum u drawnCard bestColor st i q (Or.inl h))
    · rcases List.mem_cons.mp hp with rfl | hp
      · exact Or.inl (easyScanStep_hasNum u drawnCard bestColor st i p (Or.inr ⟨hl, hn⟩))
      · exact Or.inr ⟨p, hp, hl, hn⟩

theorem easyDecision_wild (u : Uno) (drawnCard : Option CardPtr) (hand : List CardPtr)
    (st : EasyScan) (h : EasyInv u drawnCard hand st) (hnum : st.hasNum = true)
    (nextSize prevSize : Int) (lastColor bestColor : Color) (q : CardPtr)
    (hq : handAt hand (easyDecision st nextSize prevSize lastColor bestColor) = some q)
    (hw : (u.card q).isWild = true) : nextSize = 1 ∧ lastColor ≠ bestColor := by
  obtain ⟨h1, h2, h3, h4, h5, h6⟩ := h
  have d1 := (h1.mono (fun _ => not_isWild_of_isNumber)).denotes
  have d2 : DenotesOnly u hand (fun c => c.isWild = false) st.idxRev :=
    (h2.mono (fun c hc => by simp [Card.isWild, hc])).denotes
  have d3 : DenotesOnly u hand (fun c => c.isWild = false) st.idxSkip :=
    (h3.mono (fun c hc => by simp [Card.isWild, hc])).denotes
  have d4 : DenotesOnly u hand (fun c => c.isWild = false) st.idxDraw2 :=
    (h4.mono (fun c hc => by simp [Card.isWild, hc])).denotes
  have no : ∀ i, DenotesOnly u hand (fun c => c.isWild = false) i →
      handAt hand i = some q → False := by
    intro i hi hq2
    have := hi q hq2
    simp only at this
    rw [this] at hw
    cases hw
  unfold easyDecision at hq
  split_ifs at hq with c1 c2 c3 c4 c5 c6 c7
  all_goals first
    | exact (no _ d1 hq).elim
    | exact (no _ d2 hq).elim
    | exact (no _ d3 hq).elim
    | exact (no _ d4 hq).elim
    | exact ⟨c1, c5.2⟩
    | exact ⟨c1, c6.2⟩

theorem exists_free_color (s1 s2 s3 : Color) :
    ∃ r ∈ [0, 1, 2, 3], Color.ofCode (r % 4 + 1) ≠ s1 ∧ Color.ofCode (r % 4 + 1) ≠ s2 ∧
      Color.ofCode (r % 4 + 1) ≠ s3 := by
  cases s1 <;> cases s2 <;> cases s3 <;> decide

theorem randomColorLoop_single (cond : Color → Bool) (c : Color) (r : Nat)
    (h : cond (Color.ofCode (r % 4 + 1)) = false) :
    ∃ c2, randomColorLoop cond c [r] = some c2 := by
  unfold randomColorLoop
  by_cases hc : cond c = true
  · rw [if_pos hc]
    unfold randomColorLoop
    simp [h]
  · rw [if_neg hc]
    exact ⟨c, rfl⟩

theorem hardDecision_returns (u : Uno) (v : HardLocals) :
    ∃ rands r, hardDecision u v rands = some r := by
  obtain ⟨r, _, hr1, hr2, hr3⟩ :=
    exists_free_color v.nextStrongColor v.oppoStrongColor v.prevStrongColor
  have e1 := randomColorLoop_single (nextLoopCond v)
    (initialSafeColor v.nextStrongColor v.nextWeakColor v.bestColor) r
    (by simp [nextLoopCond, hr1, hr2, hr3])
  have e2 := randomColorLoop_single (prevLoopCond v)
    (initialSafeColor v.prevStrongColor v.prevWeakColor v.bestColor) r
    (by simp [prevLoopCond, hr2, hr3])
  have e3 := randomColorLoop_single (oppoLoopCond v)
    (initialSafeColor v.oppoStrongColor v.oppoWeakColor v.bestColor) r
    (by simp [oppoLoopCond, hr2])
  have e4 := randomColorLoop_single (allWildLoopCond v) v.bestColor r
    (by simp [allWildLoopCond, hr1, hr2, hr3])
  obtain ⟨c1, e1⟩ := e1
  obtain ⟨c2, e2⟩ := e2
  obtain ⟨c3, e3⟩ := e3
  obtain ⟨c4, e4⟩ := e4
  refine ⟨[r], ?_⟩
  unfold hardDecision hardAllWildColor
  rw [e1, e2, e3, e4]
  split_ifs <;> exact ⟨_, rfl⟩

/-! ## The strategies outside the one-card case -/

theorem easyAI_eq (u : Uno) (drawnCard : Option CardPtr)
    (hsize : (u.player u.now).handCards.length ≠ 1) (last : CardPtr)
    (hlast : u.recent.getLast? = some last) :
    easyAI_bestCardIndex4NowPlayer u drawnCard =
      some (easyDecision
        (easyScanLoop u drawnCard (calcBestColor4NowPlayer u) (u.player u.now).handCards 0
          EasyScan.init)
        (u.player u.getNext).getHandSize (u.player u.getPrev).getHandSize
        (u.card last).getRealColor (calcBestColor4NowPlayer u),
        calcBestColor4NowPlayer u) := by
  unfold easyAI_bestCardIndex4NowPlayer
  simp only
  split
  · rename_i p hp
    rw [hp] at hsize
    exact absurd rfl hsize
  · rw [hlast]

theorem sevenZeroAI_eq (u : Uno) (drawnCard : Option CardPtr)
    (hsize : (u.player u.now).handCards.length ≠ 1) (last : CardPtr)
    (hlast : u.recent.getLast? = some last) :
    sevenZeroAI_bestCardIndex4NowPlayer u drawnCard =
      some (sevenZeroDecision u (u.player u.now).handCards
        (sevenZeroScanLoop u drawnCard (calcBestColor4NowPlayer u)
          (u.player u.now).handCards 0 SevenZeroScan.init)
        ((u.player u.now).handCards.length : Int)
        (u.player u.getNext).getHandSize (u.player u.getOppo).getHandSize
        (u.player u.getPrev).getHandSize (u.player u.getNext).strongColor
        (u.player u.getOppo).strongColor (u.player u.getPrev).strongColor
        (u.card last).getRealColor (calcBestColor4NowPlayer u),
        calcBestColor4NowPlayer u) := by
  unfold sevenZeroAI_bestCardIndex4NowPlayer
  simp only
  split
  · rename_i p hp
    rw [hp] at hsize
    exact absurd rfl hsize
  · rw [hlast]

theorem hardAI_eq (u : Uno) (drawnCard : Option CardPtr) (rands : List Nat)
    (hsize : (u.player u.now).handCards.length ≠ 1) (last : CardPtr)
    (hlast : u.recent.getLast? = some last) :
    hardAI_bestCardIndex4NowPlayer u drawnCard rands =
      hardDecision u (hardLocals u drawnCard last) rands := by
  unfold hardAI_bestCardIndex4NowPlayer
  split
  · rename_i p hp
    rw [hp] at hsize
    exact absurd rfl hsize
  · rw [hlast]

theorem hardAI_none_of_no_recent (u : Uno) (drawnCard : Option CardPtr) (rands : List Nat)
    (hsize : (u.player u.now).handCards.length ≠ 1) (hrec : u.recent.getLast? = none) :
    hardAI_bestCardIndex4NowPlayer u drawnCard rands = none := by
  unfold hardAI_bestCardIndex4NowPlayer
  split
  · rename_i p hp
    rw [hp] at hsize
    exact absurd rfl hsize
  · rw [hrec]

theorem hardLocals_inv (u : Uno) (drawnCard : Option CardPtr) (last : CardPtr) :
    HardInv u drawnCard (hardLocals u drawnCard last).hand (hardLocals u drawnCard last).st :=
  hardScan_inv u drawnCard (calcBestColor4NowPlayer u) (u.player u.now).handCards

theorem mem_of_handAt {hand : List CardPtr} {i : Int} {p : CardPtr}
    (h : handAt hand i = some p) : p ∈ hand := by
  unfold handAt at h
  split_ifs at h
  exact List.getElem?_mem h

theorem Playable.eq_neg_one {u : Uno} {drawnCard : Option CardPtr} {hand : List CardPtr}
    {i : Int} (h : Playable u drawnCard hand i)
    (hno : ∀ p ∈ hand, legalNow u drawnCard p = false) : i = -1 := by
  rcases h with h | ⟨_, _, p, hp, hl⟩
  · exact h
  · rw [hno p (mem_of_handAt hp)] at hl
    cases hl

theorem getLast?_of_ne_nil {α : Type} (l : List α) (h : l ≠ []) :
    ∃ a, l.getLast? = some a :=
  ⟨l.getLast h, List.getLast?_eq_getLast l h⟩

/-! ## The claims on the three strategies -/

/-- C1: for a hand whose size is not 1 and a non-empty recent-played list, the easy and
the 7-0 strategy return, and the index returned is -1 or the position of a card of the
hand that is playable (legal to play when no drawn card was passed, the drawn card
itself otherwise); when no card of the hand is playable the index is -1. -/
theorem easy_sevenZero_index_playable (u : Uno) (drawnCard : Option CardPtr)
    (hsize : (u.player u.now).handCards.length ≠ 1) (hrecent : u.recent ≠ []) :
    (∃ i c, easyAI_bestCardIndex4NowPlayer u drawnCard = some (i, c) ∧
      Playable u drawnCard (u.player u.now).handCards i ∧
      ((∀ p ∈ (u.player u.now).handCards, legalNow u drawnCard p = false) → i = -1)) ∧
    (∃ i c, sevenZeroAI_bestCardIndex4NowPlayer u drawnCard = some (i, c) ∧
      Playable u drawnCard (u.player u.now).handCards i ∧
      ((∀ p ∈ (u.player u.now).handCards, legalNow u drawnCard p = false) → i = -1)) := by
  obtain ⟨last, hlast⟩ := getLast?_of_ne_nil u.recent hrecent
  constructor
  · have hp := easyDecision_playable u drawnCard (u.player u.now).handCards _
      (easyScan_inv u drawnCard (calcBestColor4NowPlayer u) (u.player u.now).handCards)
      (u.player u.getNext).getHandSize (u.player u.getPrev).getHandSize
      (u.card last).getRealColor (calcBestColor4NowPlayer u)
    exact ⟨_, _, easyAI_eq u drawnCard hsize last hlast, hp, hp.eq_neg_one⟩
  · have hp := sevenZeroDecision_playable u drawnCard (u.player u.now).handCards _
      (sevenZeroScan_inv u drawnCard (calcBestColor4NowPlayer u) (u.player u.now).handCards)
      ((u.player u.now).handCards.length : Int)
      (u.player u.getNext).getHandSize (u.player u.getOppo).getHandSize
      (u.player u.getPrev).getHandSize (u.player u.getNext).strongColor
      (u.player u.getOppo).strongColor (u.player u.getPrev).strongColor
      (u.card last).getRealColor (calcBestColor4NowPlayer u)
    exact ⟨_, _, sevenZeroAI_eq u drawnCard hsize last hlast, hp, hp.eq_neg_one⟩

/-- Witness of C1 on the scenario `[RED NUM5, WILD]` over BLUE NUM5. -/
theorem easy_sevenZero_index_playable_witness :
    (tableNumberOrWild.player tableNumberOrWild.now).handCards.length ≠ 1 ∧
    tableNumberOrWild.recent ≠ [] ∧
    ((∃ i c, easyAI_bestCardIndex4NowPlayer tableNumberOrWild none = some (i, c) ∧
      Playable tableNumberOrWild none
        (tableNumberOrWild.player tableNumberOrWild.now).handCards i ∧
      ((∀ p ∈ (tableNumberOrWild.player tableNumberOrWild.now).handCards,
        legalNow tableNumberOrWild none p = false) → i = -1)) ∧
    (∃ i c, sevenZeroAI_bestCardIndex4NowPlayer tableNumberOrWild none = some (i, c) ∧
      Playable tableNumberOrWild none
        (tableNumberOrWild.player tableNumberOrWild.now).handCards i ∧
      ((∀ p ∈ (tableNumberOrWild.player tableNumberOrWild.now).handCards,
        legalNow tableNumberOrWild none p = false) → i = -1))) :=
  ⟨by decide, by decide,
    easy_sevenZero_index_playable tableNumberOrWild none (by decide) (by decide)⟩

/-- C2: for a hand whose size is not 1, whenever the hard strategy returns (the random
colour loop, if one runs, ends on the draws supplied), the index returned is -1 or the
position of a card of the hand that is playable; and on a non-empty recent-played list
there are random draws on which it returns. -/
theorem hard_index_playable (u : Uno) (drawnCard : Option CardPtr)
    (hsize : (u.player u.now).handCards.length ≠ 1) :
    (∀ rands i c, hardAI_bestCardIndex4NowPlayer u drawnCard rands = some (i, c) →
      Playable u drawnCard (u.player u.now).handCards i) ∧
    (u.recent ≠ [] →
      ∃ rands i c, hardAI_bestCardIndex4NowPlayer u drawnCard rands = some (i, c)) := by
  constructor
  · intro rands i c h
    cases hl : u.recent.getLast? with
    | none =>
      rw [hardAI_none_of_no_recent u drawnCard rands hsize hl] at h
      cases h
    | some last =>
      rw [hardAI_eq u drawnCard rands hsize last hl] at h
      exact (hardDecision_leaf u drawnCard _ (hardLocals_inv u drawnCard last) rands _ h).1
  · intro hrecent
    obtain ⟨last, hlast⟩ := getLast?_of_ne_nil u.recent hrecent
    obtain ⟨rands, r, hr⟩ := hardDecision_returns u (hardLocals u drawnCard last)
    exact ⟨rands, r.1, r.2, by rw [hardAI_eq u drawnCard rands hsize last hlast, hr]⟩

/-- Witness of C2: on RED NUM3 the next player holds one card and has RED as strong
colour; the random loop draws RED twice and then GREEN, and the WILD at index 1 is played
with GREEN declared. -/
theorem hard_index_playable_witness :
    (tableNextDashRed.player tableNextDashRed.now).handCards.length ≠ 1 ∧
    hardAI_bestCardIndex4NowPlayer tableNextDashRed none [0, 4, 6] = some (1, Color.GREEN) ∧
    Playable tableNextDashRed none
      (tableNextDashRed.player tableNextDashRed.now).handCards 1 :=
  ⟨by decide, by decide,
    (hard_index_playable tableNextDashRed none (by decide)).1 [0, 4, 6] 1 Color.GREEN
      (by decide)⟩

/-- C6 (counterexample): on a one-card hand holding a WILD whose colour is still NONE,
each of the three strategies returns index 0, which denotes that wild card, and leaves
NONE in the out-colour slot: the last card is played without a colour to declare. -/
theorem one_wild_card_outColor_none :
    (tableLastCardWild.player tableLastCardWild.now).handCards = [1] ∧
    (tableLastCardWild.card 1).isWild = true ∧
    easyAI_bestCardIndex4NowPlayer tableLastCardWild none = some (0, Color.NONE) ∧
    hardAI_bestCardIndex4NowPlayer tableLastCardWild none [] = some (0, Color.NONE) ∧
    sevenZeroAI_bestCardIndex4NowPlayer tableLastCardWild none = some (0, Color.NONE) := by
  decide

/-- C7: on a hand whose non-wild cards all carry a real colour, whenever one of the three
strategies returns an index that denotes a non-wild card, the out-colour is the best
colour computed by `calcBestColor4NowPlayer` on that hand. -/
theorem nonWild_outColor_is_bestColor (u : Uno) (drawnCard : Option CardPtr)
    (hreal : ∀ p ∈ (u.player u.now).handCards,
      (u.card p).isWild = false → (u.card p).color ≠ Color.NONE) :
    (∀ i c, easyAI_bestCardIndex4NowPlayer u drawnCard = some (i, c) →
      ∀ p, handAt (u.player u.now).handCards i = some p → (u.card p).isWild = false →
        c = calcBestColor4NowPlayer u) ∧
    (∀ rands i c, hardAI_bestCardIndex4NowPlayer u drawnCard rands = some (i, c) →
      ∀ p, handAt (u.player u.now).handCards i = some p → (u.card p).isWild = false →
        c = calcBestColor4NowPlayer u) ∧
    (∀ i c, sevenZeroAI_bestCardIndex4NowPlayer u drawnCard = some (i, c) →
      ∀ p, handAt (u.player u.now).handCards i = some p → (u.card p).isWild = false →
        c = calcBestColor4NowPlayer u) := by
  -- the one-card case, shared by the three strategies
  have one : ∀ q, (u.player u.now).handCards = [q] → ∀ (i : Int) (c : Color),
      some (oneCardCase u q) = some (i, c) →
      ∀ p, handAt (u.player u.now).handCards i = some p → (u.card p).isWild = false →
        c = calcBestColor4NowPlayer u := by
    intro q hq i c h p hp hw
    have hpq : p = q := by
      have := mem_of_handAt hp
      rw [hq] at this
      simpa using this
    subst hpq
    have hc : (u.card p).color ≠ Color.NONE := hreal p (by rw [hq]; simp) hw
    rw [calcBestColor_single u p hq hc]
    simp only [oneCardCase, Card.getRealColor, Option.some.injEq, Prod.mk.injEq] at h
    exact h.2.symm
  by_cases hsize : (u.player u.now).handCards.length = 1
  · obtain ⟨q, hq⟩ := List.length_eq_one.mp hsize
    refine ⟨fun i c h => ?_, fun rands i c h => ?_, fun i c h => ?_⟩
    · unfold easyAI_bestCardIndex4NowPlayer at h
      simp only [hq] at h
      exact one q hq i c h
    · unfold hardAI_bestCardIndex4NowPlayer at h
      simp only [hq] at h
      exact one q hq i c h
    · unfold sevenZeroAI_bestCardIndex4NowPlayer at h
      simp only [hq] at h
      exact one q hq i c h
  · cases hl : u.recent.getLast? with
    | none =>
      refine ⟨fun i c h => ?_, fun rands i c h => ?_, fun i c h => ?_⟩
      · unfold easyAI_bestCardIndex4NowPlayer at h
        simp only [hl] at h
        split at h
        · rename_i q hq
          rw [hq] at hsize
          exact absurd rfl hsize
        · cases h
      · rw [hardAI_none_of_no_recent u drawnCard rands hsize hl] at h
        cases h
      · unfold sevenZeroAI_bestCardIndex4NowPlayer at h
        simp only [hl] at h
        split at h
        · rename_i q hq
          rw [hq] at hsize
          exact absurd rfl hsize
        · cases h
    | some last =>
      refine ⟨fun i c h p _ _ => ?_, fun rands i c h p hp hw => ?_, fun i c h p _ _ => ?_⟩
      · rw [easyAI_eq u drawnCard hsize last hl] at h
        simp only [Option.some.injEq, Prod.mk.injEq] at h
        exact h.2.symm
      · rw [hardAI_eq u drawnCard rands hsize last hl] at h
        rcases (hardDecision_leaf u drawnCard _ (hardLocals_inv u drawnCard last)
          rands _ h).2 with hc | hd
        · exact hc
        · have := hd p hp
          simp only at this
          rw [this] at hw
          cases hw
      · rw [sevenZeroAI_eq u drawnCard hsize last hl] at h
        simp only [Option.some.injEq, Prod.mk.injEq] at h
        exact h.2.symm

/-- Witness of C7: on `[RED NUM5, WILD]` over BLUE NUM5 the hard strategy plays the
RED NUM5 and the out-colour is the best colour. -/
theorem nonWild_outColor_is_bestColor_witness :
    (∀ p ∈ (tableNumberOrWild.player tableNumberOrWild.now).handCards,
      (tableNumberOrWild.card p).isWild = false →
        (tableNumberOrWild.card p).color ≠ Color.NONE) ∧
    hardAI_bestCardIndex4NowPlayer tableNumberOrWild none [] = some (0, Color.RED) ∧
    handAt (tableNumberOrWild.player tableNumberOrWild.now).handCards 0 = some 0 ∧
    (tableNumberOrWild.card 0).isWild = false ∧
    Color.RED = calcBestColor4NowPlayer tableNumberOrWild :=
  ⟨by decide, by decide, by decide, by decide,
    (nonWild_outColor_is_bestColor tableNumberOrWild none (by decide)).2.1 [] 0 Color.RED
      (by decide) 0 (by decide) (by decide)⟩

/-- C10 (counterexample): on `[RED NUM5, WILD]` over BLUE NUM5 with the next player down
to one card, the RED NUM5 is a number card that is legal to play and the easy strategy
returns index 1, the WILD. -/
theorem easy_prefers_wild_counterexample :
    (tableNextHoldsOne.player tableNextHoldsOne.now).handCards = [0, 1] ∧
    tableNextHoldsOne.card 0 = { color := Color.RED, content := Content.NUM5 } ∧
    tableNextHoldsOne.card 1 = { color := Color.NONE, content := Content.WILD } ∧
    tableNextHoldsOne.recent.getLast? = some 2 ∧
    tableNextHoldsOne.card 2 = { color := Color.BLUE, content := Content.NUM5 } ∧
    tableNextHoldsOne.isLegalToPlay 0 = true ∧
    (tableNextHoldsOne.player tableNextHoldsOne.getNext).getHandSize = 1 ∧
    easyAI_bestCardIndex4NowPlayer tableNextHoldsOne none = some (1, Color.RED) := by
  decide

/-- C10 (amended): when the acting hand (two or more cards, no drawn card) contains a
number card that is legal to play, the easy strategy returns the index of a wild card
only if the next player holds exactly one card and the colour of the top of the discard
differs from the best colour; on `[RED NUM5, WILD]` over BLUE NUM5 it returns index 0
whenever the next player does not hold exactly one card (and index 1 when it does). -/
theorem easy_number_before_wild (u : Uno)
    (hsize : 2 ≤ (u.player u.now).handCards.length) :
    (∀ last, u.recent.getLast? = some last →
      (∃ p ∈ (u.player u.now).handCards,
        u.isLegalToPlay p = true ∧ (u.card p).content.isNumber = true) →
      ∃ i c, easyAI_bestCardIndex4NowPlayer u none = some (i, c) ∧
        ∀ q, handAt (u.player u.now).handCards i = some q → (u.card q).isWild = true →
          (u.player u.getNext).getHandSize = 1 ∧ (u.card last).color ≠ c) ∧
    (∀ p0 p1 top, (u.player u.now).handCards = [p0, p1] →
      u.card p0 = { color := Color.RED, content := Content.NUM5 } →
      u.card p1 = { color := Color.NONE, content := Content.WILD } →
      u.recent.getLast? = some top →
      u.card top = { color := Color.BLUE, content := Content.NUM5 } →
      easyAI_bestCardIndex4NowPlayer u none =
        some ((if (u.player u.getNext).getHandSize = 1 then 1 else 0), Color.RED)) := by
  have hne : (u.player u.now).handCards.length ≠ 1 := by omega
  constructor
  · intro last hlast hnum
    refine ⟨_, _, easyAI_eq u none hne last hlast, ?_⟩
    intro q hq hw
    exact easyDecision_wild u none (u.player u.now).handCards _
      (easyScan_inv u none (calcBestColor4NowPlayer u) (u.player u.now).handCards)
      (easyScanLoop_hasNum u none _ _ 0 _ (Or.inr hnum)) _ _ _ _ q hq hw
  · intro p0 p1 top hh h0 h1 ht htop
    rw [easyAI_eq u none hne top ht]
    have hbest : calcBestColor4NowPlayer u = Color.RED := by
      unfold calcBestColor4NowPlayer calcBestColorScores
      simp [hh, calcBestColorStep_eq, h0, h1, addScore, colorWeight, pickBestColor]
    rw [hbest, hh]
    simp [easyScanLoop, easyScanStep, legalNow, Uno.isLegalToPlay, Card.isWild,
      Card.getRealColor, h0, h1, ht, htop, EasyScan.init, easyDecision]

/-- Witness of C10 (amended) on `[RED NUM5, WILD]` over BLUE NUM5, every opponent
holding three cards: index 0 is returned. -/
theorem easy_number_before_wild_witness :
    2 ≤ (tableNumberOrWild.player tableNumberOrWild.now).handCards.length ∧
    easyAI_bestCardIndex4NowPlayer tableNumberOrWild none =
      some ((if (tableNumberOrWild.player tableNumberOrWild.getNext).getHandSize = 1
        then 1 else 0), Color.RED) ∧
    easyAI_bestCardIndex4NowPlayer tableNumberOrWild none = some (0, Color.RED) :=
  ⟨by decide,
    (easy_number_before_wild tableNumberOrWild (by decide)).2 0 1 2 rfl rfl rfl rfl rfl,
    by decide⟩

/-! ## Seats, card order, hand score and the challenge; the 7-0 and hard strategies -/

/-- C17: for every seat `s < 4` and direction `DIR_LEFT` or `DIR_RIGHT`, the next seat
`(s + d) % 4` and the previous seat `(4 + s - d) % 4` are seats below 4 and are mutually
inverse. -/
theorem seats_inverse (s d : Nat) (hs : s < 4) (hd : d = DIR_LEFT ∨ d = DIR_RIGHT) :
    nextSeat s d < 4 ∧ prevSeat s d < 4 ∧
    prevSeat (nextSeat s d) d = s ∧ nextSeat (prevSeat s d) d = s := by
  unfold nextSeat prevSeat DIR_LEFT DIR_RIGHT at *
  rcases hd with rfl | rfl <;> omega

/-- Witness of C17: seat 3 in direction `DIR_LEFT`. -/
theorem seats_inverse_witness :
    (3 < 4 ∧ (DIR_LEFT = DIR_LEFT ∨ DIR_LEFT = DIR_RIGHT)) ∧
    nextSeat 3 DIR_LEFT = 0 ∧ prevSeat 3 DIR_LEFT = 2 ∧
    (nextSeat 3 DIR_LEFT < 4 ∧ prevSeat 3 DIR_LEFT < 4 ∧
      prevSeat (nextSeat 3 DIR_LEFT) DIR_LEFT = 3 ∧
      nextSeat (prevSeat 3 DIR_LEFT) DIR_LEFT = 3) :=
  ⟨⟨by decide, Or.inl rfl⟩, by decide, by decide,
    seats_inverse 3 DIR_LEFT (by decide) (Or.inl rfl)⟩

theorem order_eq (c : Card) : c.order = c.color.toNat * 256 + c.content.toNat := by
  obtain ⟨col, con⟩ := c
  cases col <;> cases con <;> rfl

theorem Color.toNat_injective {a b : Color} (h : a.toNat = b.toNat) : a = b := by
  cases a <;> cases b <;> first | rfl | cases h

theorem Content.toNat_eq_imp {a b : Content} (h : a.toNat = b.toNat) : a = b := by
  cases a <;> cases b <;> first | rfl | cases h

theorem Content.toNat_lt (a : Content) : a.toNat < 256 := by
  cases a <;> decide

/-- C18: the key `order = (color << 8) | content` realises the lexicographic order on
(colour, content), both read as their enumerator values: `order a < order b` exactly when
the colour of `a` is smaller, or the colours are equal and the content of `a` is smaller;
`order a = order b` exactly when colour and content are equal. -/
theorem order_lex (a b : Card) :
    (a.order < b.order ↔
      a.color.toNat < b.color.toNat ∨
        (a.color = b.color ∧ a.content.toNat < b.content.toNat)) ∧
    (a.order = b.order ↔ a.color = b.color ∧ a.content = b.content) := by
  rw [order_eq, order_eq]
  have ha := a.content.toNat_lt
  have hb := b.content.toNat_lt
  constructor
  · constructor
    · intro h
      by_cases hc : a.color.toNat = b.color.toNat
      · exact Or.inr ⟨Color.toNat_injective hc, by omega⟩
      · exact Or.inl (by omega)
    · rintro (h | ⟨h1, h2⟩)
      · omega
      · rw [h1]; omega
  · constructor
    · intro h
      exact ⟨Color.toNat_injective (by omega), Content.toNat_eq_imp (by omega)⟩
    · rintro ⟨h1, h2⟩
      rw [h1, h2]

/-- C19: `Card::isWild` is true exactly when the content is WILD or WILD_DRAW4, whatever
the colour. -/
theorem isWild_iff (c : Card) :
    c.isWild = true ↔ c.content = Content.WILD ∨ c.content = Content.WILD_DRAW4 := by
  unfold Card.isWild
  simp

theorem getHandScoreStep_eq (card : CardPtr → Card) (score : Int) (p : CardPtr) :
    getHandScoreStep card score p = score + cardPoints (card p).content := by
  unfold getHandScoreStep
  cases (card p).content <;> rfl

theorem foldl_getHandScoreStep (card : CardPtr → Card) (hand : List CardPtr) (score : Int) :
    hand.foldl (getHandScoreStep card) score
      = score + (hand.map (fun p => cardPoints (card p).content)).sum := by
  induction hand generalizing score with
  | nil => simp
  | cons p ps ih =>
    rw [List.foldl_cons, ih, getHandScoreStep_eq]
    simp only [List.map_cons, List.sum_cons]
    ring

/-- C20: `Player::getHandScore` is the sum over the hand of 50 for WILD and WILD_DRAW4, 20
for REV, SKIP and DRAW2 and the face value for a number card; it is 0 for the empty hand
and is the same for two hands that are permutations of each other. -/
theorem getHandScore_spec (card : CardPtr → Card) (p : Player) :
    p.getHandScore card = (p.handCards.map (fun q => cardPoints (card q).content)).sum ∧
    (p.handCards = [] → p.getHandScore card = 0) ∧
    (∀ p2 : Player, p.handCards.Perm p2.handCards →
      p.getHandScore card = p2.getHandScore card) := by
  have e : ∀ q : Player,
      q.getHandScore card = (q.handCards.map (fun r => cardPoints (card r).content)).sum := by
    intro q
    unfold Player.getHandScore
    rw [foldl_getHandScoreStep]
    simp
  refine ⟨e p, fun h => ?_, fun p2 h => ?_⟩
  · rw [e, h]; rfl
  · rw [e, e]
    exact (h.map _).sum_eq

theorem draw4IsLegalLoop_true (u : Uno) (col : Color) (hand : List CardPtr) :
    draw4IsLegalLoop u col hand true = true ↔ ∀ c ∈ hand, (u.card c).getRealColor ≠ col := by
  induction hand with
  | nil => simp [draw4IsLegalLoop]
  | cons c cs ih =>
    unfold draw4IsLegalLoop
    by_cases h : (u.card c).getRealColor = col
    · simp [h]
    · simp [h, ih]

/-- C15: when the recent-played list has at least two cards, the challenged wild +4 is
judged legal exactly when no card in the hand of the seat before the challenger has the
colour of the next-to-last recent card. -/
theorem draw4IsLegal_spec (u : Uno) (challenger : Nat) (h : 2 ≤ u.recent.length) :
    ∃ pre next2last last, u.recent = pre ++ [next2last, last] ∧
      draw4IsLegal u challenger = some (decide
        (∀ c ∈ (u.player (prevSeat challenger u.direction)).handCards,
          (u.card c).getRealColor ≠ (u.card next2last).getRealColor)) := by
  obtain ⟨pre, a, b, hab⟩ := list_two_last u.recent h
  refine ⟨pre, a, b, hab, ?_⟩
  unfold draw4IsLegal
  have hlen : ¬ u.recent.length < 2 := by omega
  simp only [hlen, if_false]
  rw [hab, getElem?_next2last]
  simp only [Option.some.injEq]
  rw [Bool.eq_iff_iff, draw4IsLegalLoop_true]
  simp

/-- Witness of C15: a wild +4 declared RED on RED NUM3; it is judged illegal when seat 0
still holds RED NUM5 and legal when seat 0 holds a WILD and a GREEN NUM1. -/
theorem draw4IsLegal_spec_witness :
    2 ≤ tableDraw4OnRed.recent.length ∧
    (∃ pre next2last last, tableDraw4OnRed.recent = pre ++ [next2last, last] ∧
      draw4IsLegal tableDraw4OnRed 1 = some (decide
        (∀ c ∈ (tableDraw4OnRed.player (prevSeat 1 tableDraw4OnRed.direction)).handCards,
          (tableDraw4OnRed.card c).getRealColor
            ≠ (tableDraw4OnRed.card next2last).getRealColor))) ∧
    draw4IsLegal tableDraw4OnRed 1 = some false ∧
    draw4IsLegal tableDraw4Honest 1 = some true :=
  ⟨by decide, draw4IsLegal_spec tableDraw4OnRed 1 (by decide), by decide, by decide⟩

/-- C16: `onChallenge` makes exactly one call of `draw`: for the challenger and 4 cards
when there is no challenge; when there is one (on a recent-played list of at least two
cards), for the challenger and 6 cards if the wild +4 is judged legal, and otherwise for
the seat before the challenger and 4 cards, that seat not being the challenger. -/
theorem onChallenge_spec (u : Uno) (challenger : Nat) (hc : challenger < 4)
    (hd : u.direction = DIR_LEFT ∨ u.direction = DIR_RIGHT) (h : 2 ≤ u.recent.length) :
    onChallenge u challenger false = some [{ who := challenger, count := 4 }] ∧
    (∃ legal, draw4IsLegal u challenger = some legal ∧
      (legal = true →
        onChallenge u challenger true = some [{ who := challenger, count := 6 }]) ∧
      (legal = false →
        onChallenge u challenger true
          = some [{ who := prevSeat challenger u.direction, count := 4 }])) ∧
    prevSeat challenger u.direction ≠ challenger := by
  refine ⟨rfl, ?_, ?_⟩
  · obtain ⟨_, _, _, _, hl⟩ := draw4IsLegal_spec u challenger h
    refine ⟨_, hl, fun ht => ?_, fun hf => ?_⟩
    · unfold onChallenge
      rw [hl, ht]
      rfl
    · unfold onChallenge
      rw [hl, hf]
      rfl
  · unfold prevSeat DIR_LEFT DIR_RIGHT at *
    rcases hd with hd | hd <;> rw [hd] <;> omega

/-- Witness of C16: seat 1 challenges, or not, the wild +4 played by seat 0. -/
theorem onChallenge_spec_witness :
    (1 < 4 ∧ (tableDraw4OnRed.direction = DIR_LEFT ∨ tableDraw4OnRed.direction = DIR_RIGHT) ∧
      2 ≤ tableDraw4OnRed.recent.length) ∧
    onChallenge tableDraw4OnRed 1 false = some [{ who := 1, count := 4 }] ∧
    onChallenge tableDraw4OnRed 1 true = some [{ who := 0, count := 4 }] ∧
    onChallenge tableDraw4Honest 1 true = some [{ who := 1, count := 6 }] ∧
    prevSeat 1 tableDraw4OnRed.direction ≠ 1 :=
  ⟨⟨by decide, by decide, by decide⟩,
    (onChallenge_spec tableDraw4OnRed 1 (by decide) (by decide) (by decide)).1,
    by decide, by decide,
    (onChallenge_spec tableDraw4OnRed 1 (by decide) (by decide) (by decide)).2.2⟩

theorem needToChallengeWith_eq (u : Uno) (challenger : Nat) :
    needToChallengeWith MAX_HOLD_CARDS u challenger = needToChallenge u challenger ∧
    challengeAIWith MAX_HOLD_CARDS u challenger = challengeAI u challenger :=
  ⟨rfl, rfl⟩

theorem sevenZeroScanStep_has7 (u : Uno) (drawnCard : Option CardPtr) (bestColor : Color)
    (st : SevenZeroScan) (i : Nat) (p : CardPtr)
    (h : st.has7 = true ∨
      (legalNow u drawnCard p = true ∧ (u.card p).content = Content.NUM7)) :
    (sevenZeroScanStep u drawnCard bestColor st i p).has7 = true := by
  unfold sevenZeroScanStep
  by_cases hl : legalNow u drawnCard p = true
  · rw [if_pos hl]
    cases hc : (u.card p).content <;> simp only <;> (try split_ifs) <;> simp_all
  · rw [if_neg hl]
    rcases h with h | ⟨h, _⟩
    · exact h
    · exact absurd h hl

theorem sevenZeroScanStep_has0 (u : Uno) (drawnCard : Option CardPtr) (bestColor : Color)
    (st : SevenZeroScan) (i : Nat) (p : CardPtr)
    (h : st.has0 = true ∨
      (legalNow u drawnCard p = true ∧ (u.card p).content = Content.NUM0)) :
    (sevenZeroScanStep u drawnCard bestColor st i p).has0 = true := by
  unfold sevenZeroScanStep
  by_cases hl : legalNow u drawnCard p = true
  · rw [if_pos hl]
    cases hc : (u.card p).content <;> simp only <;> (try split_ifs) <;> simp_all
  · rw [if_neg hl]
    rcases h with h | ⟨h, _⟩
    · exact h
    · exact absurd h hl

theorem sevenZeroScanLoop_has7 (u : Uno) (drawnCard : Option CardPtr) (bestColor : Color)
    (ps : List CardPtr) (i : Nat) (st : SevenZeroScan)
    (h : st.has7 = true ∨
      ∃ p ∈ ps, legalNow u drawnCard p = true ∧ (u.card p).content = Content.NUM7) :
    (sevenZeroScanLoop u drawnCard bestColor ps i st).has7 = true := by
  induction ps generalizing i st with
  | nil =>
    rcases h with h | ⟨p, hp, _⟩
    · exact h
    · cases hp
  | cons q qs ih =>
    unfold sevenZeroScanLoop
    apply ih
    rcases h with h | ⟨p, hp, hl, hn⟩
    · exact Or.inl (sevenZeroScanStep_has7 u drawnCard bestColor st i q (Or.inl h))
    · rcases List.mem_cons.mp hp with rfl | hp
      · exact Or.inl (sevenZeroScanStep_has7 u drawnCard bestColor st i p (Or.inr ⟨hl, hn⟩))
      · exact Or.inr ⟨p, hp, hl, hn⟩

theorem sevenZeroScanLoop_has0 (u : Uno) (drawnCard : Option CardPtr) (bestColor : Color)
    (ps : List CardPtr) (i : Nat) (st : SevenZeroScan)
    (h : st.has0 = true ∨
      ∃ p ∈ ps, legalNow u drawnCard p = true ∧ (u.card p).content = Content.NUM0) :
    (sevenZeroScanLoop u drawnCard bestColor ps i st).has0 = true := by
  induction ps generalizing i st with
  | nil =>
    rcases h with h | ⟨p, hp, _⟩
    · exact h
    · cases hp
  | cons q qs ih =>
    unfold sevenZeroScanLoop
    apply ih
    rcases h with h | ⟨p, hp, hl, hn⟩
    · exact Or.inl (sevenZeroScanStep_has0 u drawnCard bestColor st i q (Or.inl h))
    · rcases List.mem_cons.mp hp with rfl | hp
      · exact Or.inl (sevenZeroScanStep_has0 u drawnCard bestColor st i p (Or.inr ⟨hl, hn⟩))
      · exact Or.inr ⟨p, hp, hl, hn⟩

/-- With an opponent at one card and a NUM7 or NUM0 slot set, the decision tree of the
7-0 strategy returns the NUM7 slot or the NUM0 slot, provided that, when the next player
is the one at one card, the test on the size of the hand and on the other card passes for
one of the two. -/
theorem sevenZeroDecision_seven_or_zero (u : Uno) (hand : List CardPtr) (st : SevenZeroScan)
    (yourSize nextSize oppoSize prevSize : Int)
    (nextStrongColor oppoStrongColor prevStrongColor lastColor bestColor : Color)
    (hflag : st.has7 = true ∨ st.has0 = true)
    (hopp : nextSize = 1 ∨ prevSize = 1 ∨ oppoSize = 1)
    (hnext : nextSize = 1 →
      (st.has7 = true ∧ (yourSize > 2 ∨ otherCardGuard u hand st.idx7 Content.NUM7)) ∨
      (st.has0 = true ∧ (yourSize > 2 ∨ otherCardGuard u hand st.idx0 Content.NUM0))) :
    (st.has7 = true ∧
      sevenZeroDecision u hand st yourSize nextSize oppoSize prevSize nextStrongColor
        oppoStrongColor prevStrongColor lastColor bestColor = st.idx7) ∨
    (st.has0 = true ∧
      sevenZeroDecision u hand st yourSize nextSize oppoSize prevSize nextStrongColor
        oppoStrongColor prevStrongColor lastColor bestColor = st.idx0) := by
  unfold sevenZeroDecision
  unfold otherCardGuard at hnext
  by_cases hn : nextSize = 1
  · rw [if_pos hn]
    by_cases c7 : st.has7 = true ∧ (yourSize > 2 ∨
        (contentAt u hand (1 - st.idx7) ≠ some Content.NUM7 ∧
         contentAt u hand (1 - st.idx7) ≠ some Content.WILD ∧
         contentAt u hand (1 - st.idx7) ≠ some Content.WILD_DRAW4 ∧
         colorAt u hand (1 - st.idx7) ≠ colorAt u hand st.idx7))
    · rw [if_pos c7]
      exact Or.inl ⟨c7.1, rfl⟩
    · rw [if_neg c7]
      rcases hnext hn with h | h
      · exact absurd h c7
      · rw [if_pos h]
        exact Or.inr ⟨h.1, rfl⟩
  · rw [if_neg hn]
    by_cases hp : prevSize = 1
    · rw [if_pos hp]
      by_cases c0 : st.has0 = true
      · rw [if_pos c0]
        exact Or.inr ⟨c0, rfl⟩
      · rw [if_neg c0]
        have c7 : st.has7 = true := hflag.resolve_right c0
        rw [if_pos c7]
        exact Or.inl ⟨c7, rfl⟩
    · rw [if_neg hp]
      have ho : oppoSize = 1 := (hopp.resolve_left hn).resolve_left hp
      rw [if_pos ho]
      by_cases c7 : st.has7 = true
      · rw [if_pos c7]
        exact Or.inl ⟨c7, rfl⟩
      · rw [if_neg c7]
        have c0 : st.has0 = true := hflag.resolve_left c7
        rw [if_pos c0]
        exact Or.inr ⟨c0, rfl⟩

/-- In a two-card hand `[x, y]`, a position `n` holding a card with the content of `a` is
the position of `a`, and position `1 - n` holds the other card `b`, when `b` has another
content. -/
theorem two_card_other (u : Uno) (x y a b : CardPtr)
    (hab : (a = x ∧ b = y) ∨ (a = y ∧ b = x)) (n : Nat) (p : CardPtr)
    (hn : [x, y][n]? = some p) (hp : (u.card p).content = (u.card a).content)
    (hne : (u.card b).content ≠ (u.card a).content) :
    handAt [x, y] (n : Int) = some a ∧ handAt [x, y] (1 - (n : Int)) = some b := by
  have hpb : p ≠ b := fun h => hne (by rw [← h, hp])
  rcases n with _ | _ | n
  · simp only [List.getElem?_cons_zero, Option.some.injEq] at hn
    subst hn
    rcases hab with ⟨h1, h2⟩ | ⟨h1, h2⟩
    · subst h1 h2
      simp [handAt]
    · subst h1 h2
      exact absurd rfl hpb
  · simp only [List.getElem?_cons_succ, List.getElem?_cons_zero, Option.some.injEq] at hn
    subst hn
    rcases hab with ⟨h1, h2⟩ | ⟨h1, h2⟩
    · subst h1 h2
      exact absurd rfl hpb
    · subst h1 h2
      simp [handAt]
  · simp at hn

theorem SlotOK.of_has {u : Uno} {drawnCard : Option CardPtr} {hand : List CardPtr}
    {K : Card → Prop} {has : Bool} {idx : Int} (h : SlotOK u drawnCard hand K has idx)
    (ht : has = true) :
    ∃ (n : Nat) (p : CardPtr), idx = (n : Int) ∧ hand[n]? = some p ∧
      legalNow u drawnCard p = true ∧ K (u.card p) := by
  rcases h with ⟨hf, _⟩ | ⟨_, h⟩
  · rw [ht] at hf; cases hf
  · exact h

/-- The other-card test passes at a slot of a two-card hand whose card has the content
of `a`, when the other card `b` has another content, is not wild and has another
colour. -/
theorem otherCardGuard_of_two (u : Uno) (x y a b : CardPtr)
    (hab : (a = x ∧ b = y) ∨ (a = y ∧ b = x)) (n : Nat) (p : CardPtr)
    (hn : [x, y][n]? = some p) (hp : (u.card p).content = (u.card a).content)
    (hne : (u.card b).content ≠ (u.card a).content) (hw : (u.card b).isWild = false)
    (hcol : (u.card b).color ≠ (u.card a).color) :
    otherCardGuard u [x, y] (n : Int) (u.card a).content := by
  obtain ⟨h1, h2⟩ := two_card_other u x y a b hab n p hn hp hne
  unfold otherCardGuard contentAt colorAt
  rw [h1, h2]
  simp only [Card.isWild, Bool.or_eq_false_iff, beq_eq_false_iff_ne, ne_eq] at hw
  simp only [ne_eq, Option.some.injEq, Card.getRealColor]
  exact ⟨hne, hw.1, hw.2, hcol⟩

/-- C11 (counterexample): with the two-card hand `[RED NUM7, RED NUM3]` on RED NUM5 and
the next player down to one card, the RED NUM7 is legal to play and the 7-0 strategy
returns index 1, the RED NUM3. -/
theorem sevenZero_keeps_seven_counterexample :
    (tableSevenSameColor.player tableSevenSameColor.now).handCards = [0, 1] ∧
    tableSevenSameColor.card 0 = { color := Color.RED, content := Content.NUM7 } ∧
    tableSevenSameColor.card 1 = { color := Color.RED, content := Content.NUM3 } ∧
    tableSevenSameColor.isLegalToPlay 0 = true ∧
    (tableSevenSameColor.player tableSevenSameColor.getNext).getHandSize = 1 ∧
    sevenZeroAI_bestCardIndex4NowPlayer tableSevenSameColor none = some (1, Color.RED) := by
  decide

/-- C11 (amended): in the 7-0 strategy, for a hand of two or more cards and a non-empty
recent-played list, when some opponent holds exactly one card and the hand contains a
NUM7 or a NUM0 that is playable, the returned index denotes a NUM7 or a NUM0 card if the
hand has more than two cards or the next player does not hold exactly one card; with a
two-card hand it also does if the other card has another content than a playable NUM7 or
NUM0 of the hand, is not wild and has another colour. -/
theorem sevenZero_plays_seven_or_zero (u : Uno) (drawnCard : Option CardPtr)
    (hsize : 2 ≤ (u.player u.now).handCards.length) (hrecent : u.recent ≠ [])
    (hopp : (u.player u.getNext).getHandSize = 1 ∨ (u.player u.getPrev).getHandSize = 1 ∨
      (u.player u.getOppo).getHandSize = 1)
    (h70 : ∃ p ∈ (u.player u.now).handCards, legalNow u drawnCard p = true ∧
      ((u.card p).content = Content.NUM7 ∨ (u.card p).content = Content.NUM0)) :
    ∃ i c, sevenZeroAI_bestCardIndex4NowPlayer u drawnCard = some (i, c) ∧
      ((2 < (u.player u.now).handCards.length ∨ (u.player u.getNext).getHandSize ≠ 1) →
        ∃ q, handAt (u.player u.now).handCards i = some q ∧
          ((u.card q).content = Content.NUM7 ∨ (u.card q).content = Content.NUM0)) ∧
      (∀ x y a b, (u.player u.now).handCards = [x, y] →
        ((a = x ∧ b = y) ∨ (a = y ∧ b = x)) →
        legalNow u drawnCard a = true →
        ((u.card a).content = Content.NUM7 ∨ (u.card a).content = Content.NUM0) →
        (u.card b).content ≠ (u.card a).content → (u.card b).isWild = false →
        (u.card b).color ≠ (u.card a).color →
        ∃ q, handAt (u.player u.now).handCards i = some q ∧
          ((u.card q).content = Content.NUM7 ∨ (u.card q).content = Content.NUM0)) := by
  obtain ⟨last, hlast⟩ := getLast?_of_ne_nil u.recent hrecent
  have hne : (u.player u.now).handCards.length ≠ 1 := by omega
  have inv := sevenZeroScan_inv u drawnCard (calcBestColor4NowPlayer u)
    (u.player u.now).handCards
  obtain ⟨s0, s7, -⟩ := inv
  -- a playable NUM7 sets `has7`, a playable NUM0 sets `has0`
  have set7 : ∀ p ∈ (u.player u.now).handCards, legalNow u drawnCard p = true →
      (u.card p).content = Content.NUM7 →
      (sevenZeroScanLoop u drawnCard (calcBestColor4NowPlayer u)
        (u.player u.now).handCards 0 SevenZeroScan.init).has7 = true :=
    fun p hp hl hc => sevenZeroScanLoop_has7 u drawnCard _ _ 0 _ (Or.inr ⟨p, hp, hl, hc⟩)
  have set0 : ∀ p ∈ (u.player u.now).handCards, legalNow u drawnCard p = true →
      (u.card p).content = Content.NUM0 →
      (sevenZeroScanLoop u drawnCard (calcBestColor4NowPlayer u)
        (u.player u.now).handCards 0 SevenZeroScan.init).has0 = true :=
    fun p hp hl hc => sevenZeroScanLoop_has0 u drawnCard _ _ 0 _ (Or.inr ⟨p, hp, hl, hc⟩)
  have hflag : (sevenZeroScanLoop u drawnCard (calcBestColor4NowPlayer u)
        (u.player u.now).handCards 0 SevenZeroScan.init).has7 = true ∨
      (sevenZeroScanLoop u drawnCard (calcBestColor4NowPlayer u)
        (u.player u.now).handCards 0 SevenZeroScan.init).has0 = true := by
    obtain ⟨p, hp, hl, hc | hc⟩ := h70
    · exact Or.inl (set7 p hp hl hc)
    · exact Or.inr (set0 p hp hl hc)
  -- what the decision lemma gives once the test of the next-player branch is settled
  have fin : ∀ r : Int,
      ((sevenZeroScanLoop u drawnCard (calcBestColor4NowPlayer u)
          (u.player u.now).handCards 0 SevenZeroScan.init).has7 = true ∧
        r = (sevenZeroScanLoop u drawnCard (calcBestColor4NowPlayer u)
          (u.player u.now).handCards 0 SevenZeroScan.init).idx7) ∨
      ((sevenZeroScanLoop u drawnCard (calcBestColor4NowPlayer u)
          (u.player u.now).handCards 0 SevenZeroScan.init).has0 = true ∧
        r = (sevenZeroScanLoop u drawnCard (calcBestColor4NowPlayer u)
          (u.player u.now).handCards 0 SevenZeroScan.init).idx0) →
      ∃ q, handAt (u.player u.now).handCards r = some q ∧
        ((u.card q).content = Content.NUM7 ∨ (u.card q).content = Content.NUM0) := by
    rintro r (⟨h, rfl⟩ | ⟨h, rfl⟩)
    · obtain ⟨q, hq⟩ := s7.inRange h
      exact ⟨q, hq, Or.inl (s7.denotes q hq)⟩
    · obtain ⟨q, hq⟩ := s0.inRange h
      exact ⟨q, hq, Or.inr (s0.denotes q hq)⟩
  refine ⟨_, _, sevenZeroAI_eq u drawnCard hne last hlast, ?_, ?_⟩
  · intro hbig
    apply fin
    apply sevenZeroDecision_seven_or_zero u _ _ _ _ _ _ _ _ _ _ _ hflag
    · rcases hopp with h | h | h
      · exact Or.inl h
      · exact Or.inr (Or.inl h)
      · exact Or.inr (Or.inr h)
    · intro hn
      have h2 : ((u.player u.now).handCards.length : Int) > 2 := by
        rcases hbig with h | h
        · omega
        · exact absurd hn h
      rcases hflag with h | h
      · exact Or.inl ⟨h, Or.inl h2⟩
      · exact Or.inr ⟨h, Or.inl h2⟩
  · intro x y a b hh hab hl hc hcon hw hcol
    have ha : a ∈ (u.player u.now).handCards := by
      rw [hh]; rcases hab with ⟨h, _⟩ | ⟨h, _⟩ <;> simp [h]
    apply fin
    apply sevenZeroDecision_seven_or_zero u _ _ _ _ _ _ _ _ _ _ _ hflag
    · rcases hopp with h | h | h
      · exact Or.inl h
      · exact Or.inr (Or.inl h)
      · exact Or.inr (Or.inr h)
    · intro _
      rcases hc with hc | hc
      · have h7 := set7 a ha hl hc
        obtain ⟨n, p, hidx, hn, _, hk⟩ := s7.of_has h7
        refine Or.inl ⟨h7, Or.inr ?_⟩
        rw [hidx, ← hc, hh]
        rw [hh] at hn
        exact otherCardGuard_of_two u x y a b hab n p hn (by rw [hk, hc]) hcon hw hcol
      · have h0 := set0 a ha hl hc
        obtain ⟨n, p, hidx, hn, _, hk⟩ := s0.of_has h0
        refine Or.inr ⟨h0, Or.inr ?_⟩
        rw [hidx, ← hc, hh]
        rw [hh] at hn
        exact otherCardGuard_of_two u x y a b hab n p hn (by rw [hk, hc]) hcon hw hcol

/-- Witness of C11 (amended): `[RED NUM7, RED NUM3, GREEN NUM1]` on RED NUM5 with the next
player at one card; the RED NUM7 at index 0 is returned.  So it is from the two-card hand
`[RED NUM7, BLUE NUM0]`, whose other card passes the test. -/
theorem sevenZero_plays_seven_or_zero_witness :
    2 ≤ (tableSevenThreeCards.player tableSevenThreeCards.now).handCards.length ∧
    tableSevenThreeCards.recent ≠ [] ∧
    (tableSevenThreeCards.player tableSevenThreeCards.getNext).getHandSize = 1 ∧
    sevenZeroAI_bestCardIndex4NowPlayer tableSevenThreeCards none = some (0, Color.RED) ∧
    sevenZeroAI_bestCardIndex4NowPlayer tableSevenAndZero none = some (0, Color.RED) ∧
    (∃ i c, sevenZeroAI_bestCardIndex4NowPlayer tableSevenThreeCards none = some (i, c) ∧
      ∃ q, handAt (tableSevenThreeCards.player tableSevenThreeCards.now).handCards i = some q ∧
        ((tableSevenThreeCards.card q).content = Content.NUM7 ∨
          (tableSevenThreeCards.card q).content = Content.NUM0)) := by
  obtain ⟨i, c, h, h1, _⟩ := sevenZero_plays_seven_or_zero tableSevenThreeCards none
    (by decide) (by decide) (by decide) (by decide)
  exact ⟨by decide, by decide, by decide, by decide, by decide, i, c, h,
    h1 (Or.inl (by decide))⟩

theorem foldl_congr_mem {α β : Type} (f g : α → β → α) (l : List β) (a : α)
    (h : ∀ s, ∀ p ∈ l, f s p = g s p) : l.foldl f a = l.foldl g a := by
  induction l generalizing a with
  | nil => rfl
  | cons p ps ih =>
    rw [List.foldl_cons, List.foldl_cons, h a p (List.mem_cons_self _ _)]
    exact ih _ (fun s q hq => h s q (List.mem_cons_of_mem _ hq))

theorem SameSnapshot.isLegalToPlay_eq {u1 u2 : Uno} (h : SameSnapshot u1 u2) (p : CardPtr)
    (hp : p ∈ (u1.player u1.now).handCards) : u1.isLegalToPlay p = u2.isLegalToPlay p := by
  have ht := h.top
  unfold Uno.isLegalToPlay
  rw [h.cards p hp]
  cases e1 : u1.recent.getLast? <;> cases e2 : u2.recent.getLast? <;>
    simp only [e1, e2, Option.map_none', Option.map_some', reduceCtorEq,
      Option.some.injEq] at ht ⊢
  rw [ht]

theorem SameSnapshot.legalNow_eq {u1 u2 : Uno} (h : SameSnapshot u1 u2)
    (drawnCard : Option CardPtr) (p : CardPtr) (hp : p ∈ (u1.player u1.now).handCards) :
    legalNow u1 drawnCard p = legalNow u2 drawnCard p := by
  unfold legalNow
  cases drawnCard with
  | none => exact h.isLegalToPlay_eq p hp
  | some d => rfl

theorem SameSnapshot.bestColor_eq {u1 u2 : Uno} (h : SameSnapshot u1 u2) :
    calcBestColor4NowPlayer u1 = calcBestColor4NowPlayer u2 := by
  unfold calcBestColor4NowPlayer calcBestColorScores
  rw [← h.hand]
  congr 1
  apply foldl_congr_mem
  intro s p hp
  unfold calcBestColorStep
  rw [h.cards p hp]

theorem easyScanLoop_congr (u1 u2 : Uno) (drawnCard : Option CardPtr) (bestColor : Color)
    (ps : List CardPtr) (i : Nat) (st : EasyScan)
    (hc : ∀ p ∈ ps, u1.card p = u2.card p)
    (hl : ∀ p ∈ ps, legalNow u1 drawnCard p = legalNow u2 drawnCard p) :
    easyScanLoop u1 drawnCard bestColor ps i st = easyScanLoop u2 drawnCard bestColor ps i st := by
  induction ps generalizing i st with
  | nil => rfl
  | cons p ps ih =>
    unfold easyScanLoop
    have e : easyScanStep u1 drawnCard bestColor st i p
        = easyScanStep u2 drawnCard bestColor st i p := by
      unfold easyScanStep
      rw [hl p (List.mem_cons_self _ _), hc p (List.mem_cons_self _ _)]
    rw [e]
    exact ih _ _ (fun q hq => hc q (List.mem_cons_of_mem _ hq))
      (fun q hq => hl q (List.mem_cons_of_mem _ hq))

theorem sevenZeroScanLoop_congr (u1 u2 : Uno) (drawnCard : Option CardPtr)
    (bestColor : Color) (ps : List CardPtr) (i : Nat) (st : SevenZeroScan)
    (hc : ∀ p ∈ ps, u1.card p = u2.card p)
    (hl : ∀ p ∈ ps, legalNow u1 drawnCard p = legalNow u2 drawnCard p) :
    sevenZeroScanLoop u1 drawnCard bestColor ps i st
      = sevenZeroScanLoop u2 drawnCard bestColor ps i st := by
  induction ps generalizing i st with
  | nil => rfl
  | cons p ps ih =>
    unfold sevenZeroScanLoop
    have e : sevenZeroScanStep u1 drawnCard bestColor st i p
        = sevenZeroScanStep u2 drawnCard bestColor st i p := by
      unfold sevenZeroScanStep
      rw [hl p (List.mem_cons_self _ _), hc p (List.mem_cons_self _ _)]
    rw [e]
    exact ih _ _ (fun q hq => hc q (List.mem_cons_of_mem _ hq))
      (fun q hq => hl q (List.mem_cons_of_mem _ hq))

theorem hardScanLoop_congr (u1 u2 : Uno) (drawnCard : Option CardPtr) (bestColor : Color)
    (ps : List CardPtr) (i : Nat) (st : HardScan)
    (hc : ∀ p ∈ ps, u1.card p = u2.card p)
    (hl : ∀ p ∈ ps, legalNow u1 drawnCard p = legalNow u2 drawnCard p) :
    hardScanLoop u1 drawnCard bestColor ps i st = hardScanLoop u2 drawnCard bestColor ps i st := by
  induction ps generalizing i st with
  | nil => rfl
  | cons p ps ih =>
    unfold hardScanLoop
    have e : hardScanStep u1 drawnCard bestColor st i p
        = hardScanStep u2 drawnCard bestColor st i p := by
      unfold hardScanStep hardScanSwitch
      rw [hl p (List.mem_cons_self _ _), hc p (List.mem_cons_self _ _)]
    rw [e]
    exact ih _ _ (fun q hq => hc q (List.mem_cons_of_mem _ hq))
      (fun q hq => hl q (List.mem_cons_of_mem _ hq))

theorem colorAt_congr (u1 u2 : Uno) (hand : List CardPtr)
    (hc : ∀ p ∈ hand, u1.card p = u2.card p) (i : Int) :
    colorAt u1 hand i = colorAt u2 hand i := by
  unfold colorAt
  cases e : handAt hand i with
  | none => rfl
  | some p => simp only [hc p (mem_of_handAt e)]

theorem contentAt_congr (u1 u2 : Uno) (hand : List CardPtr)
    (hc : ∀ p ∈ hand, u1.card p = u2.card p) (i : Int) :
    contentAt u1 hand i = contentAt u2 hand i := by
  unfold contentAt
  cases e : handAt hand i with
  | none => rfl
  | some p => simp only [hc p (mem_of_handAt e)]

theorem sevenZeroDecision_congr (u1 u2 : Uno) (hand : List CardPtr)
    (hc : ∀ p ∈ hand, u1.card p = u2.card p) (st : SevenZeroScan)
    (yourSize nextSize oppoSize prevSize : Int)
    (nextStrongColor oppoStrongColor prevStrongColor lastColor bestColor : Color) :
    sevenZeroDecision u1 hand st yourSize nextSize oppoSize prevSize nextStrongColor
        oppoStrongColor prevStrongColor lastColor bestColor
      = sevenZeroDecision u2 hand st yourSize nextSize oppoSize prevSize nextStrongColor
        oppoStrongColor prevStrongColor lastColor bestColor := by
  unfold sevenZeroDecision
  simp only [colorAt_congr u1 u2 hand hc, contentAt_congr u1 u2 hand hc]

theorem hardDecision_congr (u1 u2 : Uno) (v : HardLocals)
    (hc : ∀ p ∈ v.hand, u1.card p = u2.card p) (rands : List Nat) :
    hardDecision u1 v rands = hardDecision u2 v rands := by
  unfold hardDecision hardNextDash hardPrevDash hardOppoDash hardNextDrew hardNormal
  simp only [colorAt_congr u1 u2 v.hand hc]

theorem SameSnapshot.lastColor_eq {u1 u2 : Uno} (h : SameSnapshot u1 u2) (l1 l2 : CardPtr)
    (e1 : u1.recent.getLast? = some l1) (e2 : u2.recent.getLast? = some l2) :
    u1.card l1 = u2.card l2 := by
  have ht := h.top
  simpa only [e1, e2, Option.map_some', Option.some.injEq] using ht

theorem SameSnapshot.hardLocals_eq {u1 u2 : Uno} (h : SameSnapshot u1 u2)
    (drawnCard : Option CardPtr) (l1 l2 : CardPtr)
    (e1 : u1.recent.getLast? = some l1) (e2 : u2.recent.getLast? = some l2) :
    hardLocals u1 drawnCard l1 = hardLocals u2 drawnCard l2 := by
  unfold hardLocals
  simp only
  rw [hardScanLoop_congr u1 u2 drawnCard _ _ 0 _ h.cards (h.legalNow_eq drawnCard),
    h.bestColor_eq, h.lastColor_eq l1 l2 e1 e2, h.hand, h.nextSize, h.oppoSize, h.prevSize,
    h.nextStrong, h.oppoStrong, h.prevStrong, h.nextWeak, h.oppoWeak, h.prevWeak,
    h.prevRecent]

theorem easyAI_none_of_no_recent (u : Uno) (drawnCard : Option CardPtr)
    (hsize : (u.player u.now).handCards.length ≠ 1) (hrec : u.recent.getLast? = none) :
    easyAI_bestCardIndex4NowPlayer u drawnCard = none := by
  unfold easyAI_bestCardIndex4NowPlayer
  simp only
  split
  · rename_i p hp
    rw [hp] at hsize
    exact absurd rfl hsize
  · rw [hrec]

theorem sevenZeroAI_none_of_no_recent (u : Uno) (drawnCard : Option CardPtr)
    (hsize : (u.player u.now).handCards.length ≠ 1) (hrec : u.recent.getLast? = none) :
    sevenZeroAI_bestCardIndex4NowPlayer u drawnCard = none := by
  unfold sevenZeroAI_bestCardIndex4NowPlayer
  simp only
  split
  · rename_i p hp
    rw [hp] at hsize
    exact absurd rfl hsize
  · rw [hrec]

theorem hardScanSwitch_allWild (u : Uno) (bestColor : Color) (st : HardScan) (i : Nat)
    (p : CardPtr) : (hardScanSwitch u bestColor st i p).allWild = st.allWild := by
  unfold hardScanSwitch
  cases (u.card p).content <;> simp only <;> (try split_ifs) <;> rfl

theorem hardScanLoop_allWild (u : Uno) (drawnCard : Option CardPtr) (bestColor : Color)
    (ps : List CardPtr) (i : Nat) (st : HardScan) :
    (hardScanLoop u drawnCard bestColor ps i st).allWild
      = (st.allWild && ps.all (fun p => (u.card p).isWild)) := by
  induction ps generalizing i st with
  | nil => simp [hardScanLoop]
  | cons p ps ih =>
    unfold hardScanLoop
    rw [ih]
    have e : (hardScanStep u drawnCard bestColor st i p).allWild
        = (st.allWild && (u.card p).isWild) := by
      unfold hardScanStep
      simp only
      split_ifs
      · rw [hardScanSwitch_allWild]
      · rfl
    rw [e, List.all_cons, Bool.and_assoc]

theorem hardLocals_allWild_false (u : Uno) (drawnCard : Option CardPtr) (last : CardPtr)
    (h : ∃ p ∈ (u.player u.now).handCards, (u.card p).isWild = false) :
    (hardLocals u drawnCard last).st.allWild = false := by
  obtain ⟨p, hp, hw⟩ := h
  show (hardScanLoop u drawnCard (calcBestColor4NowPlayer u) (u.player u.now).handCards 0
    HardScan.init).allWild = false
  rw [hardScanLoop_allWild, Bool.and_eq_false_iff]
  right
  rw [List.all_eq_false]
  exact ⟨p, hp, by simp [hw]⟩

theorem hardDecision_no_loop (u : Uno) (v : HardLocals) (r1 r2 : List Nat)
    (hn : v.nextSize ≠ 1) (hp : v.prevSize ≠ 1) (ho : v.oppoSize ≠ 1)
    (hw : v.st.allWild = false) : hardDecision u v r1 = hardDecision u v r2 := by
  unfold hardDecision
  simp only [hn, hp, ho, hw, ↓reduceIte, Bool.false_eq_true]

theorem oneCardCase_congr {u1 u2 : Uno} (h : SameSnapshot u1 u2) (q : CardPtr)
    (hq : q ∈ (u1.player u1.now).handCards) : oneCardCase u1 q = oneCardCase u2 q := by
  unfold oneCardCase
  rw [h.isLegalToPlay_eq q hq, h.cards q hq]

/-- C12 (counterexample): on one and the same table state the hard strategy returns the
out-colour GREEN when `rand()` yields 0, 4, 6 and the out-colour BLUE when it yields 1. -/
theorem hard_depends_on_rand_counterexample :
    hardAI_bestCardIndex4NowPlayer tableNextDashRed none [0, 4, 6] = some (1, Color.GREEN) ∧
    hardAI_bestCardIndex4NowPlayer tableNextDashRed none [1] = some (1, Color.BLUE) := by
  decide

/-- C12 (amended): on two table states that show the acting player the same snapshot,
the easy and the 7-0 strategy return the same index and out-colour, and so does the hard
strategy on the same results of `rand()`; the result of the hard strategy does not
depend on the results of `rand()` when no opponent holds exactly one card and some card
of the hand is not wild. -/
theorem strategies_depend_on_snapshot (u1 u2 : Uno) (drawnCard : Option CardPtr)
    (h : SameSnapshot u1 u2) :
    easyAI_bestCardIndex4NowPlayer u1 drawnCard
      = easyAI_bestCardIndex4NowPlayer u2 drawnCard ∧
    sevenZeroAI_bestCardIndex4NowPlayer u1 drawnCard
      = sevenZeroAI_bestCardIndex4NowPlayer u2 drawnCard ∧
    (∀ rands, hardAI_bestCardIndex4NowPlayer u1 drawnCard rands
      = hardAI_bestCardIndex4NowPlayer u2 drawnCard rands) ∧
    ((u1.player u1.getNext).getHandSize ≠ 1 → (u1.player u1.getPrev).getHandSize ≠ 1 →
      (u1.player u1.getOppo).getHandSize ≠ 1 →
      (∃ p ∈ (u1.player u1.now).handCards, (u1.card p).isWild = false) →
      ∀ rands1 rands2, hardAI_bestCardIndex4NowPlayer u1 drawnCard rands1
        = hardAI_bestCardIndex4NowPlayer u2 drawnCard rands2) := by
  have hard_eq : ∀ rands, hardAI_bestCardIndex4NowPlayer u1 drawnCard rands
      = hardAI_bestCardIndex4NowPlayer u2 drawnCard rands := by
    intro rands
    by_cases hsize : (u1.player u1.now).handCards.length = 1
    · obtain ⟨q, hq⟩ := List.length_eq_one.mp hsize
      have hq2 := h.hand ▸ hq
      unfold hardAI_bestCardIndex4NowPlayer
      simp only [hq, hq2]
      rw [oneCardCase_congr h q (by rw [hq]; simp)]
    · have hsize2 : (u2.player u2.now).handCards.length ≠ 1 := h.hand ▸ hsize
      have ht := h.top
      cases e1 : u1.recent.getLast? <;> cases e2 : u2.recent.getLast? <;>
        simp only [e1, e2, Option.map_none', Option.map_some', reduceCtorEq] at ht
      · rw [hardAI_none_of_no_recent u1 drawnCard rands hsize e1,
          hardAI_none_of_no_recent u2 drawnCard rands hsize2 e2]
      · rename_i l1 l2
        rw [hardAI_eq u1 drawnCard rands hsize l1 e1,
          hardAI_eq u2 drawnCard rands hsize2 l2 e2,
          h.hardLocals_eq drawnCard l1 l2 e1 e2]
        apply hardDecision_congr
        intro p hp
        exact h.cards p (h.hand ▸ hp)
  refine ⟨?_, ?_, hard_eq, ?_⟩
  · by_cases hsize : (u1.player u1.now).handCards.length = 1
    · obtain ⟨q, hq⟩ := List.length_eq_one.mp hsize
      have hq2 := h.hand ▸ hq
      unfold easyAI_bestCardIndex4NowPlayer
      simp only [hq, hq2]
      rw [oneCardCase_congr h q (by rw [hq]; simp)]
    · have hsize2 : (u2.player u2.now).handCards.length ≠ 1 := h.hand ▸ hsize
      have ht := h.top
      cases e1 : u1.recent.getLast? <;> cases e2 : u2.recent.getLast? <;>
        simp only [e1, e2, Option.map_none', Option.map_some', reduceCtorEq] at ht
      · rw [easyAI_none_of_no_recent u1 drawnCard hsize e1,
          easyAI_none_of_no_recent u2 drawnCard hsize2 e2]
      · rename_i l1 l2
        rw [easyAI_eq u1 drawnCard hsize l1 e1, easyAI_eq u2 drawnCard hsize2 l2 e2,
          easyScanLoop_congr u1 u2 drawnCard _ _ 0 _ h.cards (h.legalNow_eq drawnCard),
          h.bestColor_eq, h.lastColor_eq l1 l2 e1 e2, h.hand, h.nextSize, h.prevSize]
  · by_cases hsize : (u1.player u1.now).handCards.length = 1
    · obtain ⟨q, hq⟩ := List.length_eq_one.mp hsize
      have hq2 := h.hand ▸ hq
      unfold sevenZeroAI_bestCardIndex4NowPlayer
      simp only [hq, hq2]
      rw [oneCardCase_congr h q (by rw [hq]; simp)]
    · have hsize2 : (u2.player u2.now).handCards.length ≠ 1 := h.hand ▸ hsize
      have ht := h.top
      cases e1 : u1.recent.getLast? <;> cases e2 : u2.recent.getLast? <;>
        simp only [e1, e2, Option.map_none', Option.map_some', reduceCtorEq] at ht
      · rw [sevenZeroAI_none_of_no_recent u1 drawnCard hsize e1,
          sevenZeroAI_none_of_no_recent u2 drawnCard hsize2 e2]
      · rename_i l1 l2
        rw [sevenZeroAI_eq u1 drawnCard hsize l1 e1,
          sevenZeroAI_eq u2 drawnCard hsize2 l2 e2,
          sevenZeroScanLoop_congr u1 u2 drawnCard _ _ 0 _ h.cards (h.legalNow_eq drawnCard),
          sevenZeroDecision_congr u1 u2 _ h.cards,
          h.bestColor_eq, h.lastColor_eq l1 l2 e1 e2, h.hand, h.nextSize, h.oppoSize,
          h.prevSize, h.nextStrong, h.oppoStrong, h.prevStrong]
  · intro hn hp ho hw rands1 rands2
    rw [← hard_eq rands2]
    by_cases hsize : (u1.player u1.now).handCards.length = 1
    · obtain ⟨q, hq⟩ := List.length_eq_one.mp hsize
      unfold hardAI_bestCardIndex4NowPlayer
      simp only [hq]
    · cases e1 : u1.recent.getLast? with
      | none =>
        rw [hardAI_none_of_no_recent u1 drawnCard rands1 hsize e1,
          hardAI_none_of_no_recent u1 drawnCard rands2 hsize e1]
      | some l1 =>
        rw [hardAI_eq u1 drawnCard rands1 hsize l1 e1,
          hardAI_eq u1 drawnCard rands2 hsize l1 e1]
        exact hardDecision_no_loop u1 _ rands1 rands2 hn hp ho
          (hardLocals_allWild_false u1 drawnCard l1 hw)

/-- Witness of C12 (amended): `tableNumberOrWild` and the same snapshot met with another
acting seat, direction, history and piles. -/
theorem strategies_depend_on_snapshot_witness :
    SameSnapshot tableNumberOrWild tableNumberOrWildAgain ∧
    tableNumberOrWild.now ≠ tableNumberOrWildAgain.now ∧
    tableNumberOrWild.recent ≠ tableNumberOrWildAgain.recent ∧
    easyAI_bestCardIndex4NowPlayer tableNumberOrWild none
      = easyAI_bestCardIndex4NowPlayer tableNumberOrWildAgain none ∧
    hardAI_bestCardIndex4NowPlayer tableNumberOrWild none [3]
      = hardAI_bestCardIndex4NowPlayer tableNumberOrWildAgain none [3] ∧
    hardAI_bestCardIndex4NowPlayer tableNumberOrWildAgain none [3] = some (0, Color.RED) := by
  have hs : SameSnapshot tableNumberOrWild tableNumberOrWildAgain :=
    { hand := by decide, cards := by decide, top := by decide, nextSize := by decide,
      oppoSize := by decide, prevSize := by decide, nextStrong := by decide,
      oppoStrong := by decide, prevStrong := by decide, nextWeak := by decide,
      oppoWeak := by decide, prevWeak := by decide, prevRecent := by decide }
  have h := strategies_depend_on_snapshot tableNumberOrWild tableNumberOrWildAgain none hs
  exact ⟨hs, by decide, by decide, h.1, h.2.2.1 [3], by decide⟩

/-- C14 (counterexample): the acting hand holds MAX_HOLD_CARDS cards, its WILD is legal to
play, no drawn card was passed, the next player holds one card with RED as strong colour
on a BLUE top: the hard strategy returns -1. -/
theorem full_hand_draws_counterexample :
    ((tableFullHandNextDash.player tableFullHandNextDash.now).handCards.length : Int)
      = MAX_HOLD_CARDS ∧
    tableFullHandNextDash.isLegalToPlay 1 = true ∧
    1 ∈ (tableFullHandNextDash.player tableFullHandNextDash.now).handCards ∧
    hardAI_bestCardIndex4NowPlayer tableFullHandNextDash none [] = some (-1, Color.GREEN) := by
  decide

theorem hardScanStep_mono (u : Uno) (drawnCard : Option CardPtr) (bestColor : Color)
    (st : HardScan) (i : Nat) (p : CardPtr) :
    (st.hasDraw2 = true → (hardScanStep u drawnCard bestColor st i p).hasDraw2 = true) ∧
    (st.hasSkip = true → (hardScanStep u drawnCard bestColor st i p).hasSkip = true) ∧
    (st.hasRev = true → (hardScanStep u drawnCard bestColor st i p).hasRev = true) ∧
    (st.hasWild = true → (hardScanStep u drawnCard bestColor st i p).hasWild = true) ∧
    (st.hasWD4 = true → (hardScanStep u drawnCard bestColor st i p).hasWD4 = true) ∧
    (∀ k, st.hasNumIn k = true →
      (hardScanStep u drawnCard bestColor st i p).hasNumIn k = true) := by
  unfold hardScanStep
  simp only
  split_ifs
  · unfold hardScanSwitch
    cases (u.card p).content <;> simp only <;> (try split_ifs) <;>
      refine ⟨?_, ?_, ?_, ?_, ?_, ?_⟩ <;> intros <;>
      first
        | assumption
        | rfl
        | (simp only [setAt]; split_ifs <;> first | rfl | assumption)
        | simp_all [setAt]
  · exact ⟨id, id, id, id, id, fun _ => id⟩

theorem hardScanStep_flag_mono (u : Uno) (drawnCard : Option CardPtr) (bestColor : Color)
    (st : HardScan) (i : Nat) (p : CardPtr) (c : Card) (h : hardFlag st c = true) :
    hardFlag (hardScanStep u drawnCard bestColor st i p) c = true := by
  obtain ⟨m1, m2, m3, m4, m5, m6⟩ := hardScanStep_mono u drawnCard bestColor st i p
  unfold hardFlag at h ⊢
  cases hc : c.content <;> simp only [hc] at h ⊢ <;>
    first
      | exact m1 h
      | exact m2 h
      | exact m3 h
      | exact m4 h
      | exact m5 h
      | exact m6 _ h

theorem hardScanStep_flag_set (u : Uno) (drawnCard : Option CardPtr) (bestColor : Color)
    (st : HardScan) (i : Nat) (p : CardPtr) (hl : legalNow u drawnCard p = true) :
    hardFlag (hardScanStep u drawnCard bestColor st i p) (u.card p) = true := by
  unfold hardScanStep
  simp only [hl, if_true]
  unfold hardScanSwitch hardFlag
  cases hc : (u.card p).content <;> simp only <;> (try split_ifs) <;>
    simp_all [setAt, Card.getRealColor]

theorem hardScanLoop_flag (u : Uno) (drawnCard : Option CardPtr) (bestColor : Color)
    (ps : List CardPtr) (i : Nat) (st : HardScan) (c : Card)
    (h : hardFlag st c = true ∨ ∃ p ∈ ps, legalNow u drawnCard p = true ∧ u.card p = c) :
    hardFlag (hardScanLoop u drawnCard bestColor ps i st) c = true := by
  induction ps generalizing i st with
  | nil =>
    rcases h with h | ⟨p, hp, _⟩
    · exact h
    · cases hp
  | cons q qs ih =>
    unfold hardScanLoop
    apply ih
    rcases h with h | ⟨p, hp, hl, hc⟩
    · exact Or.inl (hardScanStep_flag_mono u drawnCard bestColor st i q c h)
    · rcases List.mem_cons.mp hp with rfl | hp
      · exact Or.inl (hc ▸ hardScanStep_flag_set u drawnCard bestColor st i p hl)
      · exact Or.inr ⟨p, hp, hl, hc⟩

theorem SlotOK.nonneg {u : Uno} {drawnCard : Option CardPtr} {hand : List CardPtr}
    {K : Card → Prop} {has : Bool} {idx : Int} (h : SlotOK u drawnCard hand K has idx)
    (ht : has = true) : 0 ≤ idx := by
  rcases h with ⟨hf, _⟩ | ⟨_, n, _, hn, _⟩
  · rw [ht] at hf; cases hf
  · rw [hn]; exact Int.natCast_nonneg n

theorem nonneg_ite {c : Prop} [Decidable c] {a b : Int × Color} (ha : c → 0 ≤ a.1)
    (hb : ¬ c → 0 ≤ b.1) : 0 ≤ (if c then a else b).1 := by
  split_ifs with h
  · exact ha h
  · exact hb h

theorem hardFullHand_nonneg (u : Uno) (drawnCard : Option CardPtr) (v : HardLocals)
    (h : HardInv u drawnCard v.hand v.st)
    (hf : v.st.hasSkip = true ∨ v.st.hasDraw2 = true ∨ v.st.hasRev = true ∨
      v.st.hasWild = true ∨ v.st.hasWD4 = true) : 0 ≤ hardFullHand v := by
  obtain ⟨h1, h2, h3, h4, h5, h6⟩ := h
  unfold hardFullHand
  split_ifs with c1 c2 c3 c4 c5
  · exact h3.nonneg c1
  · exact h4.nonneg c2
  · exact h2.nonneg c3
  · exact h5.nonneg c4
  · exact h6.nonneg c5
  · rcases hf with hf | hf | hf | hf | hf <;> contradiction

theorem hardAllWildIndex_nonneg (u : Uno) (drawnCard : Option CardPtr) (v : HardLocals)
    (h : HardInv u drawnCard v.hand v.st)
    (hf : v.st.hasWild = true ∨ v.st.hasWD4 = true) : 0 ≤ hardAllWildIndex v := by
  obtain ⟨h1, h2, h3, h4, h5, h6⟩ := h
  unfold hardAllWildIndex
  split_ifs with c1 c2 c3
  · exact h6.nonneg c2
  · exact h5.nonneg (hf.resolve_right c2)
  · exact h5.nonneg c3
  · exact h6.nonneg (hf.resolve_left c3)

/-- With a full hand and some flag set (a number flag at a real colour, or an action or
wild flag), the normal strategies of the hard strategy return a non-negative index. -/
theorem hardNormal_nonneg (u : Uno) (drawnCard : Option CardPtr) (v : HardLocals)
    (h : HardInv u drawnCard v.hand v.st) (hfull : v.yourSize = MAX_HOLD_CARDS)
    (hf : (v.st.hasNumIn Color.RED = true ∨ v.st.hasNumIn Color.BLUE = true ∨
        v.st.hasNumIn Color.GREEN = true ∨ v.st.hasNumIn Color.YELLOW = true) ∨
      v.st.hasSkip = true ∨ v.st.hasDraw2 = true ∨ v.st.hasRev = true ∨
      v.st.hasWild = true ∨ v.st.hasWD4 = true) : 0 ≤ (hardNormal u v).1 := by
  have hfh := hardFullHand_nonneg u drawnCard v h
  obtain ⟨h1, h2, h3, h4, h5, h6⟩ := h
  unfold hardNormal
  refine nonneg_ite (fun c => h4.nonneg c.1) (fun _ => ?_)
  refine nonneg_ite (fun c => h3.nonneg c.1) (fun _ => ?_)
  refine nonneg_ite (fun c => h2.nonneg c.1) (fun _ => ?_)
  refine nonneg_ite (fun c => (h1 _).nonneg c) (fun _ => ?_)
  refine nonneg_ite (fun c => (h1 _).nonneg c) (fun nR => ?_)
  refine nonneg_ite (fun c => (h1 _).nonneg c) (fun nB => ?_)
  refine nonneg_ite (fun c => (h1 _).nonneg c) (fun nG => ?_)
  refine nonneg_ite (fun c => (h1 _).nonneg c) (fun nY => ?_)
  refine nonneg_ite (fun c => h2.nonneg c.1) (fun _ => ?_)
  refine nonneg_ite (fun c => h3.nonneg c.1) (fun _ => ?_)
  refine nonneg_ite (fun c => h4.nonneg c.1) (fun _ => ?_)
  refine nonneg_ite (fun c => h5.nonneg c.1) (fun _ => ?_)
  refine nonneg_ite (fun c => h6.nonneg c.1) (fun _ => ?_)
  refine nonneg_ite (fun c => h5.nonneg c.1) (fun _ => ?_)
  refine nonneg_ite (fun c => h6.nonneg c.1) (fun _ => ?_)
  refine nonneg_ite (fun _ => ?_) (fun c => absurd hfull c)
  apply hfh
  rcases hf with (hf | hf | hf | hf) | hf
  · exact absurd hf nR
  · exact absurd hf nB
  · exact absurd hf nG
  · exact absurd hf nY
  · exact hf

/-- What the flag of a playable card gives: a number flag at a real colour, or an action
or wild flag, when the non-wild cards carry a real colour. -/
theorem hardFlag_cases (st : HardScan) (c : Card) (h : hardFlag st c = true)
    (hreal : c.isWild = false → c.color ≠ Color.NONE) :
    (st.hasNumIn Color.RED = true ∨ st.hasNumIn Color.BLUE = true ∨
        st.hasNumIn Color.GREEN = true ∨ st.hasNumIn Color.YELLOW = true) ∨
      st.hasSkip = true ∨ st.hasDraw2 = true ∨ st.hasRev = true ∨
      st.hasWild = true ∨ st.hasWD4 = true := by
  obtain ⟨col, con⟩ := c
  unfold hardFlag at h
  cases con <;> simp only at h <;>
    first
      | exact Or.inr (Or.inl h)
      | exact Or.inr (Or.inr (Or.inl h))
      | exact Or.inr (Or.inr (Or.inr (Or.inl h)))
      | exact Or.inr (Or.inr (Or.inr (Or.inr (Or.inl h))))
      | exact Or.inr (Or.inr (Or.inr (Or.inr (Or.inr h))))
      | (left
         have hc := hreal (by simp [Card.isWild])
         cases col
         · exact absurd rfl hc
         · exact Or.inl h
         · exact Or.inr (Or.inl h)
         · exact Or.inr (Or.inr (Or.inl h))
         · exact Or.inr (Or.inr (Or.inr h)))

theorem hardFlag_wild (st : HardScan) (c : Card) (h : hardFlag st c = true)
    (hw : c.isWild = true) : st.hasWild = true ∨ st.hasWD4 = true := by
  obtain ⟨col, con⟩ := c
  unfold hardFlag at h
  cases con <;> simp [Card.isWild] at hw <;> simp only at h
  · exact Or.inl h
  · exact Or.inr h

/-- C14 (amended): in the hard strategy, when the acting hand holds exactly
MAX_HOLD_CARDS cards whose non-wild cards carry a real colour, no drawn card was passed,
at least one card of the hand is legal to play, no opponent holds exactly one card and
the colour of the top of the discard is not the weak colour of the next player, every
result the strategy returns has a non-negative index, and it returns on some results of
`rand()`. -/
theorem hard_full_hand_plays (u : Uno) (last : CardPtr)
    (hlast : u.recent.getLast? = some last)
    (hfull : ((u.player u.now).handCards.length : Int) = MAX_HOLD_CARDS)
    (hlegal : ∃ p ∈ (u.player u.now).handCards, u.isLegalToPlay p = true)
    (hreal : ∀ p ∈ (u.player u.now).handCards,
      (u.card p).isWild = false → (u.card p).color ≠ Color.NONE)
    (hn : (u.player u.getNext).getHandSize ≠ 1) (hp : (u.player u.getPrev).getHandSize ≠ 1)
    (ho : (u.player u.getOppo).getHandSize ≠ 1)
    (hweak : (u.card last).color ≠ (u.player u.getNext).weakColor) :
    (∀ rands i c, hardAI_bestCardIndex4NowPlayer u none rands = some (i, c) → 0 ≤ i) ∧
    (∃ rands i c, hardAI_bestCardIndex4NowPlayer u none rands = some (i, c)) := by
  have hsize : (u.player u.now).handCards.length ≠ 1 := by
    intro h
    rw [h] at hfull
    exact absurd hfull (by decide)
  constructor
  · intro rands i c h
    rw [hardAI_eq u none rands hsize last hlast] at h
    have inv := hardLocals_inv u none last
    obtain ⟨p, hp1, hpl⟩ := hlegal
    have hflag : hardFlag (hardLocals u none last).st (u.card p) = true :=
      hardScanLoop_flag u none (calcBestColor4NowPlayer u) (u.player u.now).handCards 0
        HardScan.init (u.card p) (Or.inr ⟨p, hp1, hpl, rfl⟩)
    have hn2 : (hardLocals u none last).nextSize ≠ 1 := hn
    have hp2 : (hardLocals u none last).prevSize ≠ 1 := hp
    have ho2 : (hardLocals u none last).oppoSize ≠ 1 := ho
    unfold hardDecision at h
    rw [if_neg hn2, if_neg hp2, if_neg ho2] at h
    by_cases hw : (hardLocals u none last).st.allWild = true
    · rw [if_pos hw] at h
      have hall : (u.player u.now).handCards.all (fun q => (u.card q).isWild) = true := by
        have e := hardScanLoop_allWild u none (calcBestColor4NowPlayer u)
          (u.player u.now).handCards 0 HardScan.init
        have hw2 : (hardScanLoop u none (calcBestColor4NowPlayer u)
          (u.player u.now).handCards 0 HardScan.init).allWild = true := hw
        rw [e] at hw2
        simpa [HardScan.init] using hw2
      have hpw : (u.card p).isWild = true := by
        rw [List.all_eq_true] at hall
        exact hall p hp1
      have hi := hardAllWildIndex_nonneg u none _ inv (hardFlag_wild _ _ hflag hpw)
      split at h
      · cases h
      · cases h
        exact hi
    · rw [if_neg hw] at h
      have hnd : ¬ ((hardLocals u none last).lastColor = (hardLocals u none last).nextWeakColor ∧
          (hardLocals u none last).yourSize > 2) := fun hc => hweak hc.1
      rw [if_neg hnd] at h
      have e := congrArg Prod.fst (Option.some.inj h)
      simp only at e
      rw [← e]
      exact hardNormal_nonneg u none _ inv hfull
        (hardFlag_cases _ _ hflag (hreal p hp1))
  · obtain ⟨rands, r, hr⟩ := hardDecision_returns u (hardLocals u none last)
    exact ⟨rands, r.1, r.2, by rw [hardAI_eq u none rands hsize last hlast, hr]⟩

/-- Witness of C14 (amended): a full hand holding a WILD and thirteen GREEN NUM1 on
BLUE NUM5, the next player holding five cards; the WILD at index 0 is played. -/
theorem hard_full_hand_plays_witness :
    tableFullHand.recent.getLast? = some 2 ∧
    ((tableFullHand.player tableFullHand.now).handCards.length : Int) = MAX_HOLD_CARDS ∧
    hardAI_bestCardIndex4NowPlayer tableFullHand none [] = some (0, Color.GREEN) ∧
    (0 : Int) ≤ 0 :=
  ⟨by decide, by decide, by decide,
    (hard_full_hand_plays tableFullHand 2 (by decide) (by decide) (by decide) (by decide)
      (by decide) (by decide) (by decide) (by decide)).1 [] 0 Color.GREEN (by decide)⟩

/-! ## The safe colours of the hard strategy, the rule list of the easy strategy, the
runtime and the turn order -/

theorem easyScanStep_flag_mono (u : Uno) (drawnCard : Option CardPtr) (bestColor : Color)
    (st : EasyScan) (i : Nat) (p : CardPtr) (c : Content) (h : easyFlag st c = true) :
    easyFlag (easyScanStep u drawnCard bestColor st i p) c = true := by
  unfold easyScanStep
  by_cases hl : legalNow u drawnCard p = true
  · rw [if_pos hl]
    unfold easyFlag at h ⊢
    cases hc : (u.card p).content <;> simp only <;> (try split_ifs) <;>
      cases c <;> simp_all
  · rw [if_neg hl]
    exact h

theorem easyScanStep_flag_set (u : Uno) (drawnCard : Option CardPtr) (bestColor : Color)
    (st : EasyScan) (i : Nat) (p : CardPtr) (hl : legalNow u drawnCard p = true) :
    easyFlag (easyScanStep u drawnCard bestColor st i p) (u.card p).content = true := by
  unfold easyScanStep
  rw [if_pos hl]
  unfold easyFlag
  cases hc : (u.card p).content <;> simp only <;> (try split_ifs) <;> simp_all

theorem easyScanLoop_flag (u : Uno) (drawnCard : Option CardPtr) (bestColor : Color)
    (ps : List CardPtr) (i : Nat) (st : EasyScan) (c : Content)
    (h : easyFlag st c = true ∨
      ∃ p ∈ ps, legalNow u drawnCard p = true ∧ (u.card p).content = c) :
    easyFlag (easyScanLoop u drawnCard bestColor ps i st) c = true := by
  induction ps generalizing i st with
  | nil =>
    rcases h with h | ⟨p, hp, _⟩
    · exact h
    · cases hp
  | cons q qs ih =>
    unfold easyScanLoop
    apply ih
    rcases h with h | ⟨p, hp, hl, hc⟩
    · exact Or.inl (easyScanStep_flag_mono u drawnCard bestColor st i q c h)
    · rcases List.mem_cons.mp hp with rfl | hp
      · exact Or.inl (hc ▸ easyScanStep_flag_set u drawnCard bestColor st i p hl)
      · exact Or.inr ⟨p, hp, hl, hc⟩

theorem SlotOK.denotesPlayable {u : Uno} {drawnCard : Option CardPtr} {hand : List CardPtr}
    {K : Card → Prop} {has : Bool} {idx : Int} (h : SlotOK u drawnCard hand K has idx)
    (ht : has = true) :
    ∃ p, handAt hand idx = some p ∧ legalNow u drawnCard p = true ∧ K (u.card p) := by
  obtain ⟨n, p, hi, hn, hl, hk⟩ := h.of_has ht
  exact ⟨p, by rw [hi, handAt_natCast]; exact hn, hl, hk⟩

theorem SlotOK.hasPlayable {u : Uno} {drawnCard : Option CardPtr} {hand : List CardPtr}
    {K : Card → Prop} {has : Bool} {idx : Int} (h : SlotOK u drawnCard hand K has idx)
    (ht : has = true) : ∃ p ∈ hand, legalNow u drawnCard p = true ∧ K (u.card p) := by
  obtain ⟨p, hp, hl, hk⟩ := h.denotesPlayable ht
  exact ⟨p, mem_of_handAt hp, hl, hk⟩

/-- C25: whatever the strong colours and hand sizes of the opponents, some colour among
RED, BLUE, GREEN, YELLOW makes the condition of each of the four random colour loops of
the hard strategy false; so each loop, from any colour, ends on some results of
`rand()`. -/
theorem random_color_loops_can_end (v : HardLocals) :
    (∃ c, c ≠ Color.NONE ∧ nextLoopCond v c = false ∧ prevLoopCond v c = false ∧
      oppoLoopCond v c = false ∧ allWildLoopCond v c = false) ∧
    (∀ c0, ∃ rands c1 c2 c3 c4,
      randomColorLoop (nextLoopCond v) c0 rands = some c1 ∧
      randomColorLoop (prevLoopCond v) c0 rands = some c2 ∧
      randomColorLoop (oppoLoopCond v) c0 rands = some c3 ∧
      randomColorLoop (allWildLoopCond v) c0 rands = some c4) := by
  obtain ⟨r, hr, hr1, hr2, hr3⟩ :=
    exists_free_color v.nextStrongColor v.oppoStrongColor v.prevStrongColor
  have f1 : nextLoopCond v (Color.ofCode (r % 4 + 1)) = false := by
    simp [nextLoopCond, hr1, hr2, hr3]
  have f2 : prevLoopCond v (Color.ofCode (r % 4 + 1)) = false := by
    simp [prevLoopCond, hr2, hr3]
  have f3 : oppoLoopCond v (Color.ofCode (r % 4 + 1)) = false := by
    simp [oppoLoopCond, hr2]
  have f4 : allWildLoopCond v (Color.ofCode (r % 4 + 1)) = false := by
    simp [allWildLoopCond, hr1, hr2, hr3]
  constructor
  · refine ⟨Color.ofCode (r % 4 + 1), ?_, f1, f2, f3, f4⟩
    simp only [List.mem_cons, List.mem_singleton, List.not_mem_nil, or_false] at hr
    rcases hr with rfl | rfl | rfl | rfl <;> decide
  · intro c0
    obtain ⟨c1, e1⟩ := randomColorLoop_single (nextLoopCond v) c0 r f1
    obtain ⟨c2, e2⟩ := randomColorLoop_single (prevLoopCond v) c0 r f2
    obtain ⟨c3, e3⟩ := randomColorLoop_single (oppoLoopCond v) c0 r f3
    obtain ⟨c4, e4⟩ := randomColorLoop_single (allWildLoopCond v) c0 r f4
    exact ⟨[r], c1, c2, c3, c4, e1, e2, e3, e4⟩

/-- C29: on a recent-played list of at least two cards `challengeAI` of main.cpp and
`AI::needToChallenge` both return, with the same decision, for every seat. -/
theorem challengeAI_agrees (u : Uno) (who : Nat) (h : 2 ≤ u.recent.length) :
    ∃ b, challengeAI u who = some b ∧ needToChallenge u who = some b := by
  have e : challengeAI u who = needToChallenge u who := by
    unfold challengeAI needToChallenge Player.getHandSize
    by_cases h1 : (u.player who).handCards.length = 1
    · simp [h1]
    · have h1i : ¬ ((u.player who).handCards.length : Int) = 1 := by omega
      by_cases h2 : ((u.player who).handCards.length : Int) ≥ MAX_HOLD_CARDS - 4
      · simp [h1, h2]
      · simp [h1, h1i, h2]
  obtain ⟨pre, a, b, hab⟩ := list_two_last u.recent h
  have r : ∃ b, needToChallenge u who = some b := by
    unfold needToChallenge
    simp only
    by_cases h1 : (u.player who).getHandSize = 1 ∨
        (u.player who).getHandSize ≥ MAX_HOLD_CARDS - 4
    · rw [if_pos h1]
      exact ⟨true, rfl⟩
    · rw [if_neg h1, if_neg (by omega), hab, getElem?_next2last, getLast?_two]
      exact ⟨_, rfl⟩
  obtain ⟨b, hb⟩ := r
  exact ⟨b, e.trans hb, hb⟩

/-- Witness of C29: the wild +4 declared RED on RED NUM3, seat 1 with five cards. -/
theorem challengeAI_agrees_witness :
    2 ≤ tableDraw4OnRed.recent.length ∧
    challengeAI tableDraw4OnRed 1 = some true ∧ needToChallenge tableDraw4OnRed 1 = some true ∧
    (∃ b, challengeAI tableDraw4OnRed 1 = some b ∧ needToChallenge tableDraw4OnRed 1 = some b) :=
  ⟨by decide, by decide, by decide, challengeAI_agrees tableDraw4OnRed 1 (by decide)⟩

theorem easyScan_flag_iff (u : Uno) (drawnCard : Option CardPtr) (bestColor : Color)
    (hand : List CardPtr) :
    let st := easyScanLoop u drawnCard bestColor hand 0 EasyScan.init
    (st.hasNum = true ↔ HasPlayable u drawnCard hand (fun c => c.isNumber = true)) ∧
    (st.hasRev = true ↔ HasPlayable u drawnCard hand (fun c => c = Content.REV)) ∧
    (st.hasSkip = true ↔ HasPlayable u drawnCard hand (fun c => c = Content.SKIP)) ∧
    (st.hasDraw2 = true ↔ HasPlayable u drawnCard hand (fun c => c = Content.DRAW2)) ∧
    (st.hasWild = true ↔ HasPlayable u drawnCard hand (fun c => c = Content.WILD)) ∧
    (st.hasWD4 = true ↔ HasPlayable u drawnCard hand (fun c => c = Content.WILD_DRAW4)) := by
  intro st
  obtain ⟨i1, i2, i3, i4, i5, i6⟩ := easyScan_inv u drawnCard bestColor hand
  have fl : ∀ p ∈ hand, legalNow u drawnCard p = true →
      easyFlag st (u.card p).content = true := fun p hp hl =>
    easyScanLoop_flag u drawnCard bestColor hand 0 EasyScan.init _ (Or.inr ⟨p, hp, hl, rfl⟩)
  refine ⟨⟨fun h => i1.hasPlayable h, ?_⟩, ⟨fun h => i2.hasPlayable h, ?_⟩,
    ⟨fun h => i3.hasPlayable h, ?_⟩, ⟨fun h => i4.hasPlayable h, ?_⟩,
    ⟨fun h => i5.hasPlayable h, ?_⟩, ⟨fun h => i6.hasPlayable h, ?_⟩⟩
  · rintro ⟨p, hp, hl, hk⟩
    have := fl p hp hl
    unfold easyFlag at this
    cases hc : (u.card p).content <;> simp_all [Content.isNumber]
  all_goals
    rintro ⟨p, hp, hl, hk⟩
    have := fl p hp hl
    rw [hk] at this
    exact this

theorem hardScan_draw2_iff (u : Uno) (drawnCard : Option CardPtr) (bestColor : Color)
    (hand : List CardPtr) :
    (hardScanLoop u drawnCard bestColor hand 0 HardScan.init).hasDraw2 = true ↔
      HasPlayable u drawnCard hand (fun c => c = Content.DRAW2) := by
  constructor
  · intro h
    exact (hardScan_inv u drawnCard bestColor hand).2.2.2.1.hasPlayable h
  · rintro ⟨p, hp, hl, hk⟩
    have := hardScanLoop_flag u drawnCard bestColor hand 0 HardScan.init (u.card p)
      (Or.inr ⟨p, hp, hl, rfl⟩)
    unfold hardFlag at this
    have hk2 : (u.card p).content = Content.DRAW2 := hk
    rw [hk2] at this
    exact this

/-- C27: in the easy and in the hard strategy, on a hand of at least two cards and a
non-empty recent-played list, when the next player holds exactly one card and the hand
contains a playable DRAW2, the strategy returns (the hard one on any results of
`rand()`), the returned index denotes a playable DRAW2 of the hand and the out-colour is
the best colour. -/
theorem draw2_when_next_holds_one (u : Uno) (drawnCard : Option CardPtr)
    (hsize : 2 ≤ (u.player u.now).handCards.length) (hrecent : u.recent ≠ [])
    (hnext : (u.player u.getNext).getHandSize = 1)
    (hd : HasPlayable u drawnCard (u.player u.now).handCards (fun c => c = Content.DRAW2)) :
    (∃ i, easyAI_bestCardIndex4NowPlayer u drawnCard = some (i, calcBestColor4NowPlayer u) ∧
      DenotesPlayable u drawnCard (u.player u.now).handCards
        (fun c => c = Content.DRAW2) i) ∧
    (∀ rands, ∃ i,
      hardAI_bestCardIndex4NowPlayer u drawnCard rands =
        some (i, calcBestColor4NowPlayer u) ∧
      DenotesPlayable u drawnCard (u.player u.now).handCards
        (fun c => c = Content.DRAW2) i) := by
  obtain ⟨last, hlast⟩ := getLast?_of_ne_nil u.recent hrecent
  have hne : (u.player u.now).handCards.length ≠ 1 := by omega
  constructor
  · have hf := (easyScan_flag_iff u drawnCard (calcBestColor4NowPlayer u)
      (u.player u.now).handCards).2.2.2.1.mpr hd
    have inv := (easyScan_inv u drawnCard (calcBestColor4NowPlayer u)
      (u.player u.now).handCards).2.2.2.1
    refine ⟨_, easyAI_eq u drawnCard hne last hlast, ?_⟩
    unfold easyDecision
    rw [if_pos hnext, if_pos hf]
    exact inv.denotesPlayable hf
  · intro rands
    have hf : (hardLocals u drawnCard last).st.hasDraw2 = true :=
      (hardScan_draw2_iff u drawnCard (calcBestColor4NowPlayer u)
        (u.player u.now).handCards).mpr hd
    have inv := (hardLocals_inv u drawnCard last).2.2.2.1
    have hn2 : (hardLocals u drawnCard last).nextSize = 1 := hnext
    refine ⟨(hardLocals u drawnCard last).st.idxDraw2, ?_, inv.denotesPlayable hf⟩
    rw [hardAI_eq u drawnCard rands hne last hlast]
    unfold hardDecision
    rw [if_pos hn2, if_pos hf]
    rfl

/-- Witness of C27: `[RED DRAW2, RED NUM5, WILD]` on RED NUM3, the next player holding
one card; both strategies play the DRAW2 at index 0 with RED. -/
theorem draw2_when_next_holds_one_witness :
    easyAI_bestCardIndex4NowPlayer tableDraw2NextOne none = some (0, Color.RED) ∧
    hardAI_bestCardIndex4NowPlayer tableDraw2NextOne none [] = some (0, Color.RED) ∧
    (∃ i, easyAI_bestCardIndex4NowPlayer tableDraw2NextOne none =
        some (i, calcBestColor4NowPlayer tableDraw2NextOne) ∧
      DenotesPlayable tableDraw2NextOne none
        (tableDraw2NextOne.player tableDraw2NextOne.now).handCards
        (fun c => c = Content.DRAW2) i) :=
  ⟨by decide, by decide,
    (draw2_when_next_holds_one tableDraw2NextOne none (by decide) (by decide) (by decide)
      ⟨0, by decide, by decide, by decide⟩).1⟩

/-- C28: in the easy strategy, on a hand of at least two cards and a non-empty
recent-played list, when the next player does not hold exactly one card, the strategy
returns the best colour and an index chosen by the ordered rule list, first match wins:
a playable REV if the previous player holds more cards than the next; else a playable
number card; else a playable SKIP; else a playable DRAW2; else a playable REV if the
previous player holds more than one card; else a playable WILD; else a playable
WILD_DRAW4; else -1. -/
theorem easy_rule_list (u : Uno) (drawnCard : Option CardPtr)
    (hsize : 2 ≤ (u.player u.now).handCards.length) (hrecent : u.recent ≠ [])
    (hnext : (u.player u.getNext).getHandSize ≠ 1) :
    ∃ i, easyAI_bestCardIndex4NowPlayer u drawnCard = some (i, calcBestColor4NowPlayer u) ∧
      FirstMatch (fun K => DenotesPlayable u drawnCard (u.player u.now).handCards K i)
        (i = -1) (easyRules u drawnCard) := by
  obtain ⟨last, hlast⟩ := getLast?_of_ne_nil u.recent hrecent
  have hne : (u.player u.now).handCards.length ≠ 1 := by omega
  obtain ⟨f1, f2, f3, f4, f5, f6⟩ := easyScan_flag_iff u drawnCard
    (calcBestColor4NowPlayer u) (u.player u.now).handCards
  obtain ⟨i1, i2, i3, i4, i5, i6⟩ := easyScan_inv u drawnCard (calcBestColor4NowPlayer u)
    (u.player u.now).handCards
  refine ⟨_, easyAI_eq u drawnCard hne last hlast, ?_⟩
  unfold easyDecision
  rw [if_neg hnext]
  simp only [easyRules, FirstMatch, ← f1, ← f2, ← f3, ← f4, ← f5, ← f6]
  refine ⟨fun g => ?_, fun g => ⟨fun g2 => ?_, fun g2 => ⟨fun g3 => ?_, fun g3 =>
    ⟨fun g4 => ?_, fun g4 => ⟨fun g5 => ?_, fun g5 => ⟨fun g6 => ?_, fun g6 =>
    ⟨fun g7 => ?_, fun g7 => ?_⟩⟩⟩⟩⟩⟩⟩
  · rw [if_pos g]
    exact i2.denotesPlayable g.1
  · rw [if_neg g, if_pos g2]
    exact i1.denotesPlayable g2
  · rw [if_neg g, if_neg g2, if_pos g3]
    exact i3.denotesPlayable g3
  · rw [if_neg g, if_neg g2, if_neg g3, if_pos g4]
    exact i4.denotesPlayable g4
  · rw [if_neg g, if_neg g2, if_neg g3, if_neg g4, if_pos g5]
    exact i2.denotesPlayable g5.1
  · rw [if_neg g, if_neg g2, if_neg g3, if_neg g4, if_neg g5, if_pos g6]
    exact i5.denotesPlayable g6
  · rw [if_neg g, if_neg g2, if_neg g3, if_neg g4, if_neg g5, if_neg g6, if_pos g7]
    exact i6.denotesPlayable g7
  · rw [if_neg g, if_neg g2, if_neg g3, if_neg g4, if_neg g5, if_neg g6, if_neg g7]

/-- Witness of C28: `[RED DRAW2, RED SKIP, WILD]` on RED NUM3, every opponent holding
three cards; no REV and no number card is playable, so the third rule plays the SKIP at
index 1. -/
theorem easy_rule_list_witness :
    easyAI_bestCardIndex4NowPlayer tableSkipOrDraw2 none = some (1, Color.RED) ∧
    (∃ i, easyAI_bestCardIndex4NowPlayer tableSkipOrDraw2 none =
        some (i, calcBestColor4NowPlayer tableSkipOrDraw2) ∧
      FirstMatch
        (fun K => DenotesPlayable tableSkipOrDraw2 none
          (tableSkipOrDraw2.player tableSkipOrDraw2.now).handCards K i)
        (i = -1) (easyRules tableSkipOrDraw2 none)) :=
  ⟨by decide, easy_rule_list tableSkipOrDraw2 none (by decide) (by decide) (by decide)⟩

theorem ofCode_ne_none (r : Nat) : Color.ofCode (r % 4 + 1) ≠ Color.NONE := by
  have h : r % 4 < 4 := Nat.mod_lt _ (by decide)
  interval_cases (r % 4) <;> decide

theorem randomColorLoop_result (cond : Color → Bool) (rands : List Nat) (c c2 : Color)
    (h : randomColorLoop cond c rands = some c2) :
    cond c2 = false ∧ (c2 = c ∨ c2 ≠ Color.NONE) := by
  induction rands generalizing c with
  | nil =>
    unfold randomColorLoop at h
    split_ifs at h with hc
    cases h
    exact ⟨by simpa using hc, Or.inl rfl⟩
  | cons r rs ih =>
    unfold randomColorLoop at h
    split_ifs at h with hc
    · obtain ⟨h1, h2⟩ := ih _ h
      refine ⟨h1, Or.inr ?_⟩
      rcases h2 with h2 | h2
      · rw [h2]; exact ofCode_ne_none r
      · exact h2
    · cases h
      exact ⟨by simpa using hc, Or.inl rfl⟩

theorem initialSafeColor_ne_none (strong weak bestColor : Color)
    (hb : bestColor ≠ Color.NONE) : initialSafeColor strong weak bestColor ≠ Color.NONE := by
  unfold initialSafeColor
  split_ifs with h
  · exact hb
  · exact fun hw => h (Or.inr hw)

theorem calcBestColor_ne_none (u : Uno) : calcBestColor4NowPlayer u ≠ Color.NONE :=
  pickBestColor_ne_none _

theorem not_isWild_of_eq {c : Card} {k : Content} (h : c.content = k)
    (hk : k ≠ Content.WILD ∧ k ≠ Content.WILD_DRAW4) : c.isWild = false := by
  unfold Card.isWild
  rw [h]
  simp [hk.1, hk.2]

theorem not_isNumber_of_eq {c : Card} {k : Content} (h : c.content = k)
    (hk : k.isNumber = false) : c.content.isNumber = false := by
  rw [h]; exact hk

theorem wildLeaf_of_branches {u : Uno} {v : HardLocals} {c : Prop} [Decidable c]
    {a b : Int × Color} (ha : WildLeaf u v a) (hb : WildLeaf u v b) :
    WildLeaf u v (if c then a else b) := by
  split_ifs
  · exact ha
  · exact hb

theorem wildLeaf_neg_one (u : Uno) (v : HardLocals) (c : Color) : WildLeaf u v (-1, c) := by
  intro p hp
  rw [handAt_neg_one] at hp
  cases hp

theorem wildLeaf_of_safe {u : Uno} {v : HardLocals} {c : Color} (idx : Int)
    (hs : c ≠ Color.NONE ∧ AvoidsStrong v c) : WildLeaf u v (idx, c) :=
  fun _ _ _ => hs

theorem wildLeaf_of_slot {u : Uno} {drawnCard : Option CardPtr} {v : HardLocals}
    {K : Card → Prop} {has : Bool} {idx : Int} (c : Color)
    (h : SlotOK u drawnCard v.hand K has idx) (hK : ∀ x, K x → x.isWild = false) :
    WildLeaf u v (idx, c) := by
  intro p hp hw
  rw [hK _ (h.denotes p hp)] at hw
  cases hw

theorem numLeaf_of_guard {u : Uno} {v : HardLocals} {c : Prop} [Decidable c]
    {a b : Int × Color} (ha : c → NumLeaf u v a) (hb : ¬ c → NumLeaf u v b) :
    NumLeaf u v (if c then a else b) := by
  split_ifs with h
  · exact ha h
  · exact hb h

theorem numLeaf_neg_one (u : Uno) (v : HardLocals) (c : Color) : NumLeaf u v (-1, c) := by
  intro p hp
  rw [handAt_neg_one] at hp
  cases hp

theorem numLeaf_of_slot {u : Uno} {drawnCard : Option CardPtr} {v : HardLocals}
    {K : Card → Prop} {has : Bool} {idx : Int} (c : Color)
    (h : SlotOK u drawnCard v.hand K has idx) (hK : ∀ x, K x → x.content.isNumber = false) :
    NumLeaf u v (idx, c) := by
  intro p hp hn
  rw [hK _ (h.denotes p hp)] at hn
  cases hn

theorem numLeaf_of_color {u : Uno} {drawnCard : Option CardPtr} {v : HardLocals}
    {k : Color} {has : Bool} {idx : Int} (c : Color)
    (h : SlotOK u drawnCard v.hand (fun x => x.content.isNumber = true ∧ x.color = k)
      has idx)
    (hs : AvoidsStrong v k) : NumLeaf u v (idx, c) := by
  intro p hp _
  rw [(h.denotes p hp).2]
  exact hs

theorem avoids_of_guard3 {v : HardLocals} {k : Color} {A : Prop}
    (g : A ∧ (v.prevSize > 1 ∨ v.prevStrongColor ≠ k) ∧
      (v.oppoSize > 1 ∨ v.oppoStrongColor ≠ k) ∧ v.nextStrongColor ≠ k) :
    AvoidsStrong v k := by
  obtain ⟨_, g1, g2, g3⟩ := g
  refine ⟨fun _ h => g3 h.symm, fun h1 h => ?_, fun h1 h => ?_⟩
  · rcases g2 with g2 | g2
    · omega
    · exact g2 h.symm
  · rcases g1 with g1 | g1
    · omega
    · exact g1 h.symm

theorem avoids_of_guard2 {v : HardLocals} {k : Color} {A : Prop}
    (hnone : v.nextStrongColor = Color.NONE) (hk : k ≠ Color.NONE)
    (g : A ∧ (v.prevSize > 1 ∨ v.prevStrongColor ≠ k) ∧
      (v.oppoSize > 1 ∨ v.oppoStrongColor ≠ k)) :
    AvoidsStrong v k :=
  avoids_of_guard3 ⟨g.1, g.2.1, g.2.2, by rw [hnone]; exact fun h => hk h.symm⟩

theorem avoids_of_nextLoop {v : HardLocals} {c : Color} (h : nextLoopCond v c = false) :
    AvoidsStrong v c := by
  unfold nextLoopCond at h
  simp only [Bool.or_eq_false_iff, Bool.and_eq_false_imp, decide_eq_true_eq, beq_eq_false_iff_ne,
    ne_eq] at h
  exact ⟨fun _ => h.1.1, h.1.2, h.2⟩

theorem avoids_of_prevLoop {v : HardLocals} {c : Color} (hn : v.nextSize ≠ 1)
    (h : prevLoopCond v c = false) : AvoidsStrong v c := by
  unfold prevLoopCond at h
  simp only [Bool.or_eq_false_iff, Bool.and_eq_false_imp, decide_eq_true_eq, beq_eq_false_iff_ne,
    ne_eq] at h
  exact ⟨fun h1 => absurd h1 hn, h.2, fun _ => h.1⟩

theorem avoids_of_oppoLoop {v : HardLocals} {c : Color} (hn : v.nextSize ≠ 1)
    (hp : v.prevSize ≠ 1) (h : oppoLoopCond v c = false) : AvoidsStrong v c := by
  unfold oppoLoopCond at h
  simp only [beq_eq_false_iff_ne, ne_eq] at h
  exact ⟨fun h1 => absurd h1 hn, fun _ => h, fun h1 => absurd h1 hp⟩

theorem avoids_of_no_dash {v : HardLocals} (c : Color) (hn : v.nextSize ≠ 1)
    (hp : v.prevSize ≠ 1) (ho : v.oppoSize ≠ 1) : AvoidsStrong v c :=
  ⟨fun h1 => absurd h1 hn, fun h1 => absurd h1 ho, fun h1 => absurd h1 hp⟩

theorem hardNextDash_wildLeaf (u : Uno) (drawnCard : Option CardPtr) (v : HardLocals)
    (h : HardInv u drawnCard v.hand v.st) (hb : v.bestColor ≠ Color.NONE)
    (safeColor : Color)
    (hs : safeColor ≠ Color.NONE ∧ AvoidsStrong v safeColor) :
    WildLeaf u v (hardNextDash u v safeColor) := by
  obtain ⟨h1, h2, h3, h4, h5, h6⟩ := h
  unfold hardNextDash
  by_cases c1 : v.lastColor = v.nextStrongColor
  · rw [if_pos c1]
    repeat' first
      | apply wildLeaf_of_branches
      | exact wildLeaf_neg_one _ _ _
      | exact wildLeaf_of_safe _ hs
      | exact wildLeaf_of_slot _ (h1 _) (fun _ hx => not_isWild_of_isNumber hx.1)
      | exact wildLeaf_of_slot _ h2 (fun _ hx => not_isWild_of_eq hx (by decide))
      | exact wildLeaf_of_slot _ h3 (fun _ hx => not_isWild_of_eq hx (by decide))
  · rw [if_neg c1]
    by_cases c2 : v.nextStrongColor ≠ Color.NONE
    · rw [if_pos c2]
      repeat' first
        | apply wildLeaf_of_branches
        | exact wildLeaf_neg_one _ _ _
        | exact wildLeaf_of_safe _ hs
        | exact wildLeaf_of_slot _ (h1 _) (fun _ hx => not_isWild_of_isNumber hx.1)
        | exact wildLeaf_of_slot _ h2 (fun _ hx => not_isWild_of_eq hx (by decide))
        | exact wildLeaf_of_slot _ h3 (fun _ hx => not_isWild_of_eq hx (by decide))
    · rw [if_neg c2]
      have hnone : v.nextStrongColor = Color.NONE := not_not.mp c2
      have hsp : (if v.oppoSize = 1 ∨ v.prevSize = 1 then safeColor else v.bestColor)
            ≠ Color.NONE ∧
          AvoidsStrong v (if v.oppoSize = 1 ∨ v.prevSize = 1 then safeColor else v.bestColor) := by
        split_ifs with c3
        · exact hs
        · refine ⟨hb, fun _ => ?_, fun h1 => absurd (Or.inl h1) c3,
            fun h1 => absurd (Or.inr h1) c3⟩
          rw [hnone]; exact hb
      repeat' first
        | apply wildLeaf_of_branches
        | exact wildLeaf_neg_one _ _ _
        | exact wildLeaf_of_safe _ hs
        | exact wildLeaf_of_safe _ hsp
        | exact wildLeaf_of_slot _ (h1 _) (fun _ hx => not_isWild_of_isNumber hx.1)
        | exact wildLeaf_of_slot _ h2 (fun _ hx => not_isWild_of_eq hx (by decide))
        | exact wildLeaf_of_slot _ h3 (fun _ hx => not_isWild_of_eq hx (by decide))

theorem hardPrevDash_wildLeaf (u : Uno) (drawnCard : Option CardPtr) (v : HardLocals)
    (h : HardInv u drawnCard v.hand v.st) (safeColor : Color)
    (hs : safeColor ≠ Color.NONE ∧ AvoidsStrong v safeColor) :
    WildLeaf u v (hardPrevDash u v safeColor) := by
  obtain ⟨h1, h2, h3, h4, h5, h6⟩ := h
  unfold hardPrevDash
  repeat' first
    | apply wildLeaf_of_branches
    | exact wildLeaf_neg_one _ _ _
    | exact wildLeaf_of_safe _ hs
    | exact wildLeaf_of_slot _ (h1 _) (fun _ hx => not_isWild_of_isNumber hx.1)
    | exact wildLeaf_of_slot _ h3 (fun _ hx => not_isWild_of_eq hx (by decide))

theorem hardOppoDash_wildLeaf (u : Uno) (drawnCard : Option CardPtr) (v : HardLocals)
    (h : HardInv u drawnCard v.hand v.st) (safeColor : Color)
    (hs : safeColor ≠ Color.NONE ∧ AvoidsStrong v safeColor) :
    WildLeaf u v (hardOppoDash u v safeColor) := by
  obtain ⟨h1, h2, h3, h4, h5, h6⟩ := h
  unfold hardOppoDash
  repeat' first
    | apply wildLeaf_of_branches
    | exact wildLeaf_neg_one _ _ _
    | exact wildLeaf_of_safe _ hs
    | exact wildLeaf_of_slot _ (h1 _) (fun _ hx => not_isWild_of_isNumber hx.1)
    | exact wildLeaf_of_slot _ h2 (fun _ hx => not_isWild_of_eq hx (by decide))
    | exact wildLeaf_of_slot _ h3 (fun _ hx => not_isWild_of_eq hx (by decide))
    | exact wildLeaf_of_slot _ h4 (fun _ hx => not_isWild_of_eq hx (by decide))

theorem hardNoDash_wildLeaf (u : Uno) (v : HardLocals)
    (hs : v.bestColor ≠ Color.NONE ∧ AvoidsStrong v v.bestColor) :
    WildLeaf u v (hardNextDrew u v) ∧ WildLeaf u v (hardNormal u v) := by
  constructor
  · unfold hardNextDrew
    repeat' first
      | apply wildLeaf_of_branches
      | exact wildLeaf_of_safe _ hs
  · unfold hardNormal
    repeat' first
      | apply wildLeaf_of_branches
      | exact wildLeaf_of_safe _ hs

theorem hardDecision_wildLeaf (u : Uno) (drawnCard : Option CardPtr) (v : HardLocals)
    (h : HardInv u drawnCard v.hand v.st) (hb : v.bestColor ≠ Color.NONE)
    (rands : List Nat) (r : Int × Color) (hr : hardDecision u v rands = some r) :
    WildLeaf u v r := by
  have safe : ∀ (cond : Color → Bool) (s w c : Color),
      randomColorLoop cond (initialSafeColor s w v.bestColor) rands = some c →
      cond c = false ∧ c ≠ Color.NONE := by
    intro cond s w c hc
    obtain ⟨e1, e2⟩ := randomColorLoop_result cond rands _ c hc
    refine ⟨e1, ?_⟩
    rcases e2 with e2 | e2
    · rw [e2]; exact initialSafeColor_ne_none s w _ hb
    · exact e2
  unfold hardDecision at hr
  by_cases c1 : v.nextSize = 1
  · rw [if_pos c1] at hr
    by_cases cd : v.st.hasDraw2 = true
    · rw [if_pos cd] at hr
      cases hr
      exact wildLeaf_of_slot _ h.2.2.2.1 (fun _ hx => not_isWild_of_eq hx (by decide))
    · rw [if_neg cd] at hr
      split at hr
      · cases hr
      · rename_i sc hsc
        cases hr
        obtain ⟨e1, e2⟩ := safe _ _ _ _ hsc
        exact hardNextDash_wildLeaf u drawnCard v h hb sc ⟨e2, avoids_of_nextLoop e1⟩
  · rw [if_neg c1] at hr
    by_cases c2 : v.prevSize = 1
    · rw [if_pos c2] at hr
      split at hr
      · cases hr
      · rename_i sc hsc
        cases hr
        obtain ⟨e1, e2⟩ := safe _ _ _ _ hsc
        exact hardPrevDash_wildLeaf u drawnCard v h sc ⟨e2, avoids_of_prevLoop c1 e1⟩
    · rw [if_neg c2] at hr
      by_cases c3 : v.oppoSize = 1
      · rw [if_pos c3] at hr
        split at hr
        · cases hr
        · rename_i sc hsc
          cases hr
          obtain ⟨e1, e2⟩ := safe _ _ _ _ hsc
          exact hardOppoDash_wildLeaf u drawnCard v h sc ⟨e2, avoids_of_oppoLoop c1 c2 e1⟩
      · rw [if_neg c3] at hr
        have nd : AvoidsStrong v v.bestColor := avoids_of_no_dash _ c1 c2 c3
        split_ifs at hr
        · split at hr
          · cases hr
          · rename_i sc hsc
            cases hr
            refine wildLeaf_of_safe _ ⟨?_, avoids_of_no_dash _ c1 c2 c3⟩
            unfold hardAllWildColor at hsc
            split_ifs at hsc with d1 d2 d3
            · cases hsc; exact d1
            · cases hsc; exact d2
            · cases hsc; exact d3
            · obtain ⟨_, e2⟩ := randomColorLoop_result _ rands _ sc hsc
              rcases e2 with e2 | e2
              · rw [e2]; exact hb
              · exact e2
        · cases hr
          exact (hardNoDash_wildLeaf u v ⟨hb, nd⟩).1
        · cases hr
          exact (hardNoDash_wildLeaf u v ⟨hb, nd⟩).2

/-- C23: in the hard strategy, on a hand of at least two cards, whenever the strategy
returns (its random colour loops end on the results of `rand()` supplied) an index that
denotes a wild card, the out-colour is one of RED, BLUE, GREEN, YELLOW and differs from
the strong colour of every opponent who holds exactly one card; and on a non-empty
recent-played list there are results of `rand()` on which it returns. -/
theorem hard_wild_color_safe (u : Uno) (drawnCard : Option CardPtr)
    (hsize : 2 ≤ (u.player u.now).handCards.length) :
    (∀ rands i c, hardAI_bestCardIndex4NowPlayer u drawnCard rands = some (i, c) →
      ∀ p, handAt (u.player u.now).handCards i = some p → (u.card p).isWild = true →
        c ∈ [Color.RED, Color.BLUE, Color.GREEN, Color.YELLOW] ∧
        ((u.player u.getNext).getHandSize = 1 → c ≠ (u.player u.getNext).strongColor) ∧
        ((u.player u.getOppo).getHandSize = 1 → c ≠ (u.player u.getOppo).strongColor) ∧
        ((u.player u.getPrev).getHandSize = 1 → c ≠ (u.player u.getPrev).strongColor)) ∧
    (u.recent ≠ [] →
      ∃ rands i c, hardAI_bestCardIndex4NowPlayer u drawnCard rands = some (i, c)) := by
  have hne : (u.player u.now).handCards.length ≠ 1 := by omega
  constructor
  · intro rands i c h p hp hw
    cases hl : u.recent.getLast? with
    | none =>
      rw [hardAI_none_of_no_recent u drawnCard rands hne hl] at h
      cases h
    | some last =>
      rw [hardAI_eq u drawnCard rands hne last hl] at h
      obtain ⟨e1, e2⟩ := hardDecision_wildLeaf u drawnCard _ (hardLocals_inv u drawnCard last)
        (calcBestColor_ne_none u) rands _ h p hp hw
      refine ⟨?_, e2⟩
      have e3 : c ≠ Color.NONE := e1
      cases c <;> first | exact absurd rfl e3 | decide
  · intro hrecent
    obtain ⟨last, hlast⟩ := getLast?_of_ne_nil u.recent hrecent
    obtain ⟨rands, r, hr⟩ := hardDecision_returns u (hardLocals u drawnCard last)
    exact ⟨rands, r.1, r.2, by rw [hardAI_eq u drawnCard rands hne last hlast, hr]⟩

/-- Witness of C23: on RED NUM3 the next player holds one card with RED as strong colour;
`rand()` yields RED twice and then GREEN, and the WILD at index 1 is played with GREEN
declared. -/
theorem hard_wild_color_safe_witness :
    hardAI_bestCardIndex4NowPlayer tableNextDashRed none [0, 4, 6] = some (1, Color.GREEN) ∧
    (tableNextDashRed.player tableNextDashRed.getNext).strongColor = Color.RED ∧
    (Color.GREEN ∈ [Color.RED, Color.BLUE, Color.GREEN, Color.YELLOW] ∧
      ((tableNextDashRed.player tableNextDashRed.getNext).getHandSize = 1 →
        Color.GREEN ≠ (tableNextDashRed.player tableNextDashRed.getNext).strongColor) ∧
      ((tableNextDashRed.player tableNextDashRed.getOppo).getHandSize = 1 →
        Color.GREEN ≠ (tableNextDashRed.player tableNextDashRed.getOppo).strongColor) ∧
      ((tableNextDashRed.player tableNextDashRed.getPrev).getHandSize = 1 →
        Color.GREEN ≠ (tableNextDashRed.player tableNextDashRed.getPrev).strongColor)) :=
  ⟨by decide, by decide,
    (hard_wild_color_safe tableNextDashRed none (by decide)).1 [0, 4, 6] 1 Color.GREEN
      (by decide) 1 (by decide) (by decide)⟩

theorem hardNextDash_numLeaf (u : Uno) (drawnCard : Option CardPtr) (v : HardLocals)
    (h : HardInv u drawnCard v.hand v.st) (safeColor : Color)
    (hs : safeColor ≠ Color.NONE ∧ AvoidsStrong v safeColor) :
    NumLeaf u v (hardNextDash u v safeColor) := by
  obtain ⟨h1, h2, h3, h4, h5, h6⟩ := h
  unfold hardNextDash
  refine numLeaf_of_guard (fun _ => ?_) (fun _ => numLeaf_of_guard (fun _ => ?_) (fun c2 => ?_))
  · repeat' first
      | refine numLeaf_of_guard (fun _ => ?_) (fun _ => ?_)
      | exact numLeaf_neg_one _ _ _
      | exact numLeaf_of_color _ (h1 _) hs.2
      | exact numLeaf_of_color _ (h1 _) (avoids_of_guard3 (by assumption))
      | exact numLeaf_of_slot _ h2 (fun _ hx => not_isNumber_of_eq hx (by decide))
      | exact numLeaf_of_slot _ h3 (fun _ hx => not_isNumber_of_eq hx (by decide))
      | exact numLeaf_of_slot _ h5 (fun _ hx => not_isNumber_of_eq hx (by decide))
      | exact numLeaf_of_slot _ h6 (fun _ hx => not_isNumber_of_eq hx (by decide))
  · repeat' first
      | refine numLeaf_of_guard (fun _ => ?_) (fun _ => ?_)
      | exact numLeaf_neg_one _ _ _
      | exact numLeaf_of_color _ (h1 _) hs.2
      | exact numLeaf_of_color _ (h1 _) (avoids_of_guard3 (by assumption))
      | exact numLeaf_of_slot _ h2 (fun _ hx => not_isNumber_of_eq hx (by decide))
      | exact numLeaf_of_slot _ h3 (fun _ hx => not_isNumber_of_eq hx (by decide))
  · have hnone : v.nextStrongColor = Color.NONE := not_not.mp c2
    repeat' first
      | refine numLeaf_of_guard (fun _ => ?_) (fun _ => ?_)
      | exact numLeaf_neg_one _ _ _
      | exact numLeaf_of_color _ (h1 _) hs.2
      | exact numLeaf_of_color _ (h1 _) (avoids_of_guard2 hnone (by decide) (by assumption))
      | exact numLeaf_of_slot _ h2 (fun _ hx => not_isNumber_of_eq hx (by decide))
      | exact numLeaf_of_slot _ h3 (fun _ hx => not_isNumber_of_eq hx (by decide))
      | exact numLeaf_of_slot _ h5 (fun _ hx => not_isNumber_of_eq hx (by decide))
      | exact numLeaf_of_slot _ h6 (fun _ hx => not_isNumber_of_eq hx (by decide))

/-- C24: in the hard strategy, on a hand of at least two cards, when the next player
holds exactly one card, whenever the strategy returns an index that denotes a number
card, the colour of that card differs from the strong colour of the next player, and
from the strong colour of the opposite (previous) player when that player also holds
exactly one card; and on a non-empty recent-played list there are results of `rand()` on
which it returns. -/
theorem hard_number_avoids_strong (u : Uno) (drawnCard : Option CardPtr)
    (hsize : 2 ≤ (u.player u.now).handCards.length)
    (hnext : (u.player u.getNext).getHandSize = 1) :
    (∀ rands i c, hardAI_bestCardIndex4NowPlayer u drawnCard rands = some (i, c) →
      ∀ p, handAt (u.player u.now).handCards i = some p →
        (u.card p).content.isNumber = true →
        (u.card p).color ≠ (u.player u.getNext).strongColor ∧
        ((u.player u.getOppo).getHandSize = 1 →
          (u.card p).color ≠ (u.player u.getOppo).strongColor) ∧
        ((u.player u.getPrev).getHandSize = 1 →
          (u.card p).color ≠ (u.player u.getPrev).strongColor)) ∧
    (u.recent ≠ [] →
      ∃ rands i c, hardAI_bestCardIndex4NowPlayer u drawnCard rands = some (i, c)) := by
  have hne : (u.player u.now).handCards.length ≠ 1 := by omega
  constructor
  · intro rands i c h p hp hnum
    cases hl : u.recent.getLast? with
    | none =>
      rw [hardAI_none_of_no_recent u drawnCard rands hne hl] at h
      cases h
    | some last =>
      rw [hardAI_eq u drawnCard rands hne last hl] at h
      have inv := hardLocals_inv u drawnCard last
      have hn2 : (hardLocals u drawnCard last).nextSize = 1 := hnext
      have key : NumLeaf u (hardLocals u drawnCard last) (i, c) := by
        unfold hardDecision at h
        rw [if_pos hn2] at h
        by_cases cd : (hardLocals u drawnCard last).st.hasDraw2 = true
        · rw [if_pos cd] at h
          cases h
          exact numLeaf_of_slot _ inv.2.2.2.1 (fun _ hx => not_isNumber_of_eq hx (by decide))
        · rw [if_neg cd] at h
          split at h
          · cases h
          · rename_i sc hsc
            obtain ⟨e1, e2⟩ := randomColorLoop_result _ rands _ sc hsc
            have e3 : sc ≠ Color.NONE := by
              rcases e2 with e2 | e2
              · rw [e2]
                exact initialSafeColor_ne_none _ _ _ (calcBestColor_ne_none u)
              · exact e2
            rw [← Option.some.inj h]
            exact hardNextDash_numLeaf u drawnCard _ inv sc ⟨e3, avoids_of_nextLoop e1⟩
      obtain ⟨k1, k2, k3⟩ := key p hp hnum
      exact ⟨k1 hn2, k2, k3⟩
  · intro hrecent
    obtain ⟨last, hlast⟩ := getLast?_of_ne_nil u.recent hrecent
    obtain ⟨rands, r, hr⟩ := hardDecision_returns u (hardLocals u drawnCard last)
    exact ⟨rands, r.1, r.2, by rw [hardAI_eq u drawnCard rands hne last hlast, hr]⟩

/-- Witness of C24: `[BLUE NUM5, RED NUM3, WILD]` on RED NUM5, the next player holding
one card with RED as strong colour; `rand()` yields BLUE and the BLUE NUM5 at index 0 is
played, not the RED NUM3. -/
theorem hard_number_avoids_strong_witness :
    hardAI_bestCardIndex4NowPlayer tableNumberNextDash none [1] = some (0, Color.RED) ∧
    (tableNumberNextDash.player tableNumberNextDash.getNext).strongColor = Color.RED ∧
    ((tableNumberNextDash.card 2).color ≠
        (tableNumberNextDash.player tableNumberNextDash.getNext).strongColor ∧
      ((tableNumberNextDash.player tableNumberNextDash.getOppo).getHandSize = 1 →
        (tableNumberNextDash.card 2).color ≠
          (tableNumberNextDash.player tableNumberNextDash.getOppo).strongColor) ∧
      ((tableNumberNextDash.player tableNumberNextDash.getPrev).getHandSize = 1 →
        (tableNumberNextDash.card 2).color ≠
          (tableNumberNextDash.player tableNumberNextDash.getPrev).strongColor)) :=
  ⟨by decide, by decide,
    (hard_number_avoids_strong tableNumberNextDash none (by decide) (by decide)).1 [1] 0
      Color.RED (by decide) 2 (by decide) (by decide)⟩

theorem hardScan_wild_iff (u : Uno) (bestColor : Color) (hand : List CardPtr) :
    ((hardScanLoop u none bestColor hand 0 HardScan.init).hasWild = true ↔
      ∃ q ∈ hand, (u.card q).content = Content.WILD) ∧
    ((hardScanLoop u none bestColor hand 0 HardScan.init).hasWD4 = true ↔
      ∃ q ∈ hand, (u.card q).content = Content.WILD_DRAW4) := by
  obtain ⟨_, _, _, _, h5, h6⟩ := hardScan_inv u none bestColor hand
  have fl : ∀ q ∈ hand, (u.card q).isWild = true →
      hardFlag (hardScanLoop u none bestColor hand 0 HardScan.init) (u.card q) = true := by
    intro q hq hw
    refine hardScanLoop_flag u none bestColor hand 0 HardScan.init (u.card q)
      (Or.inr ⟨q, hq, ?_, rfl⟩)
    simp [legalNow, Uno.isLegalToPlay, hw]
  constructor
  · constructor
    · intro h
      obtain ⟨q, hq, _, hk⟩ := h5.hasPlayable h
      exact ⟨q, hq, hk⟩
    · rintro ⟨q, hq, hk⟩
      have := fl q hq (isWild_of_content_wild hk)
      unfold hardFlag at this
      rw [hk] at this
      exact this
  · constructor
    · intro h
      obtain ⟨q, hq, _, hk⟩ := h6.hasPlayable h
      exact ⟨q, hq, hk⟩
    · rintro ⟨q, hq, hk⟩
      have := fl q hq (isWild_of_content_wd4 hk)
      unfold hardFlag at this
      rw [hk] at this
      exact this

/-- C26: in the hard strategy with no drawn card passed, on a hand of at least two cards
that are all wild, when no opponent holds exactly one card, every result returned has a
non-negative index that denotes a card of the hand, a WILD_DRAW4 if the hand holds one
and the next player holds at most four cards, a WILD if the hand holds one and the next
player holds more than four cards; the out-colour is the weak colour of the previous
player if set, else that of the opposite player if set, else that of the next player if
set, else a real colour different from the strong colours of all three opponents; and
there are results of `rand()` on which the strategy returns. -/
theorem hard_all_wild (u : Uno) (hrecent : u.recent ≠ [])
    (hsize : 2 ≤ (u.player u.now).handCards.length)
    (hall : ∀ q ∈ (u.player u.now).handCards, (u.card q).isWild = true)
    (hn : (u.player u.getNext).getHandSize ≠ 1) (ho : (u.player u.getOppo).getHandSize ≠ 1)
    (hp : (u.player u.getPrev).getHandSize ≠ 1) :
    (∀ rands i c, hardAI_bestCardIndex4NowPlayer u none rands = some (i, c) →
      (0 ≤ i ∧ ∃ p, handAt (u.player u.now).handCards i = some p ∧
        ((u.player u.getNext).getHandSize ≤ 4 →
          (∃ q ∈ (u.player u.now).handCards, (u.card q).content = Content.WILD_DRAW4) →
          (u.card p).content = Content.WILD_DRAW4) ∧
        (¬ (u.player u.getNext).getHandSize ≤ 4 →
          (∃ q ∈ (u.player u.now).handCards, (u.card q).content = Content.WILD) →
          (u.card p).content = Content.WILD)) ∧
      ((u.player u.getPrev).weakColor ≠ Color.NONE → c = (u.player u.getPrev).weakColor) ∧
      ((u.player u.getPrev).weakColor = Color.NONE →
        (u.player u.getOppo).weakColor ≠ Color.NONE → c = (u.player u.getOppo).weakColor) ∧
      ((u.player u.getPrev).weakColor = Color.NONE →
        (u.player u.getOppo).weakColor = Color.NONE →
        (u.player u.getNext).weakColor ≠ Color.NONE → c = (u.player u.getNext).weakColor) ∧
      ((u.player u.getPrev).weakColor = Color.NONE →
        (u.player u.getOppo).weakColor = Color.NONE →
        (u.player u.getNext).weakColor = Color.NONE →
        c ∈ [Color.RED, Color.BLUE, Color.GREEN, Color.YELLOW] ∧
        c ≠ (u.player u.getPrev).strongColor ∧ c ≠ (u.player u.getOppo).strongColor ∧
        c ≠ (u.player u.getNext).strongColor)) ∧
    (∃ rands i c, hardAI_bestCardIndex4NowPlayer u none rands = some (i, c)) := by
  obtain ⟨last, hlast⟩ := getLast?_of_ne_nil u.recent hrecent
  have hne : (u.player u.now).handCards.length ≠ 1 := by omega
  constructor
  · intro rands i c h
    rw [hardAI_eq u none rands hne last hlast] at h
    obtain ⟨_, _, _, _, h5, h6⟩ := hardLocals_inv u none last
    obtain ⟨fw, fd⟩ := hardScan_wild_iff u (calcBestColor4NowPlayer u)
      (u.player u.now).handCards
    have fw2 : (hardLocals u none last).st.hasWild = true ↔
      ∃ q ∈ (u.player u.now).handCards, (u.card q).content = Content.WILD := fw
    have fd2 : (hardLocals u none last).st.hasWD4 = true ↔
      ∃ q ∈ (u.player u.now).handCards, (u.card q).content = Content.WILD_DRAW4 := fd
    have hn2 : (hardLocals u none last).nextSize ≠ 1 := hn
    have hp2 : (hardLocals u none last).prevSize ≠ 1 := hp
    have ho2 : (hardLocals u none last).oppoSize ≠ 1 := ho
    have haw : (hardLocals u none last).st.allWild = true := by
      show (hardScanLoop u none (calcBestColor4NowPlayer u) (u.player u.now).handCards 0
        HardScan.init).allWild = true
      rw [hardScanLoop_allWild, List.all_eq_true.mpr (fun q hq => hall q hq)]
      rfl
    -- one of the two wild flags is set
    have hsome : (hardLocals u none last).st.hasWild = true ∨
        (hardLocals u none last).st.hasWD4 = true := by
      obtain ⟨q, hq⟩ : ∃ q, q ∈ (u.player u.now).handCards :=
        List.exists_mem_of_length_pos (by omega)
      have hw := hall q hq
      unfold Card.isWild at hw
      simp only [Bool.or_eq_true, beq_iff_eq] at hw
      rcases hw with hw | hw
      · exact Or.inl (fw2.mpr ⟨q, hq, hw⟩)
      · exact Or.inr (fd2.mpr ⟨q, hq, hw⟩)
    unfold hardDecision at h
    rw [if_neg hn2, if_neg hp2, if_neg ho2, if_pos haw] at h
    split at h
    · cases h
    · rename_i bc hbc
      have e := Option.some.inj h
      have ei : hardAllWildIndex (hardLocals u none last) = i := congrArg Prod.fst e
      have ec : bc = c := congrArg Prod.snd e
      subst ec
      refine ⟨?_, ?_⟩
      · rw [← ei]
        unfold hardAllWildIndex
        by_cases c4 : (hardLocals u none last).nextSize ≤ 4
        · rw [if_pos c4]
          by_cases cd : (hardLocals u none last).st.hasWD4 = true
          · rw [if_pos cd]
            obtain ⟨p, hp1, _, hk⟩ := h6.denotesPlayable cd
            exact ⟨h6.nonneg cd, p, hp1, fun _ _ => hk, fun hc => absurd c4 hc⟩
          · rw [if_neg cd]
            have cw := hsome.resolve_right cd
            obtain ⟨p, hp1, _, _⟩ := h5.denotesPlayable cw
            exact ⟨h5.nonneg cw, p, hp1, fun _ hx => absurd (fd2.mpr hx) cd,
              fun hc => absurd c4 hc⟩
        · rw [if_neg c4]
          by_cases cw : (hardLocals u none last).st.hasWild = true
          · rw [if_pos cw]
            obtain ⟨p, hp1, _, hk⟩ := h5.denotesPlayable cw
            exact ⟨h5.nonneg cw, p, hp1, fun hc => absurd hc c4, fun _ _ => hk⟩
          · rw [if_neg cw]
            have cd := hsome.resolve_left cw
            obtain ⟨p, hp1, _, _⟩ := h6.denotesPlayable cd
            exact ⟨h6.nonneg cd, p, hp1, fun hc => absurd hc c4,
              fun _ hx => absurd (fw2.mpr hx) cw⟩
      · unfold hardAllWildColor at hbc
        have w1 : (hardLocals u none last).prevWeakColor = (u.player u.getPrev).weakColor := rfl
        have w2 : (hardLocals u none last).oppoWeakColor = (u.player u.getOppo).weakColor := rfl
        have w3 : (hardLocals u none last).nextWeakColor = (u.player u.getNext).weakColor := rfl
        rw [w1, w2, w3] at hbc
        by_cases d1 : (u.player u.getPrev).weakColor ≠ Color.NONE
        · rw [if_pos d1] at hbc
          have e1 := (Option.some.inj hbc).symm
          exact ⟨fun _ => e1, fun x => absurd x d1, fun x => absurd x d1,
            fun x => absurd x d1⟩
        · rw [if_neg d1] at hbc
          by_cases d2 : (u.player u.getOppo).weakColor ≠ Color.NONE
          · rw [if_pos d2] at hbc
            have e1 := (Option.some.inj hbc).symm
            exact ⟨fun x => absurd x d1, fun _ _ => e1, fun _ x => absurd x d2,
              fun _ x => absurd x d2⟩
          · rw [if_neg d2] at hbc
            by_cases d3 : (u.player u.getNext).weakColor ≠ Color.NONE
            · rw [if_pos d3] at hbc
              have e1 := (Option.some.inj hbc).symm
              exact ⟨fun x => absurd x d1, fun _ x => absurd x d2, fun _ _ _ => e1,
                fun _ _ x => absurd x d3⟩
            · rw [if_neg d3] at hbc
              obtain ⟨e1, e2⟩ := randomColorLoop_result _ rands _ bc hbc
              have e3 : bc ≠ Color.NONE := by
                rcases e2 with e2 | e2
                · rw [e2]; exact calcBestColor_ne_none u
                · exact e2
              unfold allWildLoopCond at e1
              simp only [Bool.or_eq_false_iff, beq_eq_false_iff_ne, ne_eq] at e1
              refine ⟨fun x => absurd x d1, fun _ x => absurd x d2, fun _ _ x => absurd x d3,
                fun _ _ _ => ⟨?_, e1.1.1, e1.1.2, e1.2⟩⟩
              cases bc <;> first | exact absurd rfl e3 | decide
  · obtain ⟨rands, r, hr⟩ := hardDecision_returns u (hardLocals u none last)
    exact ⟨rands, r.1, r.2, by rw [hardAI_eq u none rands hne last hlast, hr]⟩

/-- Witness of C26: `[WILD, WILD_DRAW4]` on RED NUM3, every opponent holding three cards
and showing no colour; the WILD_DRAW4 at index 1 is played with RED, the best colour,
declared. -/
theorem hard_all_wild_witness :
    hardAI_bestCardIndex4NowPlayer tableAllWild none [] = some (1, Color.RED) ∧
    (tableAllWild.card 7).content = Content.WILD_DRAW4 ∧
    ((0 : Int) ≤ 1 ∧ ∃ p, handAt (tableAllWild.player tableAllWild.now).handCards 1 = some p ∧
      ((tableAllWild.player tableAllWild.getNext).getHandSize ≤ 4 →
        (∃ q ∈ (tableAllWild.player tableAllWild.now).handCards,
          (tableAllWild.card q).content = Content.WILD_DRAW4) →
        (tableAllWild.card p).content = Content.WILD_DRAW4) ∧
      (¬ (tableAllWild.player tableAllWild.getNext).getHandSize ≤ 4 →
        (∃ q ∈ (tableAllWild.player tableAllWild.now).handCards,
          (tableAllWild.card q).content = Content.WILD) →
        (tableAllWild.card p).content = Content.WILD)) :=
  ⟨by decide, by decide,
    ((hard_all_wild tableAllWild (by decide) (by decide) (by decide) (by decide) (by decide)
      (by decide)).1 [] 1 Color.RED (by decide)).1⟩

theorem insertAt_perm (l : List CardPtr) (n : Nat) (x : CardPtr) :
    (insertAt l n x).Perm (x :: l) := by
  unfold insertAt
  have h : (l.take (n % (l.length + 1)) ++ x :: l.drop (n % (l.length + 1))).Perm
      (x :: (l.take (n % (l.length + 1)) ++ l.drop (n % (l.length + 1)))) :=
    List.perm_middle
  rw [List.take_append_drop] at h
  exact h

theorem shuffleWith_perm (rs : List Nat) (l : List CardPtr) : (shuffleWith rs l).Perm l := by
  induction l generalizing rs with
  | nil => simp [shuffleWith]
  | cons x xs ih =>
    unfold shuffleWith
    exact (insertAt_perm _ _ _).trans ((ih rs.tail).cons x)

theorem insertSorted_perm (card : CardPtr → Card) (l : List CardPtr) (x : CardPtr) :
    (insertSorted card l x).Perm (x :: l) := by
  induction l with
  | nil => simp [insertSorted]
  | cons y ys ih =>
    unfold insertSorted
    split_ifs
    · exact List.Perm.refl _
    · exact (ih.cons y).trans (List.Perm.swap x y ys)

theorem eraseIdx_perm (l : List CardPtr) (i : Nat) (p : CardPtr) (h : l[i]? = some p) :
    l.Perm (p :: l.eraseIdx i) := by
  induction l generalizing i with
  | nil => simp at h
  | cons y ys ih =>
    cases i with
    | zero =>
      simp only [List.getElem?_cons_zero, Option.some.injEq] at h
      subst h
      simp
    | succ j =>
      simp only [List.getElem?_cons_succ] at h
      simp only [List.eraseIdx_cons_succ]
      exact ((ih j h).cons y).trans (List.Perm.swap p y _)

theorem dropLast_append_getLast? (l : List CardPtr) :
    l.dropLast ++ l.getLast?.toList = l := by
  rcases List.eq_nil_or_concat l with rfl | ⟨l1, b, rfl⟩
  · rfl
  · simp

theorem handAt_some {hand : List CardPtr} {i : Int} {p : CardPtr}
    (h : handAt hand i = some p) : 0 ≤ i ∧ hand[i.toNat]? = some p := by
  unfold handAt at h
  split_ifs at h with h0
  exact ⟨h0, h⟩

theorem recycle_cards (u : Uno) (rs : List Nat) (hd : u.deck = []) :
    (u.recycle rs).cards.Perm u.cards := by
  rw [List.perm_iff_count]
  intro a
  have h1 := (shuffleWith_perm rs (u.used ++ u.recent.dropLast)).count_eq a
  have h2 := congrArg (List.count a) (dropLast_append_getLast? u.recent)
  simp only [Uno.cards, Uno.recycle, hd, List.count_append, List.count_nil] at h1 h2 ⊢
  omega

theorem setPlayer_cards (u : Uno) (who : Nat) (hw : who < 4) (p : Player) (a : CardPtr) :
    (u.setPlayer who p).cards.count a + (u.player who).handCards.count a =
      u.cards.count a + p.handCards.count a := by
  have e : who = 0 ∨ who = 1 ∨ who = 2 ∨ who = 3 := by omega
  rcases e with rfl | rfl | rfl | rfl <;>
    simp [Uno.cards, Uno.setPlayer, List.count_append] <;> omega

theorem deal_cards (u : Uno) (who : Nat) (hw : who < 4) : (u.deal who).cards.Perm u.cards := by
  unfold Uno.deal
  cases hd : u.deck with
  | nil => exact List.Perm.refl _
  | cons p rest =>
    rw [List.perm_iff_count]
    intro a
    have h1 := (insertSorted_perm u.card (u.player who).handCards p).count_eq a
    have h2 := setPlayer_cards { u with deck := rest } who hw
      { u.player who with handCards := insertSorted u.card (u.player who).handCards p } a
    simp only [Uno.cards, hd, List.count_append, List.count_cons] at h1 h2 ⊢
    omega

theorem dealRound_cards (u : Uno) : u.dealRound.cards.Perm u.cards := by
  unfold Uno.dealRound
  exact (deal_cards _ 3 (by decide)).trans ((deal_cards _ 2 (by decide)).trans
    ((deal_cards _ 1 (by decide)).trans (deal_cards _ 0 (by decide))))

theorem iterate_dealRound_cards (n : Nat) (u : Uno) :
    (Nat.iterate Uno.dealRound n u).cards.Perm u.cards := by
  induction n generalizing u with
  | zero => exact List.Perm.refl _
  | succ k ih =>
    rw [Function.iterate_succ_apply]
    exact (ih _).trans (dealRound_cards u)

theorem startCardLoop_cards (pos : List Nat) (u u2 : Uno) (h : startCardLoop u pos = some u2)
    (hr : u.recent = []) : u2.cards.Perm u.cards := by
  induction pos generalizing u with
  | nil =>
    unfold startCardLoop at h
    cases hd : u.deck with
    | nil => rw [hd] at h; cases h
    | cons p rest =>
      rw [hd] at h
      simp only at h
      split_ifs at h
      cases h
      rw [List.perm_iff_count]
      intro a
      simp only [Uno.cards, hd, hr, List.count_append, List.count_cons, List.count_nil]
      omega
  | cons r rs ih =>
    unfold startCardLoop at h
    cases hd : u.deck with
    | nil => rw [hd] at h; cases h
    | cons p rest =>
      rw [hd] at h
      simp only at h
      split_ifs at h
      · refine (ih _ h hr).trans ?_
        rw [List.perm_iff_count]
        intro a
        have h1 := (insertAt_perm rest r p).count_eq a
        simp only [Uno.cards, hd, List.count_append, List.count_cons] at h1 ⊢
        omega
      · cases h
        rw [List.perm_iff_count]
        intro a
        simp only [Uno.cards, hd, hr, List.count_append, List.count_cons, List.count_nil]
        omega

theorem deal_recent (u : Uno) (who : Nat) : (u.deal who).recent = u.recent := by
  unfold Uno.deal
  cases u.deck <;> rfl

theorem iterate_dealRound_recent (n : Nat) (u : Uno) :
    (Nat.iterate Uno.dealRound n u).recent = u.recent := by
  induction n generalizing u with
  | zero => rfl
  | succ k ih =>
    rw [Function.iterate_succ_apply, ih]
    simp only [Uno.dealRound, deal_recent]

theorem start_cards (u0 u : Uno) (rs pos : List Nat) (h : u0.start rs pos = some u) :
    u.cards.Perm (List.range 108) := by
  unfold Uno.start at h
  refine (startCardLoop_cards pos _ u h ?_).trans ((iterate_dealRound_cards 7 _).trans ?_)
  · rw [iterate_dealRound_recent]
  · simp only [Uno.cards, List.append_nil]
    exact shuffleWith_perm rs _

theorem draw_cards (u : Uno) (rs : List Nat) (who : Nat) :
    (u.draw rs who).1.cards.Perm u.cards := by
  unfold Uno.draw
  by_cases hw : who < 4
  · rw [if_pos hw]
    by_cases hf : (u.player who).getHandSize = MAX_HOLD_CARDS
    · rw [if_pos hf]
    · rw [if_neg hf]
      have h1 : (if u.deck = [] then u.recycle rs else u).cards.Perm u.cards := by
        split_ifs with hd
        · exact recycle_cards u rs hd
        · exact List.Perm.refl _
      generalize (if u.deck = [] then u.recycle rs else u) = u1 at h1
      simp only
      cases hd : u1.deck with
      | nil => exact h1
      | cons p rest =>
        simp only
        refine List.Perm.trans ?_ h1
        rw [List.perm_iff_count]
        intro a
        have h2 := (insertSorted_perm u1.card (u1.player who).handCards p).count_eq a
        have h3 := setPlayer_cards { u1 with deck := rest } who hw
          { u1.player who with
            handCards := insertSorted u1.card (u1.player who).handCards p,
            recent := none,
            weakColor := u1.topColor } a
        simp only [Uno.cards, hd, List.count_append, List.count_cons] at h2 h3 ⊢
        omega
  · rw [if_neg hw]

theorem play_cards (u : Uno) (who : Nat) (index : Int) (color : Color) :
    (u.play who index color).1.cards.Perm u.cards := by
  unfold Uno.play
  by_cases hw : who < 4
  · rw [if_pos hw]
    cases hp : handAt (u.player who).handCards index with
    | none => exact List.Perm.refl _
    | some p =>
      simp only
      rw [List.perm_iff_count]
      intro a
      have h2 := (eraseIdx_perm _ _ p (handAt_some hp).2).count_eq a
      have h3 := setPlayer_cards
        { u with
          card := fun q =>
            if q = p then
              { u.card p with color := if (u.card p).isWild then color else (u.card p).color }
            else u.card q,
          recent := u.recent ++ [p] } who hw
        { handCards := (u.player who).handCards.eraseIdx index.toNat,
          recent := some p,
          strongColor :=
            if (u.card p).isWild then color
            else if (u.player who).strongColor =
                (if (u.card p).isWild then color else (u.card p).color) then Color.NONE
              else (u.player who).strongColor,
          weakColor :=
            if (u.player who).weakColor =
                (if (u.card p).isWild then color else (u.card p).color) then Color.NONE
            else (u.player who).weakColor } a
      simp only [Uno.cards, List.count_append, List.count_cons, List.count_nil] at h2 h3 ⊢
      omega
  · rw [if_neg hw]

theorem reachable_cards (u : Uno) (h : Reachable u) : u.cards.Perm (List.range 108) := by
  induction h with
  | start u0 rs pos u h => exact start_cards u0 u rs pos h
  | call u c _ ih =>
    cases c with
    | draw rs who => exact (draw_cards u rs who).trans ih
    | play who index color => exact (play_cards u who index color).trans ih

theorem reachable_run (u : Uno) (calls : List Call) (h : Reachable u) :
    Reachable (u.run calls) := by
  induction calls generalizing u with
  | nil => exact h
  | cons c cs ih => exact ih _ (Reachable.call u c h)

set_option maxRecDepth 100000 in
theorem start_returns : ∃ u, blankUno.start [] [] = some u := by
  have h : (blankUno.start [] []).isSome = true := by decide
  exact Option.isSome_iff_exists.mp h

theorem stateStarted_reachable : Reachable stateStarted := by
  obtain ⟨u, hu⟩ := start_returns
  have e : stateStarted = u := by
    unfold stateStarted
    rw [hu]
  rw [e]
  exact Reachable.start blankUno [] [] u hu

theorem stateAtLimit_reachable : Reachable stateAtLimit :=
  reachable_run stateStarted _ stateStarted_reachable

/-- C22: in every state reachable from `start()` by `draw` and `play` calls, the draw
pile, the used pile, the four hands and the recent-played list together are a
permutation of the 108 cards of the table, so each card occurs exactly once; and a draw
by a seat whose hand holds `MAX_HOLD_CARDS` cards returns no card and changes nothing. -/
theorem cards_conserved (u : Uno) (h : Reachable u) :
    u.cards.Perm (List.range 108) ∧
    (∀ p, p < 108 → u.cards.count p = 1) ∧
    ∀ rs who, who < 4 → (u.player who).getHandSize = MAX_HOLD_CARDS →
      u.draw rs who = (u, DrawResult.noCard) := by
  have hp := reachable_cards u h
  refine ⟨hp, fun p hlt => ?_, fun rs who hw hfull => ?_⟩
  · rw [hp.count_eq, List.count_eq_one_of_mem (List.nodup_range 108) (List.mem_range.mpr hlt)]
  · unfold Uno.draw
    rw [if_pos hw, if_pos hfull]

set_option maxRecDepth 100000 in
/-- Witness of C22: after an unshuffled start and seven draws seat 0 holds
`MAX_HOLD_CARDS` cards and the draw pile 72; the 108 cards are all there, and a further
draw by seat 0 returns no card and leaves the state as it is. -/
theorem cards_conserved_witness :
    (stateStarted.player 0).handCards = [0, 4, 8, 12, 16, 20, 24] ∧
    stateStarted.deck.length = 79 ∧ stateStarted.recent = [28] ∧
    (stateAtLimit.player 0).getHandSize = MAX_HOLD_CARDS ∧
    stateAtLimit.deck.length = 72 ∧
    stateAtLimit.cards.Perm (List.range 108) ∧
    stateAtLimit.draw [] 0 = (stateAtLimit, DrawResult.noCard) :=
  ⟨by decide, by decide, by decide, by decide, by decide,
    (cards_conserved stateAtLimit stateAtLimit_reachable).1,
    (cards_conserved stateAtLimit stateAtLimit_reachable).2.2 [] 0 (by decide) (by decide)⟩

/-- C21: `Uno::isLegalToPlay(card)` on a discard whose top is `top` is true exactly when
the card is wild, or its colour equals the colour of `top`, or its content equals the
content of `top`; and once seat `who` has played a wild card `w` with a declared colour,
`w` is the top of the discard, its colour is the declared colour, and a card is legal
exactly when it is wild, or of the declared colour, or of the content of `w`. -/
theorem isLegalToPlay_spec (u : Uno) (top : CardPtr) (h : u.recent.getLast? = some top) :
    (∀ p, u.isLegalToPlay p = true ↔
      ((u.card p).isWild = true ∨ (u.card p).color = (u.card top).color ∨
        (u.card p).content = (u.card top).content)) ∧
    (∀ who index color w, who < 4 → handAt (u.player who).handCards index = some w →
      (u.card w).isWild = true →
      (u.play who index color).1.recent.getLast? = some w ∧
      ((u.play who index color).1.card w).color = color ∧
      ∀ p, (u.play who index color).1.isLegalToPlay p = true ↔
        (((u.play who index color).1.card p).isWild = true ∨
          ((u.play who index color).1.card p).color = color ∨
          ((u.play who index color).1.card p).content = (u.card w).content)) := by
  constructor
  · intro p
    unfold Uno.isLegalToPlay
    rw [h]
    simp only [Bool.or_eq_true, beq_iff_eq]
  · intro who index color w hw hp hwild
    have e : (u.play who index color).1 =
        { u with
          card := fun q =>
            if q = w then
              { u.card w with color := if (u.card w).isWild then color else (u.card w).color }
            else u.card q,
          recent := u.recent ++ [w] }.setPlayer who
          { handCards := (u.player who).handCards.eraseIdx index.toNat,
            recent := some w,
            strongColor :=
              if (u.card w).isWild then color
              else if (u.player who).strongColor =
                  (if (u.card w).isWild then color else (u.card w).color) then Color.NONE
                else (u.player who).strongColor,
            weakColor :=
              if (u.player who).weakColor =
                  (if (u.card w).isWild then color else (u.card w).color) then Color.NONE
              else (u.player who).weakColor } := by
      unfold Uno.play
      rw [if_pos hw, hp]
    rw [e]
    refine ⟨by simp [Uno.setPlayer], by simp [Uno.setPlayer, hwild], fun p => ?_⟩
    unfold Uno.isLegalToPlay
    simp [Uno.setPlayer, hwild]

/-- Witness of C21: on BLUE NUM5 the RED NUM5 is legal by its content; after seat 0 has
played its WILD with GREEN declared, a GREEN NUM1 is legal and the RED NUM5 is not. -/
theorem isLegalToPlay_spec_witness :
    tableNumberOrWild.recent.getLast? = some 2 ∧
    tableNumberOrWild.isLegalToPlay 0 = true ∧
    (tableNumberOrWild.play 0 1 Color.GREEN).1.isLegalToPlay 5 = true ∧
    (tableNumberOrWild.play 0 1 Color.GREEN).1.isLegalToPlay 0 = false ∧
    (tableNumberOrWild.isLegalToPlay 0 = true ↔
      ((tableNumberOrWild.card 0).isWild = true ∨
        (tableNumberOrWild.card 0).color = (tableNumberOrWild.card 2).color ∨
        (tableNumberOrWild.card 0).content = (tableNumberOrWild.card 2).content)) :=
  ⟨by decide, by decide, by decide, by decide,
    (isLegalToPlay_spec tableNumberOrWild 2 (by decide)).1 0⟩

theorem recycle_direction (u : Uno) (rs : List Nat) : (u.recycle rs).direction = u.direction :=
  rfl

theorem draw_direction (u : Uno) (rs : List Nat) (who : Nat) :
    (u.draw rs who).1.direction = u.direction := by
  unfold Uno.draw
  by_cases hw : who < 4
  · rw [if_pos hw]
    by_cases hf : (u.player who).getHandSize = MAX_HOLD_CARDS
    · rw [if_pos hf]
    · rw [if_neg hf]
      have h1 : (if u.deck = [] then u.recycle rs else u).direction = u.direction := by
        split_ifs <;> rfl
      generalize (if u.deck = [] then u.recycle rs else u) = u1 at h1
      simp only
      cases u1.deck with
      | nil => exact h1
      | cons p rest => exact h1
  · rw [if_neg hw]

theorem drawLoop_direction (who : Nat) (rs : Nat → List Nat) (n i : Nat) (g : Game) :
    (Game.drawLoop who rs n i g).uno.direction = g.uno.direction := by
  induction n generalizing i g with
  | zero => rfl
  | succ k ih =>
    unfold Game.drawLoop
    have hd := draw_direction g.uno (rs i) who
    rcases hr : g.uno.draw (rs i) who with ⟨u, r⟩
    rw [hr] at hd
    cases r with
    | drawn p =>
      simp only
      rw [ih]
      exact hd
    | noCard => exact hd
    | exhausted => exact hd
    | invalidSeat => exact hd

theorem draw_two_status (g : Game) (rs : Nat → List Nat) (who : Nat) (hw : who < 4) :
    (g.draw rs who 2).sStatus = (who + g.uno.direction) % 4 := by
  have hd := drawLoop_direction who rs 2 0 { g with sStatus := STAT_IDLE }
  have hpass : ∀ g1 : Game, g1.uno.direction = g.uno.direction →
      (g1.pass who).sStatus = (who + g.uno.direction) % 4 := by
    intro g1 h1
    unfold Game.pass
    rw [if_pos hw, h1]
  unfold Game.draw
  simp only
  split
  · rw [if_neg (by omega)]
    exact hpass _ hd
  · exact hpass _ hd

theorem play_some (u : Uno) (who : Nat) (index : Int) (color : Color) (p : CardPtr)
    (hw : who < 4) (hp : handAt (u.player who).handCards index = some p) :
    (u.play who index color).2 = some p ∧
    (u.play who index color).1.direction = u.direction ∧
    ((u.play who index color).1.card p).content = (u.card p).content := by
  unfold Uno.play
  rw [if_pos hw, hp]
  simp [Uno.setPlayer]

/-- C30: in `play` of main.cpp, when the seat `now` in turn plays a SKIP or a DRAW2 and
still holds a card afterwards, the status handed to `onStatusChanged` is the opposite
seat `(now + 2) % 4`, for both directions and whatever the number of cards the next seat
can still draw. -/
theorem skip_draw2_next_is_opposite (g : Game) (rs : Nat → List Nat) (index : Int)
    (color : Color) (p : CardPtr) (hnow : g.sStatus < 4)
    (hdir : g.uno.direction = DIR_LEFT ∨ g.uno.direction = DIR_RIGHT)
    (hp : handAt (g.uno.player g.sStatus).handCards index = some p)
    (hkind : (g.uno.card p).content = Content.SKIP ∨ (g.uno.card p).content = Content.DRAW2)
    (hleft : ((g.uno.play g.sStatus index color).1.player g.sStatus).handCards.length ≠ 0) :
    (g.play rs index color).sStatus = (g.sStatus + 2) % 4 := by
  obtain ⟨e1, e2, e3⟩ := play_some g.uno g.sStatus index color p hnow hp
  have hmod : ((g.sStatus + g.uno.direction) % 4 + g.uno.direction) % 4 =
      (g.sStatus + 2) % 4 := by
    rcases hdir with h | h <;> rw [h] <;> simp only [DIR_LEFT, DIR_RIGHT] <;> omega
  unfold Game.play
  rcases hr : g.uno.play g.sStatus index color with ⟨u, r⟩
  rw [hr] at e1 e2 e3 hleft
  simp only at e1 e2 e3 hleft
  subst e1
  simp only [hr]
  rw [if_neg hleft]
  rcases hkind with hk | hk
  · rw [e3, hk]
    simp only
    rw [e2]
    exact hmod
  · rw [e3, hk]
    simp only
    rw [draw_two_status _ rs _ (Nat.mod_lt _ (by decide))]
    simp only
    rw [e2]
    exact hmod

/-- Witness of C30: seat 0 plays its RED DRAW2 with direction `DIR_LEFT`; seat 1, who
holds thirteen cards, draws only one card, and the status becomes seat 2. -/
theorem skip_draw2_next_is_opposite_witness :
    ((gameDraw2AtLimit.play (fun _ => []) 0 Color.NONE).uno.player 1).handCards.length = 14 ∧
    (gameDraw2AtLimit.play (fun _ => []) 0 Color.NONE).uno.deck = [41, 42] ∧
    (gameDraw2AtLimit.play (fun _ => []) 0 Color.NONE).sStatus = (0 + 2) % 4 :=
  ⟨by decide, by decide,
    skip_draw2_next_is_opposite gameDraw2AtLimit (fun _ => []) 0 Color.NONE 0 (by decide)
      (by decide) (by decide) (by decide) (by decide)⟩

/-! ## The challenge and the turn order, hardAI of main.cpp, the statistics file -/

theorem draw_many_status (g : Game) (rs : Nat → List Nat) (who count : Nat) (hw : who < 4)
    (hc : count ≠ 1) : (g.draw rs who count).sStatus = (who + g.uno.direction) % 4 := by
  have hd := drawLoop_direction who rs count 0 { g with sStatus := STAT_IDLE }
  have hpass : ∀ g1 : Game, g1.uno.direction = g.uno.direction →
      (g1.pass who).sStatus = (who + g.uno.direction) % 4 := by
    intro g1 h1
    unfold Game.pass
    rw [if_pos hw, h1]
  unfold Game.draw
  simp only
  split
  · rw [if_neg (fun h => hc h.1)]
    exact hpass _ hd
  · exact hpass _ hd

/-- C31: in `onChallenge` of main.cpp, for a challenger seat, a direction `DIR_LEFT` or
`DIR_RIGHT` and a recent-played list of at least two cards, the call returns.  When the
challenge succeeds the result is that of `draw(prev, 4)` for the player who played the
wild +4, and the status handed to `onStatusChanged` is the challenger.  When there is no
challenge the result is that of `draw(challenger, 4)`, when the challenge fails that of
`draw(challenger, 6)`, and in both cases the status is the seat after the challenger in
the current direction.  So the status is the challenger exactly when the challenge
succeeds. -/
theorem onChallenge_next_seat (g : Game) (rs : Nat → List Nat) (challenger : Nat)
    (challenged : Bool) (hc : challenger < 4)
    (hdir : g.uno.direction = DIR_LEFT ∨ g.uno.direction = DIR_RIGHT)
    (hrec : 2 ≤ g.uno.recent.length) :
    ∃ g2, g.onChallenge rs challenger challenged = some g2 ∧
      (ChallengeSucceeds g.uno challenger challenged →
        g2 = ({ g with sChallengeAsk := false, sStatus := STAT_IDLE } : Game).draw rs
          (prevSeat challenger g.uno.direction) 4 ∧
        g2.sStatus = challenger) ∧
      (¬ ChallengeSucceeds g.uno challenger challenged →
        (challenged = false →
          g2 = ({ g with sChallengeAsk := false } : Game).draw rs challenger 4) ∧
        (challenged = true →
          g2 = ({ g with sChallengeAsk := false, sStatus := STAT_IDLE } : Game).draw rs
            challenger 6) ∧
        g2.sStatus = (challenger + g.uno.direction) % 4) ∧
      (g2.sStatus = challenger ↔ ChallengeSucceeds g.uno challenger challenged) := by
  obtain ⟨pre, a, b, hab⟩ := list_two_last g.uno.recent hrec
  have hprev : (challenger + 4 - g.uno.direction) % 4 = prevSeat challenger g.uno.direction := by
    unfold prevSeat
    rw [Nat.add_comm challenger 4]
  have hback : (prevSeat challenger g.uno.direction + g.uno.direction) % 4 = challenger := by
    unfold prevSeat
    rcases hdir with h | h <;> rw [h] <;> simp only [DIR_LEFT, DIR_RIGHT] <;> omega
  have hne : (challenger + g.uno.direction) % 4 ≠ challenger := by
    rcases hdir with h | h <;> rw [h] <;> simp only [DIR_LEFT, DIR_RIGHT] <;> omega
  have hplt : prevSeat challenger g.uno.direction < 4 := Nat.mod_lt _ (by decide)
  have hlegal : draw4IsLegal g.uno challenger =
      some (draw4IsLegalLoop g.uno (g.uno.card a).getRealColor
        (g.uno.player (prevSeat challenger g.uno.direction)).handCards true) := by
    unfold draw4IsLegal
    simp only
    rw [if_neg (by omega), hab, getElem?_next2last]
  unfold Game.onChallenge ChallengeSucceeds
  rw [hlegal]
  cases challenged with
  | false =>
    refine ⟨_, rfl, fun h => absurd h.1 (by decide),
      fun _ => ⟨fun _ => rfl, fun h => absurd h (by decide), ?_⟩, ?_⟩
    · exact draw_many_status _ rs challenger 4 hc (by decide)
    · rw [draw_many_status _ rs challenger 4 hc (by decide)]
      exact ⟨fun h => absurd h hne, fun h => absurd h.1 (by decide)⟩
  | true =>
    simp only [if_true]
    rw [if_neg (by omega), hab, getElem?_next2last, hprev]
    simp only
    cases hl : draw4IsLegalLoop g.uno (g.uno.card a).getRealColor
        (g.uno.player (prevSeat challenger g.uno.direction)).handCards true with
    | true =>
      refine ⟨_, rfl, fun h => ?_,
        fun _ => ⟨fun h => absurd h (by decide), fun _ => rfl, ?_⟩, ?_⟩
      · exact absurd (Option.some.inj h.2) (by decide)
      · exact draw_many_status _ rs challenger 6 hc (by decide)
      · rw [draw_many_status _ rs challenger 6 hc (by decide)]
        exact ⟨fun h => absurd h hne, fun h => absurd (Option.some.inj h.2) (by decide)⟩
    | false =>
      have hs := draw_many_status
        ({ g with sChallengeAsk := false, sStatus := STAT_IDLE } : Game) rs
        (prevSeat challenger g.uno.direction) 4 hplt (by decide)
      refine ⟨_, rfl, fun _ => ⟨rfl, ?_⟩, fun h => absurd ⟨trivial, rfl⟩ h, ?_⟩
      · rw [hs]; exact hback
      · constructor
        · intro _; exact ⟨trivial, rfl⟩
        · intro _; rw [hs]; exact hback

/-- Witness of C31: seat 1 challenges the wild +4 that seat 0 put on RED NUM3 while
holding RED NUM5; the challenge succeeds, seat 0 draws four cards and seat 1 is in
turn.  Without a challenge seat 1 draws four cards and seat 2 is in turn. -/
theorem onChallenge_next_seat_witness :
    ChallengeSucceeds gameChallenge.uno 1 true ∧
    (gameChallenge.onChallenge (fun _ => []) 1 true).map
      (fun g => (g.sStatus, (g.uno.player 0).handCards.length)) = some (1, 6) ∧
    (gameChallenge.onChallenge (fun _ => []) 1 false).map
      (fun g => (g.sStatus, (g.uno.player 1).handCards.length)) = some (2, 9) ∧
    (∃ g2, gameChallenge.onChallenge (fun _ => []) 1 true = some g2 ∧
      (ChallengeSucceeds gameChallenge.uno 1 true →
        g2 = ({ gameChallenge with sChallengeAsk := false, sStatus := STAT_IDLE } : Game).draw
          (fun _ => []) (prevSeat 1 gameChallenge.uno.direction) 4 ∧
        g2.sStatus = 1) ∧
      (¬ ChallengeSucceeds gameChallenge.uno 1 true →
        (true = false →
          g2 = ({ gameChallenge with sChallengeAsk := false } : Game).draw (fun _ => []) 1 4) ∧
        (true = true →
          g2 = ({ gameChallenge with sChallengeAsk := false, sStatus := STAT_IDLE } : Game).draw
            (fun _ => []) 1 6) ∧
        g2.sStatus = (1 + gameChallenge.uno.direction) % 4) ∧
      (g2.sStatus = 1 ↔ ChallengeSucceeds gameChallenge.uno 1 true)) :=
  ⟨⟨rfl, by decide⟩, by decide, by decide,
    onChallenge_next_seat gameChallenge (fun _ => []) 1 true (by decide) (by decide)
      (by decide)⟩

/-- C33 (evaluation at the failing input): seat 0 holds `[RED NUM5, WILD]` on GREEN NUM1,
the opposite player holds one card with RED as strong colour, the next and the previous
player hold three cards; the 7-0 strategy returns index 1, which denotes the WILD, with
the out-colour RED, the strong colour of the opposite player: the test at AI.cpp 1285
compares the best colour with `prevStrongColor`, which is NONE here. -/
theorem sevenZero_wild_declares_oppo_strong :
    (tableOppoDashRed.player tableOppoDashRed.getOppo).getHandSize = 1 ∧
    (tableOppoDashRed.player tableOppoDashRed.getNext).getHandSize = 3 ∧
    (tableOppoDashRed.player tableOppoDashRed.getPrev).getHandSize = 3 ∧
    (tableOppoDashRed.player tableOppoDashRed.getOppo).strongColor = Color.RED ∧
    (tableOppoDashRed.player tableOppoDashRed.getPrev).strongColor = Color.NONE ∧
    handAt (tableOppoDashRed.player tableOppoDashRed.now).handCards 1 = some 1 ∧
    (tableOppoDashRed.card 1).isWild = true ∧
    sevenZeroAI_bestCardIndex4NowPlayer tableOppoDashRed none = some (1, Color.RED) := by
  decide

theorem mainHardPrev_wildDraw4 (u : Uno) (v : MainLocals) (rands : List Nat)
    (r : Int × Color) (hlast : v.lastColor = v.prevDanger)
    (hskip : ¬ (v.hasSkip = true ∧ colorAt u v.hand v.st.idxSkip ≠ v.prevDanger))
    (hwild : v.st.idxWild = -1) (hwd4 : 0 ≤ v.st.idxWildDraw4)
    (hr : mainHardPrev u v rands = some r) : r.1 = -1 := by
  have hw : v.hasWild = false := by
    unfold MainLocals.hasWild
    rw [hwild]
    decide
  have hd : v.hasWildDraw4 = true := by
    unfold MainLocals.hasWildDraw4
    exact decide_eq_true hwd4
  unfold mainHardPrev at hr
  simp only at hr
  rw [if_pos hlast, if_neg hskip, if_neg (by simp [hw]), if_pos hd] at hr
  cases hc : randomColorLoop (dangerLoopCond v.prevDanger v.nextDanger v.oppoDanger)
      v.bestColor rands with
  | none => rw [hc] at hr; cases hr
  | some c =>
    rw [hc] at hr
    simp only [Option.map_some'] at hr
    rw [← Option.some.inj hr]
    exact hwild

/-- C32 (evaluation at the failing input): seat 0 holds `[BLUE NUM5, WILD_DRAW4]` on
RED NUM3, the previous player holds one card and has RED as dangerous colour, the next
player holds three cards; no SKIP and no WILD is legal, the WILD_DRAW4 at index 1 is.
The scan leaves `idxWild = -1` and `idxWildDraw4 = 1`, the decision tree of `hardAI`
leaves `idxBest = -1`, and the iteration draws a card instead of playing the
WILD_DRAW4: the status handed on is seat 1 and seat 0 holds three cards. -/
theorem mainHardAI_draws_instead_of_wildDraw4 :
    ((gamePrevDash.uno.player 3).handCards.length = 1 ∧
      (gamePrevDash.uno.player 1).handCards.length = 3 ∧
      (gamePrevDash.uno.card 3).getRealColor = dangerPrevRed 3) ∧
    (gamePrevDash.legal 2 = false ∧ gamePrevDash.legal 7 = true ∧
      (gamePrevDash.uno.card 7).content = Content.WILD_DRAW4 ∧
      handAt (gamePrevDash.uno.player 0).handCards 1 = some 7) ∧
    ((mainLocals gamePrevDash dangerPrevRed Color.BLUE 3).st.idxWild = -1 ∧
      (mainLocals gamePrevDash dangerPrevRed Color.BLUE 3).st.idxWildDraw4 = 1) ∧
    mainHardDecision gamePrevDash.uno (mainLocals gamePrevDash dangerPrevRed Color.BLUE 3) []
      = some (-1, Color.BLUE) ∧
    gamePrevDash.hardAIAction dangerPrevRed Color.BLUE [] = some AIAction.draw ∧
    (gamePrevDash.hardAIStep dangerPrevRed Color.BLUE [] (fun _ => [])).map
      (fun g => (g.sStatus, (g.uno.player 0).handCards.length, g.uno.recent)) =
      some (1, 3, [3]) := by
  decide

theorem wrap32_range (x : Int) : -2147483648 ≤ wrap32 x ∧ wrap32 x < 2147483648 := by
  unfold wrap32
  omega

theorem bytesInt_intBytes (x : Int) (h : -2147483648 ≤ x ∧ x < 2147483648) :
    bytesInt (intBytes x) = x := by
  unfold bytesInt intBytes wrap32
  simp only [List.getD_cons_zero, List.getD_cons_succ]
  have h0 : 0 ≤ x % 4294967296 := Int.emod_nonneg _ (by decide)
  have h1 : x % 4294967296 < 4294967296 := Int.emod_lt_of_pos _ (by decide)
  generalize hn : (x % 4294967296).toNat = n
  have hn2 : (n : Int) = x % 4294967296 := by rw [← hn]; exact Int.toNat_of_nonneg h0
  have hlt : n < 4294967296 := by omega
  have e : n % 256 + 256 * (n / 256 % 256) + 65536 * (n / 65536 % 256) +
      16777216 * (n / 16777216 % 256) = n := by omega
  rw [e, hn2]
  omega

theorem quitWrite_length (s : Stats) : (quitWrite s).length = 28 := rfl

theorem quitWrite_reads (s : Stats) :
    readBytes (quitWrite s) 0 8 = FILE_HEADER.take 8 ∧
    readBytes (quitWrite s) 8 4 = intBytes s.sEasyWin ∧
    readBytes (quitWrite s) 12 4 = intBytes s.sHardWin ∧
    readBytes (quitWrite s) 16 4 = intBytes s.sEasyTotal ∧
    readBytes (quitWrite s) 20 4 = intBytes s.sHardTotal ∧
    readBytes (quitWrite s) 24 4 = intBytes s.sum :=
  ⟨rfl, rfl, rfl, rfl, rfl, rfl⟩

theorem loadStats_quitWrite (s : Stats) (h : s.InRange) :
    loadStats (some (quitWrite s)) = s := by
  obtain ⟨r1, r2, r3, r4, r5, r6⟩ := quitWrite_reads s
  obtain ⟨h1, h2, h3, h4⟩ := h
  unfold loadStats readCounters
  simp only
  rw [quitWrite_length, r1, r2, r3, r4, r5, r6, bytesInt_intBytes _ h1, bytesInt_intBytes _ h2,
    bytesInt_intBytes _ h3, bytesInt_intBytes _ h4]
  have hs : bytesInt (intBytes s.sum) = s.sum := bytesInt_intBytes _ (wrap32_range _)
  rw [hs, if_pos (by decide), if_neg]
  intro hc
  rcases hc with hc | hc
  · exact hc (by decide)
  · exact hc rfl

theorem cString_eq_imp (h H : List Nat) (hlen : h.length = H.length)
    (hc : cString (h ++ [0]) = H) : h = H := by
  induction h generalizing H with
  | nil =>
    cases H with
    | nil => rfl
    | cons b t => simp at hlen
  | cons a t ih =>
    cases H with
    | nil => simp at hlen
    | cons b H2 =>
      unfold cString at hc
      simp only [List.cons_append, List.takeWhile_cons] at hc
      by_cases ha : a = 0
      · simp [ha] at hc
      · simp only [ha, ne_eq, not_false_eq_true, decide_True, ite_true, List.cons.injEq] at hc
        obtain ⟨e1, e2⟩ := hc
        rw [e1, ih H2 (by simpa using hlen) e2]

theorem readBytes_append (A R : List Nat) (pos n : Nat) (h : pos + n ≤ A.length) :
    readBytes (A ++ R) pos n = readBytes A pos n := by
  unfold readBytes
  rw [List.drop_append_of_le_length (by omega),
    List.take_append_of_le_length (by rw [List.length_drop]; omega)]

theorem loadStats_append (A R : List Nat) (hA : A.length = 28)
    (hlen : wrap32 ((A ++ R).length : Int) = 28) :
    loadStats (some (A ++ R)) = loadStats (some A) := by
  unfold loadStats readCounters
  simp only
  rw [hlen, hA]
  rw [readBytes_append A R 0 8 (by omega), readBytes_append A R 8 4 (by omega),
    readBytes_append A R 12 4 (by omega), readBytes_append A R 16 4 (by omega),
    readBytes_append A R 20 4 (by omega), readBytes_append A R 24 4 (by omega)]
  rfl

theorem loadStats_other_length (bytes : List Nat)
    (h : (bytes.length : Int) % 4294967296 ≠ 28) : loadStats (some bytes) = Stats.zero := by
  unfold loadStats
  simp only
  rw [if_neg]
  unfold wrap32
  omega

theorem loadStats_other_header (bytes : List Nat)
    (h : readBytes bytes 0 8 ≠ FILE_HEADER.take 8) : loadStats (some bytes) = Stats.zero := by
  by_cases hl : (bytes.length : Int) % 4294967296 = 28
  · have h28 : 28 ≤ bytes.length := by omega
    have hlen : (readBytes bytes 0 8).length = (FILE_HEADER.take 8).length := by
      unfold readBytes
      rw [List.length_take, List.length_drop]
      have : (List.take 8 FILE_HEADER).length = 8 := rfl
      omega
    unfold loadStats
    simp only
    split_ifs with h1 h2
    · rfl
    · exact absurd (cString_eq_imp _ _ hlen (by
        have := not_or.mp h2
        exact (not_not.mp this.1).trans (by decide))) h
    · rfl
  · exact loadStats_other_length bytes hl

theorem loadStats_bad_checksum (bytes : List Nat)
    (h : bytesInt (readBytes bytes 24 4) ≠ (readCounters bytes).sum) :
    loadStats (some bytes) = Stats.zero := by
  unfold loadStats
  simp only
  split_ifs with h1 h2
  · rfl
  · exact absurd (not_not.mp (not_or.mp h2).2) h
  · rfl

/-- C34 (evaluation at the failing input): a file of 4294967324 bytes, the 28 bytes
written for the counters 1, 2, 3, 4 followed by 4294967296 zero bytes, is accepted by the
loader: its length converted to `int` by `(int)reader.tellg()` is 28, and the counters
1, 2, 3, 4 are restored although the length of the file is not 28. -/
theorem huge_file_accepted :
    hugeStatFile.length = 4294967324 ∧ hugeStatFile.length ≠ 28 ∧
    loadStats (some hugeStatFile) =
      { sEasyWin := 1, sHardWin := 2, sEasyTotal := 3, sHardTotal := 4 } ∧
    loadStats (some hugeStatFile) ≠ Stats.zero := by
  have hl : hugeStatFile.length = 4294967324 := by
    unfold hugeStatFile
    rw [List.length_append, List.length_replicate, quitWrite_length]
  have e : loadStats (some hugeStatFile) =
      { sEasyWin := 1, sHardWin := 2, sEasyTotal := 3, sHardTotal := 4 } := by
    have hw : wrap32 (hugeStatFile.length : Int) = 28 := by
      rw [hl]
      decide
    unfold hugeStatFile at hw ⊢
    rw [loadStats_append _ _ (quitWrite_length _) hw]
    exact loadStats_quitWrite _ (by decide)
  refine ⟨hl, by rw [hl]; decide, e, ?_⟩
  rw [e]
  decide

/-- What holds of the quit handler and of the loader: for four counters that fit in an
`int`, the quit handler writes 28 bytes and the loader restores exactly these counters
from them; a file that cannot be opened, a file whose length converted to `int` is not
28 (so every file shorter than 4 GiB of a length other than 28), a file whose first
eight bytes are not the header, and a file whose checksum differs from the wrapped sum
of its four counters leave all four counters at 0. -/
theorem stats_round_trip (s : Stats) (h : s.InRange) :
    ((quitWrite s).length = 28 ∧ loadStats (some (quitWrite s)) = s) ∧
    loadStats none = Stats.zero ∧
    (∀ bytes : List Nat, (bytes.length : Int) % 4294967296 ≠ 28 →
      loadStats (some bytes) = Stats.zero) ∧
    (∀ bytes : List Nat, bytes.length < 4294967296 → bytes.length ≠ 28 →
      loadStats (some bytes) = Stats.zero) ∧
    (∀ bytes : List Nat, readBytes bytes 0 8 ≠ FILE_HEADER.take 8 →
      loadStats (some bytes) = Stats.zero) ∧
    (∀ bytes : List Nat, bytesInt (readBytes bytes 24 4) ≠ (readCounters bytes).sum →
      loadStats (some bytes) = Stats.zero) :=
  ⟨⟨quitWrite_length s, loadStats_quitWrite s h⟩, rfl, loadStats_other_length,
    fun bytes h1 h2 => loadStats_other_length bytes (by omega), loadStats_other_header,
    loadStats_bad_checksum⟩

/-! ## The out-colour of a wild card -/

/-- C6 (amended): for each of the three strategies and every input whose acting hand
does not hold exactly one card, whenever the returned index denotes a wild card the
out-colour is one of RED, BLUE, GREEN, YELLOW, never NONE. -/
theorem wild_outColor_declarable (u : Uno) (drawnCard : Option CardPtr)
    (hsize : (u.player u.now).handCards.length ≠ 1) :
    (∀ i c, easyAI_bestCardIndex4NowPlayer u drawnCard = some (i, c) →
      ∀ p, handAt (u.player u.now).handCards i = some p → (u.card p).isWild = true →
        c ∈ [Color.RED, Color.BLUE, Color.GREEN, Color.YELLOW]) ∧
    (∀ rands i c, hardAI_bestCardIndex4NowPlayer u drawnCard rands = some (i, c) →
      ∀ p, handAt (u.player u.now).handCards i = some p → (u.card p).isWild = true →
        c ∈ [Color.RED, Color.BLUE, Color.GREEN, Color.YELLOW]) ∧
    (∀ i c, sevenZeroAI_bestCardIndex4NowPlayer u drawnCard = some (i, c) →
      ∀ p, handAt (u.player u.now).handCards i = some p → (u.card p).isWild = true →
        c ∈ [Color.RED, Color.BLUE, Color.GREEN, Color.YELLOW]) := by
  have real : ∀ c : Color, c ≠ Color.NONE →
      c ∈ [Color.RED, Color.BLUE, Color.GREEN, Color.YELLOW] := by
    intro c hc
    cases c <;> first | exact absurd rfl hc | decide
  refine ⟨fun i c h p _ _ => ?_, fun rands i c h p hp hw => ?_, fun i c h p _ _ => ?_⟩
  · cases hl : u.recent.getLast? with
    | none =>
      rw [easyAI_none_of_no_recent u drawnCard hsize hl] at h
      cases h
    | some last =>
      rw [easyAI_eq u drawnCard hsize last hl] at h
      have e := congrArg Prod.snd (Option.some.inj h)
      simp only at e
      rw [← e]
      exact real _ (calcBestColor_ne_none u)
  · cases hl : u.recent.getLast? with
    | none =>
      rw [hardAI_none_of_no_recent u drawnCard rands hsize hl] at h
      cases h
    | some last =>
      rw [hardAI_eq u drawnCard rands hsize last hl] at h
      exact real _ (hardDecision_wildLeaf u drawnCard _ (hardLocals_inv u drawnCard last)
        (calcBestColor_ne_none u) rands _ h p hp hw).1
  · cases hl : u.recent.getLast? with
    | none =>
      rw [sevenZeroAI_none_of_no_recent u drawnCard hsize hl] at h
      cases h
    | some last =>
      rw [sevenZeroAI_eq u drawnCard hsize last hl] at h
      have e := congrArg Prod.snd (Option.some.inj h)
      simp only at e
      rw [← e]
      exact real _ (calcBestColor_ne_none u)

/-- Witness of C6 (amended): on RED NUM3 the next player holds one card with RED as
strong colour; with `rand()` yielding RED twice and then GREEN the hard strategy plays
the WILD at index 1 with GREEN declared; on BLUE NUM5 with the next player at one card
the easy strategy plays the WILD at index 1 with RED, the best colour, declared. -/
theorem wild_outColor_declarable_witness :
    hardAI_bestCardIndex4NowPlayer tableNextDashRed none [0, 4, 6] = some (1, Color.GREEN) ∧
    easyAI_bestCardIndex4NowPlayer tableNextHoldsOne none = some (1, Color.RED) ∧
    (tableNextHoldsOne.card 1).isWild = true ∧
    Color.GREEN ∈ [Color.RED, Color.BLUE, Color.GREEN, Color.YELLOW] ∧
    Color.RED ∈ [Color.RED, Color.BLUE, Color.GREEN, Color.YELLOW] :=
  ⟨by decide, by decide, by decide,
    (wild_outColor_declarable tableNextDashRed none (by decide)).2.1 [0, 4, 6] 1 Color.GREEN
      (by decide) 1 (by decide) (by decide),
    (wild_outColor_declarable tableNextHoldsOne none (by decide)).1 1 Color.RED
      (by decide) 1 (by decide) (by decide)⟩

end UnoCard
